import Mathlib

/-!
# Complaint lifecycle and escalation engine

A shallow embedding of the backend of the complaint management system:
the complaint document (`models/Complaint.js`), the request handlers of
`controllers/complaintContoller.js` and the hourly job of `utils/cronJobs.js`.

Conventions of the embedding

* A `Date` is its millisecond timestamp, an integer.  Every clock read made
  while one handler or one run of the job executes returns the same instant,
  the parameter `now`.  A JavaScript `Date` holds at most `maxTime`
  milliseconds on either side of the epoch: where a handler builds a date from
  a number of the request, an integer outside that range stands for
  `Invalid Date`, which `save()` rejects at the path `deadline`.  The stored
  dates are valid dates; the clock is a valid date and stays one when 24 hours
  are added or subtracted.
* The database is a value of type `Db`; a handler maps the database before the
  request to an `Outcome`: the HTTP response, the database after the request and
  the calls made to the mail service.
* `Model.findById` is a search by `_id`, `doc.save()` replaces the stored
  document that has the `_id` of `doc`.
* Calls to external services are recorded as `Effect`s.  Whether an awaited
  call of the job is delivered is decided by a parameter `deliver`.
* `deadlineChecker` is the job when every save succeeds; in `deadlineCheckerWith`
  a save of the job may throw as well, as a parameter `store` decides.
-/

namespace ComplaintSys

/-! ## Data model -/

abbrev ObjectId := Nat

abbrev Date := Int

/-- The largest time value of a JavaScript `Date`: 100 000 000 days, in milliseconds. -/
def maxTime : Int := 8640000000000000

/-- Whether `new Date(t)` is a valid date: a time value beyond `maxTime` on either side
of the epoch gives `Invalid Date`. -/
def isValidTime (t : Int) : Bool :=
  decide (-maxTime ≤ t ∧ t ≤ maxTime)

/-- The values of the schema path `status` (the `enum` of `models/Complaint.js`). -/
inductive Status
  | pending
  | assigned
  | in_progress
  | resolved
  | verified
  | rejected
  | escalated
  | social_media
  deriving DecidableEq, Repr

/-- The enum validator of the path `status`: the strings that `save()` accepts. -/
def Status.ofString (s : String) : Option Status :=
  if s = "pending" then some .pending
  else if s = "assigned" then some .assigned
  else if s = "in_progress" then some .in_progress
  else if s = "resolved" then some .resolved
  else if s = "verified" then some .verified
  else if s = "rejected" then some .rejected
  else if s = "escalated" then some .escalated
  else if s = "social_media" then some .social_media
  else none

/-- An element of `images`. -/
structure Image where
  url : String
  public_id : String
  deriving DecidableEq, Repr

/-- An element of `resolution.proof`. -/
structure Proof where
  url : String
  public_id : String
  type : String
  deriving DecidableEq, Repr

/-- The path `location`; coordinates are kept as the text of the two numbers,
longitude first. -/
structure Location where
  type : String
  coordinates : List String
  address : String
  deriving DecidableEq, Repr

/-- The nested path `resolution`. -/
structure Resolution where
  proof : List Proof
  description : Option String
  resolvedAt : Option Date
  resolvedBy : Option ObjectId
  deriving DecidableEq, Repr

/-- The nested path `userConsent`. -/
structure UserConsent where
  given : Bool
  givenAt : Option Date
  feedback : Option String
  rating : Option Nat
  deriving DecidableEq, Repr

/-- An element of `escalationHistory`. -/
structure EscalationEntry where
  level : Nat
  escalatedAt : Date
  reason : Option String
  escalatedBy : Option ObjectId
  deriving DecidableEq, Repr

/-- An element of `warnings`. -/
structure Warning where
  type : String
  sentAt : Date
  sentTo : Option ObjectId
  deriving DecidableEq, Repr

/-- A complaint document (`complaintSchema`). -/
structure Complaint where
  _id : ObjectId
  user : ObjectId
  title : String
  description : String
  category : String
  department : String
  images : List Image
  location : Location
  priority : String
  deadline : Date
  escalationLevel : Nat
  assignedTo : Option ObjectId
  status : Status
  resolution : Resolution
  userConsent : UserConsent
  escalationHistory : List EscalationEntry
  warnings : List Warning
  createdAt : Date
  updatedAt : Date
  deriving DecidableEq, Repr

/-- Modelled from the spec: the user model (`models/User.js`) is not among the
sources.  An actor is an identity with a role tag; the record has the paths
that the handlers read. -/
structure User where
  _id : ObjectId
  name : String
  email : String
  userType : String
  department : String
  deriving DecidableEq, Repr

/-- The two collections. -/
structure Db where
  complaints : List Complaint
  users : List User
  deriving DecidableEq, Repr

/-- `Complaint.findById(id)`. -/
def Db.findById (db : Db) (id : ObjectId) : Option Complaint :=
  db.complaints.find? (fun c => c._id == id)

/-- `complaint.save()` for a document that was read from the collection. -/
def Db.save (db : Db) (complaint : Complaint) : Db :=
  { db with
    complaints := db.complaints.map (fun d => if d._id == complaint._id then complaint else d) }

/-- `User.findById(id)`. -/
def Db.findUserById (db : Db) (id : ObjectId) : Option User :=
  db.users.find? (fun u => u._id == id)

/-- `User.findOne` by `userType`: the first user of that type. -/
def Db.findOneUserByType (db : Db) (userType : String) : Option User :=
  db.users.find? (fun u => u.userType == userType)

/-! ## Requests, responses, effects -/

/-- A scalar of a request body: absent, a number or a string. A number is held as
the string that `String(v)` makes of it (`"5"`, `"-5"`, `"5.9"`, `"1e+21"`, `"NaN"`),
which is all that `parseInt`, `isNaN` and `!` read of a number. -/
inductive JsVal
  | undefined
  | num (text : String)
  | str (s : String)
  deriving DecidableEq, Repr

/-- White space skipped by `parseInt`. -/
def isJsWhiteSpace (ch : Char) : Bool :=
  [0x09, 0x0A, 0x0B, 0x0C, 0x0D, 0x20, 0xA0, 0x1680, 0x2028, 0x2029, 0x202F, 0x205F,
    0x3000, 0xFEFF].contains ch.toNat || (0x2000 ≤ ch.toNat && ch.toNat ≤ 0x200A)

/-- The value of a character as a digit of the given radix. -/
def digitValue (radix : Nat) (ch : Char) : Option Nat :=
  let v : Option Nat :=
    if '0' ≤ ch ∧ ch ≤ '9' then some (ch.toNat - 48)
    else if 'a' ≤ ch ∧ ch ≤ 'z' then some (ch.toNat - 87)
    else if 'A' ≤ ch ∧ ch ≤ 'Z' then some (ch.toNat - 55)
    else none
  match v with
  | some d => if d < radix then some d else none
  | none => none

/-- The longest run of leading digits, as their values. -/
def leadingDigits (radix : Nat) : List Char → List Nat
  | [] => []
  | ch :: rest =>
    match digitValue radix ch with
    | some d => d :: leadingDigits radix rest
    | none => []

/-- `parseInt` of a string, radix argument absent; `none` is `NaN`. -/
def parseIntString (s : String) : Option Int :=
  let cs := s.toList.dropWhile isJsWhiteSpace
  let signed : Bool × List Char :=
    match cs with
    | '-' :: rest => (true, rest)
    | '+' :: rest => (false, rest)
    | _ => (false, cs)
  let based : Nat × List Char :=
    match signed.2 with
    | '0' :: 'x' :: rest => (16, rest)
    | '0' :: 'X' :: rest => (16, rest)
    | _ => (10, signed.2)
  let digits := leadingDigits based.1 based.2
  if digits.isEmpty then none
  else
    let magnitude : Nat := digits.foldl (fun acc d => acc * based.1 + d) 0
    some (if signed.1 then - (magnitude : Int) else (magnitude : Int))

/-- `parseInt(v)`; `none` is `NaN`. The argument is first converted to a string. -/
def parseInt : JsVal → Option Int
  | .undefined => none
  | .num text => parseIntString text
  | .str s => parseIntString s

/-- `parseInt(v) || dflt`: the default replaces `NaN` and zero. -/
def parseIntOr (v : JsVal) (dflt : Int) : Int :=
  match parseInt v with
  | none => dflt
  | some n => if n = 0 then dflt else n

/-- The authenticated user of a request, `req.user`. -/
structure Actor where
  _id : ObjectId
  userType : String
  deriving DecidableEq, Repr

/-- What `uploadToCloudinary` resolves to. -/
structure UploadResult where
  secure_url : String
  public_id : String
  resource_type : String
  deriving DecidableEq, Repr

/-- An exception that reaches the `catch` of a handler. -/
inductive Failure
  | validation (path : String)
  | nullProperty (property : String)
  | upload
  | duplicateKey
  deriving DecidableEq, Repr

/-- The JSON body of a response: a message, a complaint, the message of a caught
exception, the error list of a refused creation, the answer to a creation, or a list
of complaints. -/
inductive Body
  | message (text : String)
  | complaint (doc : Complaint)
  | error (e : Failure)
  | validationFailed (errors : List String)
  | created (doc : Complaint)
  | complaints (docs : List Complaint)
  deriving DecidableEq, Repr

/-- An HTTP response. -/
structure Response where
  code : Nat
  body : Body
  deriving DecidableEq, Repr

/-- A call to an external service. -/
inductive Effect
  | sendEmail (recipient subject text : String)
  | sendWarningEmail (user : User) (complaint : Complaint) (warningType : String)
  | postToSocialMedia (complaint : Complaint)
  deriving DecidableEq, Repr

/-- The result of a handler. -/
structure Outcome where
  res : Response
  db : Db
  effects : List Effect
  deriving DecidableEq, Repr

/-! ## Request handlers (`controllers/complaintContoller.js`) -/

/-- The `404` answer of every handler when `findById` finds nothing. -/
def notFound (db : Db) : Outcome :=
  { res := { code := 404, body := .message "Complaint not found" }, db := db, effects := [] }

/-- The answer of the `catch` block: the exception is reported with status `500`. -/
def caught (db : Db) (e : Failure) (effects : List Effect) : Outcome :=
  { res := { code := 500, body := .error e }, db := db, effects := effects }

/-- `updateComplaintStatus`: `status` is `req.body.status`. -/
def updateComplaintStatus (db : Db) (now : Date) (actor : Actor) (id : ObjectId)
    (status : String) : Outcome :=
  match db.findById id with
  | none => notFound db
  | some complaint =>
    -- Check if deadline has passed
    if complaint.deadline < now ∧ status ≠ "resolved" then
      { res := { code := 400,
                 body := .message "Deadline has passed. Please escalate or extend deadline." },
        db := db, effects := [] }
    else
      match Status.ofString status with
      | none => caught db (.validation "status") []
      | some s =>
        let complaint := { complaint with status := s, updatedAt := now }
        let complaint :=
          if s = .in_progress ∧ complaint.assignedTo = none then
            { complaint with assignedTo := some actor._id }
          else complaint
        { res := { code := 200, body := .complaint complaint },
          db := db.save complaint, effects := [] }

/-- The upload loop of `submitResolution`: `Promise.all` over the uploads of
`req.files`; an element `none` is an upload that rejects. -/
def uploadAll : List (Option UploadResult) → Option (List UploadResult)
  | [] => some []
  | none :: _ => none
  | some r :: rest =>
    match uploadAll rest with
    | none => none
    | some rs => some (r :: rs)

/-- The proof entry made from one upload result. -/
def proofOfUpload (result : UploadResult) : Proof :=
  { url := result.secure_url, public_id := result.public_id,
    type := if result.resource_type = "video" then "video" else "image" }

/-- `submitResolution`: `description` is `req.body.description`, `files` holds
for each file of `req.files` what its upload resolves to. -/
def submitResolution (db : Db) (now : Date) (actor : Actor) (id : ObjectId)
    (description : Option String) (files : List (Option UploadResult)) : Outcome :=
  match db.findById id with
  | none => notFound db
  | some complaint =>
    if complaint.deadline < now then
      { res := { code := 400,
                 body := .message "Cannot submit resolution after deadline. Please escalate." },
        db := db, effects := [] }
    else
      match uploadAll files with
      | none => caught db .upload []
      | some results =>
        let proof := results.map proofOfUpload
        let complaint :=
          { complaint with
            resolution := { proof := proof, description := description,
                            resolvedAt := some now, resolvedBy := some actor._id },
            status := .resolved,
            updatedAt := now }
        let db := db.save complaint
        -- Notify user about resolution
        match db.findUserById complaint.user with
        | none => caught db (.nullProperty "email") []
        | some user =>
          { res := { code := 200, body := .complaint complaint },
            db := db,
            effects := [.sendEmail user.email "Your Complaint Has Been Resolved"
              ("Your complaint \"" ++ complaint.title ++
                "\" has been resolved. Please review and give consent.")] }

/-- `escalateComplaint`: `reason` is `req.body.reason`. -/
def escalateComplaint (db : Db) (now : Date) (actor : Actor) (id : ObjectId)
    (reason : Option String) : Outcome :=
  match db.findById id with
  | none => notFound db
  | some complaint =>
    if complaint.escalationLevel ≥ 3 then
      { res := { code := 400, body := .message "Complaint already at maximum escalation level" },
        db := db, effects := [] }
    else
      let complaint := { complaint with escalationLevel := complaint.escalationLevel + 1 }
      let complaint :=
        { complaint with
          escalationHistory := complaint.escalationHistory ++
            [({ level := complaint.escalationLevel, escalatedAt := now, reason := reason,
                escalatedBy := some actor._id } : EscalationEntry)] }
      -- Reset assignment based on escalation level
      let complaint := { complaint with assignedTo := none }
      let complaint :=
        if complaint.escalationLevel = 2 then
          match db.findOneUserByType "l2_officer" with
          | some l2Officer => { complaint with assignedTo := some l2Officer._id }
          | none => complaint
        else if complaint.escalationLevel = 3 then
          match db.findOneUserByType "l3_officer" with
          | some l3Officer => { complaint with assignedTo := some l3Officer._id }
          | none => complaint
        else complaint
      -- Extend deadline when escalating
      let complaint :=
        { complaint with
          deadline := now + 24 * 60 * 60 * 1000,
          status := .escalated,
          updatedAt := now }
      let db := db.save complaint
      -- Notify assigned officer
      match complaint.assignedTo with
      | none => { res := { code := 200, body := .complaint complaint }, db := db, effects := [] }
      | some assignee =>
        match db.findUserById assignee with
        | none => caught db (.nullProperty "email") []
        | some officer =>
          { res := { code := 200, body := .complaint complaint },
            db := db,
            effects := [.sendEmail officer.email "Complaint Escalated to You"
              ("A complaint has been escalated to your level: " ++ complaint.title)] }

/-- `extendDeadline`: `additionalHours` is `req.body.additionalHours`. -/
def extendDeadline (db : Db) (now : Date) (actor : Actor) (id : ObjectId)
    (additionalHours : JsVal) : Outcome :=
  match db.findById id with
  | none => notFound db
  | some complaint =>
    -- Only L2 and L3 officers can extend deadlines
    if ¬ (actor.userType = "l2_officer" ∨ actor.userType = "l3_officer") then
      { res := { code := 403, body := .message "Only L2 or L3 officers can extend deadlines" },
        db := db, effects := [] }
    else
      let hours := parseIntOr additionalHours 24
      let deadline := complaint.deadline + hours * 60 * 60 * 1000
      if isValidTime deadline then
        let complaint := { complaint with deadline := deadline, updatedAt := now }
        { res := { code := 200, body := .complaint complaint },
          db := db.save complaint, effects := [] }
      else
        -- the new date is invalid and `save()` rejects it
        caught db (.validation "deadline") []

/-! ## Answers to requests that come after the deadline -/

/-- The answer of `updateComplaintStatus` to a request that comes after the deadline. -/
def deadlinePassed (db : Db) : Outcome :=
  { res := { code := 400,
             body := .message "Deadline has passed. Please escalate or extend deadline." },
    db := db, effects := [] }

/-- The answer of `submitResolution` to a request that comes after the deadline. -/
def resolutionAfterDeadline (db : Db) : Outcome :=
  { res := { code := 400,
             body := .message "Cannot submit resolution after deadline. Please escalate." },
    db := db, effects := [] }

/-! ## Creation (`createComplaint` and the route `POST /create`) -/

/-- `String.prototype.trim`. -/
def jsTrim (s : String) : String :=
  String.mk ((s.toList.dropWhile isJsWhiteSpace).reverse.dropWhile isJsWhiteSpace).reverse

/-- The `enum` of the path `category`. -/
def categoryValues : List String :=
  ["pothole", "garbage", "water_leakage", "electricity", "road_damage", "health_issue",
    "public_nuisance"]

/-- The `enum` of the path `department`. -/
def departmentValues : List String :=
  ["cleanliness", "construction", "healthcare", "water", "electricity", "road"]

/-- The `enum` of the path `priority`. -/
def priorityValues : List String := ["low", "medium", "high", "critical"]

/-- The paths of a new document that the validators of `complaintSchema` reject when it
is saved. A required string that is absent is held as the empty string, which `required`
rejects as well; a `deadline` outside the range of a `Date` is an invalid date, which the
cast to `Date` rejects. -/
def invalidPaths (c : Complaint) : List String :=
  (if c.title = "" then ["title"] else []) ++
  (if c.description = "" then ["description"] else []) ++
  (if categoryValues.contains c.category then [] else ["category"]) ++
  (if departmentValues.contains c.department then [] else ["department"]) ++
  (if priorityValues.contains c.priority then [] else ["priority"]) ++
  (if isValidTime c.deadline then [] else ["deadline"]) ++
  (if 1 ≤ c.escalationLevel ∧ c.escalationLevel ≤ 3 then [] else ["escalationLevel"])

/-- The body of a creation request. `location` is the value that the handler stores at
the path `location`: the conversion of longitude and latitude to numbers is taken as
given. -/
structure CreateBody where
  title : Option String
  description : Option String
  category : Option String
  department : Option String
  priority : Option String
  deadlineHours : JsVal
  location : Location
  deriving DecidableEq, Repr

/-- The insertion of a new document by `save()`; `none` is the duplicate-key error of
an `_id` that is already stored. -/
def Db.insert (db : Db) (complaint : Complaint) : Option Db :=
  match db.findById complaint._id with
  | some _ => none
  | none => some { db with complaints := db.complaints ++ [complaint] }

/-- The document made by `new Complaint` in `createComplaint`, with the defaults of the
schema; `newId` is the `_id` that is generated for it. -/
def newComplaint (now : Date) (actor : Actor) (newId : ObjectId) (body : CreateBody) :
    Complaint :=
  -- Validate minimum 4 hours
  let hours := max 4 (parseIntOr body.deadlineHours 4)
  let deadline := now + hours * 60 * 60 * 1000
  { _id := newId,
    user := actor._id,
    title := jsTrim (body.title.getD ""),
    description := body.description.getD "",
    category := body.category.getD "",
    department := body.department.getD "",
    images := [],
    location := body.location,
    priority := body.priority.getD "medium",
    deadline := deadline,
    escalationLevel := 1,
    assignedTo := none,
    status := .pending,
    resolution := { proof := [], description := none, resolvedAt := none, resolvedBy := none },
    userConsent := { given := false, givenAt := none, feedback := none, rating := none },
    escalationHistory := [],
    warnings := [],
    createdAt := now,
    updatedAt := now }

/-- The image entry made from one upload result. -/
def imageOfUpload (result : UploadResult) : Image :=
  { url := result.secure_url, public_id := result.public_id }

/-- `createComplaint`: `files` holds for each file of `req.files` what its upload
resolves to. -/
def createComplaint (db : Db) (now : Date) (actor : Actor) (newId : ObjectId)
    (body : CreateBody) (files : List (Option UploadResult)) : Outcome :=
  let complaint := newComplaint now actor newId body
  -- Upload images if provided
  match uploadAll files with
  | none => caught db .upload []
  | some results =>
    let complaint := { complaint with images := results.map imageOfUpload }
    match invalidPaths complaint with
    | path :: _ => caught db (.validation path) []
    | [] =>
      match db.insert complaint with
      | none => caught db .duplicateKey []
      | some db =>
        -- Find department users to notify
        let departmentUsers := db.users.filter
          (fun u => u.userType == "department" && u.department == complaint.department)
        { res := { code := 201, body := .complaint complaint },
          db := db,
          effects := departmentUsers.map (fun user =>
            Effect.sendEmail user.email "New Complaint Assigned"
              ("A new complaint has been assigned to your department: " ++ complaint.title)) }

/-- Whether `!v` holds. -/
def jsFalsy : JsVal → Bool
  | .undefined => true
  | .num text => text == "0" || text == "NaN"
  | .str s => s == ""

/-- Whether the characters are one or more digits of the radix. -/
def allDigits (radix : Nat) (cs : List Char) : Bool :=
  !cs.isEmpty && cs.all (fun ch => (digitValue radix ch).isSome)

/-- Whether the characters are an exponent part, or nothing. -/
def isExponentPart : List Char → Bool
  | [] => true
  | e :: rest =>
    (e == 'e' || e == 'E') &&
      (match rest with
       | '+' :: ds => allDigits 10 ds
       | '-' :: ds => allDigits 10 ds
       | ds => allDigits 10 ds)

/-- Whether the characters are an unsigned decimal literal. -/
def isUnsignedDecimal (cs : List Char) : Bool :=
  let isDigit := fun ch => (digitValue 10 ch).isSome
  let whole := cs.takeWhile isDigit
  match cs.dropWhile isDigit with
  | '.' :: rest =>
    (!whole.isEmpty || !(rest.takeWhile isDigit).isEmpty) &&
      isExponentPart (rest.dropWhile isDigit)
  | rest => !whole.isEmpty && isExponentPart rest

/-- Whether `Number(s)` is a number: the string, trimmed, is empty or a numeric literal. -/
def isNumericString (s : String) : Bool :=
  let cs := (jsTrim s).toList
  let unsigned : List Char :=
    match cs with
    | '+' :: rest => rest
    | '-' :: rest => rest
    | _ => cs
  cs.isEmpty ||
    (match cs with
     | '0' :: 'x' :: ds => allDigits 16 ds
     | '0' :: 'X' :: ds => allDigits 16 ds
     | '0' :: 'o' :: ds => allDigits 8 ds
     | '0' :: 'O' :: ds => allDigits 8 ds
     | '0' :: 'b' :: ds => allDigits 2 ds
     | '0' :: 'B' :: ds => allDigits 2 ds
     | _ => false) ||
    unsigned == "Infinity".toList || isUnsignedDecimal unsigned

/-- `isNaN(v)`. -/
def jsIsNaN : JsVal → Bool
  | .undefined => true
  | .num text => text == "NaN"
  | .str s => !isNumericString s

/-- Whether `!s || s.trim().length === 0` holds for a string of the body. -/
def isBlank (s : Option String) : Bool :=
  match s with
  | none => true
  | some t => t == "" || (jsTrim t).length == 0

/-- The `errors` list of the route. -/
def routeErrors (body : CreateBody) : List String :=
  (if isBlank body.title then ["Title is required"] else []) ++
  (if isBlank body.description then ["Description is required"] else []) ++
  (if body.category.getD "" = "" then ["Category is required"] else []) ++
  (if body.department.getD "" = "" then ["Department is required"] else []) ++
  (if jsFalsy body.deadlineHours || jsIsNaN body.deadlineHours ||
      (match parseInt body.deadlineHours with
       | some h => decide (h < 4)
       | none => false)
    then ["Deadline must be at least 4 hours"] else [])

/-- The document made by `new Complaint` in the route, for the hour count `hours`. -/
def newRouteComplaint (now : Date) (actor : Actor) (newId : ObjectId) (body : CreateBody)
    (hours : Int) : Complaint :=
  { _id := newId,
    user := actor._id,
    title := jsTrim (body.title.getD ""),
    description := jsTrim (body.description.getD ""),
    category := body.category.getD "",
    department := body.department.getD "",
    images := [],
    location := body.location,
    priority := if body.priority.getD "" = "" then "medium" else body.priority.getD "",
    deadline := now + hours * 60 * 60 * 1000,
    escalationLevel := 1,
    assignedTo := none,
    status := .pending,
    resolution := { proof := [], description := none, resolvedAt := none, resolvedBy := none },
    userConsent := { given := false, givenAt := none, feedback := none, rating := none },
    escalationHistory := [],
    warnings := [],
    createdAt := now,
    updatedAt := now }

/-- The handler of `POST /create` (`routes/complaintRoutes.js`). -/
def createRoute (db : Db) (now : Date) (actor : Actor) (newId : ObjectId) (body : CreateBody) :
    Outcome :=
  -- Detailed validation
  let errors := routeErrors body
  if errors.length > 0 then
    { res := { code := 400, body := .validationFailed errors }, db := db, effects := [] }
  else
    -- Calculate deadline
    match parseInt body.deadlineHours with
    | none =>
      -- `Math.max(4, NaN)` is `NaN`: the date is invalid and `save()` rejects it
      { res := { code := 400,
                 body := .validationFailed
                   ("deadline" :: invalidPaths (newRouteComplaint now actor newId body 4)) },
        db := db, effects := [] }
    | some h =>
      let hours := max 4 h
      -- Create complaint
      let complaint := newRouteComplaint now actor newId body hours
      match invalidPaths complaint with
      | path :: paths =>
        { res := { code := 400, body := .validationFailed (path :: paths) },
          db := db, effects := [] }
      | [] =>
        match db.insert complaint with
        | none => caught db .duplicateKey []
        | some db =>
          match db.findById complaint._id with
          | none => caught db (.nullProperty "_id") []
          | some savedComplaint =>
            { res := { code := 201, body := .created savedComplaint }, db := db, effects := [] }

/-! ## Lists of complaints (`getDepartmentComplaints`, `OfficerDashboard.jsx`) -/

/-- The filter `query` of `getDepartmentComplaints` for the actor and the stored user:
the department of the user and, for a department user, level 1 and the `$or` of the
two assignment cases. -/
def departmentQuery (actor : Actor) (user : User) (c : Complaint) : Bool :=
  c.department == user.department &&
    (if actor.userType = "department" then
      c.escalationLevel == 1 &&
        (c.assignedTo == some actor._id || (c.assignedTo == none && c.status == .pending))
    else true)

/-- `sort` by `createdAt`, the newest first. -/
def sortByCreatedAtDesc (docs : List Complaint) : List Complaint :=
  docs.insertionSort (fun a b => b.createdAt ≤ a.createdAt)

/-- `getDepartmentComplaints`. -/
def getDepartmentComplaints (db : Db) (actor : Actor) : Outcome :=
  match db.findUserById actor._id with
  | none => caught db (.nullProperty "department") []
  | some user =>
    let complaints := sortByCreatedAtDesc (db.complaints.filter (departmentQuery actor user))
    { res := { code := 200, body := .complaints complaints }, db := db, effects := [] }

/-- The list `officerComplaints` of the officer dashboard, from the data of the response
and the `level` of the dashboard (`l2` or `l3`). -/
def officerComplaints (level : String) (complaints : List Complaint) : List Complaint :=
  complaints.filter (fun c => c.escalationLevel == (if level = "l2" then 2 else 3))

/-! ## The hourly job (`utils/cronJobs.js`) -/

/-- The `$nin` operator on `status`. -/
def statusNin (excluded : List Status) (c : Complaint) : Bool :=
  !excluded.contains c.status

/-- The filter of `approachingComplaints`. -/
def approachingQuery (now : Date) (c : Complaint) : Bool :=
  decide (c.deadline ≥ now) && decide (c.deadline ≤ now + 2 * 60 * 60 * 1000) &&
    statusNin [.resolved, .verified, .social_media] c

/-- The filter of `pastDeadlineComplaints`. -/
def pastDeadlineQuery (now : Date) (c : Complaint) : Bool :=
  decide (c.deadline < now) &&
    statusNin [.resolved, .verified, .social_media, .escalated] c

/-- The filter of `maxEscalatedComplaints`. -/
def maxEscalatedQuery (now : Date) (c : Complaint) : Bool :=
  decide (c.escalationLevel = 3) && decide (c.deadline < now - 24 * 60 * 60 * 1000) &&
    statusNin [.resolved, .verified, .social_media] c

/-- The body of the loop over `pastDeadlineComplaints`: the document that is
saved, or the document as read when the loop does nothing. -/
def autoEscalate (now : Date) (complaint : Complaint) : Complaint :=
  -- Auto-escalate if not already escalated
  if complaint.escalationLevel < 3 then
    let complaint :=
      { complaint with
        escalationLevel := complaint.escalationLevel + 1,
        status := .escalated,
        updatedAt := now }
    { complaint with
      escalationHistory := complaint.escalationHistory ++
        [({ level := complaint.escalationLevel, escalatedAt := now,
            reason := some "Auto-escalated due to missed deadline",
            escalatedBy := none } : EscalationEntry)] }
  else complaint

/-- The body of the loop over `maxEscalatedComplaints`: the document that is saved. -/
def moveToSocialMedia (now : Date) (complaint : Complaint) : Complaint :=
  { complaint with status := .social_media, updatedAt := now }

/-- A `find` followed by a loop that changes and saves each document found:
the documents that match the filter are replaced by what the loop body saves. -/
def Db.forEachMatching (db : Db) (query : Complaint → Bool) (body : Complaint → Complaint) :
    Db :=
  { db with complaints := db.complaints.map (fun d => if query d then body d else d) }

/-- The warnings of the first loop: one call of `sendWarningEmail` for each
approaching complaint whose populated `assignedTo` is not null. -/
def warningCalls (now : Date) (db : Db) : List Effect :=
  (db.complaints.filter (approachingQuery now)).filterMap (fun complaint =>
    match complaint.assignedTo with
    | none => none
    | some assignee =>
      match db.findUserById assignee with
      | none => none
      | some user => some (.sendWarningEmail user complaint "Deadline Approaching"))

/-- Awaited calls made in order: the calls that were delivered, and whether all
were (`false` when one rejected, which ends the sequence). -/
def awaitAll (deliver : Effect → Bool) : List Effect → List Effect × Bool
  | [] => ([], true)
  | e :: rest =>
    if deliver e then
      let r := awaitAll deliver rest
      (e :: r.1, r.2)
    else ([], false)

/-- The pass over `pastDeadlineComplaints`. -/
def autoEscalationPass (now : Date) (db : Db) : Db :=
  db.forEachMatching (pastDeadlineQuery now) (autoEscalate now)

/-- The pass over `maxEscalatedComplaints`. -/
def publicEscalationPass (now : Date) (db : Db) : Db :=
  db.forEachMatching (maxEscalatedQuery now) (moveToSocialMedia now)

/-- The result of one run of the job: the database after it, the external
calls made, and whether the body ran to its end (`false`: the `catch` was
reached). -/
structure SweepOutcome where
  db : Db
  effects : List Effect
  completed : Bool
  deriving DecidableEq, Repr

/-- One run of `deadlineChecker` at time `now`. A warning that is not
delivered throws, and the `catch` around the whole body ends the run. -/
def deadlineChecker (deliver : Effect → Bool) (now : Date) (db : Db) : SweepOutcome :=
  let sent := awaitAll deliver (warningCalls now db)
  if sent.2 then
    let db2 := autoEscalationPass now db
    let posts := (db2.complaints.filter (maxEscalatedQuery now)).map
      (fun complaint => Effect.postToSocialMedia (moveToSocialMedia now complaint))
    { db := publicEscalationPass now db2, effects := sent.1 ++ posts, completed := true }
  else
    { db := db, effects := sent.1, completed := false }

/-- The result of a loop of awaited saves: the collection after the loop, the documents
that were saved, in order, and whether the loop ran to its end (`false`: a save threw). -/
structure LoopOutcome where
  docs : List Complaint
  saved : List Complaint
  completed : Bool
  deriving DecidableEq, Repr

/-- A `find` followed by a loop over the documents found, in the order of the collection,
in which a save may throw. `body` gives the document that the loop saves for a document
found (`none`: the loop saves nothing for it), `store` tells whether the save of a
document succeeds. A save that throws ends the loop: the document it was called on and
the documents not yet visited stay as they were. -/
def forEachSaving (store : Complaint → Bool) (query : Complaint → Bool)
    (body : Complaint → Option Complaint) : List Complaint → LoopOutcome
  | [] => { docs := [], saved := [], completed := true }
  | d :: rest =>
    if query d then
      match body d with
      | none =>
        let r := forEachSaving store query body rest
        { docs := d :: r.docs, saved := r.saved, completed := r.completed }
      | some d' =>
        if store d' then
          let r := forEachSaving store query body rest
          { docs := d' :: r.docs, saved := d' :: r.saved, completed := r.completed }
        else { docs := d :: rest, saved := [], completed := false }
    else
      let r := forEachSaving store query body rest
      { docs := d :: r.docs, saved := r.saved, completed := r.completed }

/-- The body of the loop over `pastDeadlineComplaints`: the document that is saved, when
the level is below 3. -/
def autoEscalateSaved (now : Date) (complaint : Complaint) : Option Complaint :=
  if complaint.escalationLevel < 3 then some (autoEscalate now complaint) else none

/-- One run of `deadlineChecker` at time `now` in which a save may throw as well as a
warning: `store` tells whether the save of a document succeeds. Whatever throws, the
`catch` around the whole body ends the run; what was saved before stays saved. -/
def deadlineCheckerWith (deliver : Effect → Bool) (store : Complaint → Bool) (now : Date)
    (db : Db) : SweepOutcome :=
  let sent := awaitAll deliver (warningCalls now db)
  if sent.2 then
    let second := forEachSaving store (pastDeadlineQuery now) (autoEscalateSaved now)
      db.complaints
    if second.completed then
      let third := forEachSaving store (maxEscalatedQuery now)
        (fun complaint => some (moveToSocialMedia now complaint)) second.docs
      { db := { db with complaints := third.docs },
        effects := sent.1 ++ third.saved.map Effect.postToSocialMedia,
        completed := third.completed }
    else
      { db := { db with complaints := second.docs }, effects := sent.1, completed := false }
  else
    { db := db, effects := sent.1, completed := false }

/-! ## Operations on an existing complaint -/

/-- The operations that can change a stored complaint. -/
inductive Op
  | updateComplaintStatus (actor : Actor) (status : String)
  | submitResolution (actor : Actor) (description : Option String)
      (files : List (Option UploadResult))
  | escalateComplaint (actor : Actor) (reason : Option String)
  | extendDeadline (actor : Actor) (additionalHours : JsVal)
  | sweepTick (deliver : Effect → Bool)

/-- The database after an operation performed at time `now`; the requests are
addressed to the complaint `id`. -/
def Op.run (op : Op) (now : Date) (id : ObjectId) (db : Db) : Db :=
  match op with
  | .updateComplaintStatus actor status =>
    (ComplaintSys.updateComplaintStatus db now actor id status).db
  | .submitResolution actor description files =>
    (ComplaintSys.submitResolution db now actor id description files).db
  | .escalateComplaint actor reason => (ComplaintSys.escalateComplaint db now actor id reason).db
  | .extendDeadline actor additionalHours =>
    (ComplaintSys.extendDeadline db now actor id additionalHours).db
  | .sweepTick deliver => (deadlineChecker deliver now db).db

/-! ## The stored document after an operation

The functions of this section describe, for a complaint that is stored, the
document that is stored after an operation; `Op.run_findById` proves that they
agree with the handlers. -/

/-- The officer that an escalation to `level` assigns. -/
def Db.officerFor (db : Db) (level : Nat) : Option ObjectId :=
  if level = 2 then (db.findOneUserByType "l2_officer").map (fun u => u._id)
  else if level = 3 then (db.findOneUserByType "l3_officer").map (fun u => u._id)
  else none

/-- What the second pass of the job makes of a stored document. -/
def autoStep (now : Date) (c : Complaint) : Complaint :=
  if pastDeadlineQuery now c then autoEscalate now c else c

/-- What the third pass of the job makes of a stored document. -/
def publicStep (now : Date) (c : Complaint) : Complaint :=
  if maxEscalatedQuery now c then moveToSocialMedia now c else c

/-- What one completed run of the job makes of a stored document. -/
def sweepDoc (now : Date) (c : Complaint) : Complaint :=
  publicStep now (autoStep now c)

/-- The stored document after an operation, from the stored document before. -/
def Op.after (op : Op) (now : Date) (db : Db) (c : Complaint) : Complaint :=
  match op with
  | .updateComplaintStatus actor status =>
    if c.deadline < now ∧ status ≠ "resolved" then c
    else
      match Status.ofString status with
      | none => c
      | some s =>
        { c with
          status := s, updatedAt := now,
          assignedTo := if s = .in_progress ∧ c.assignedTo = none then some actor._id
            else c.assignedTo }
  | .submitResolution actor description files =>
    if c.deadline < now then c
    else
      match uploadAll files with
      | none => c
      | some results =>
        { c with
          resolution := { proof := results.map proofOfUpload, description := description,
                          resolvedAt := some now, resolvedBy := some actor._id },
          status := .resolved, updatedAt := now }
  | .escalateComplaint actor reason =>
    if c.escalationLevel ≥ 3 then c
    else
      { c with
        escalationLevel := c.escalationLevel + 1,
        escalationHistory := c.escalationHistory ++
          [({ level := c.escalationLevel + 1, escalatedAt := now, reason := reason,
              escalatedBy := some actor._id } : EscalationEntry)],
        assignedTo := db.officerFor (c.escalationLevel + 1),
        deadline := now + 24 * 60 * 60 * 1000,
        status := .escalated, updatedAt := now }
  | .extendDeadline actor additionalHours =>
    if ¬ (actor.userType = "l2_officer" ∨ actor.userType = "l3_officer") then c
    else if isValidTime (c.deadline + parseIntOr additionalHours 24 * 60 * 60 * 1000) then
      { c with
        deadline := c.deadline + parseIntOr additionalHours 24 * 60 * 60 * 1000,
        updatedAt := now }
    else c
  | .sweepTick deliver =>
    if (awaitAll deliver (warningCalls now db)).2 then sweepDoc now c else c

/-- What a loop with saves makes of one document when its save succeeds. -/
def savedOr (query : Complaint → Bool) (body : Complaint → Option Complaint) (d : Complaint) :
    Complaint :=
  if query d then (body d).getD d else d

/-! ## Runs of the job in sequence -/

/-- Whether an external call publishes the complaint `id`. -/
def isPublishOf (id : ObjectId) : Effect → Bool
  | .postToSocialMedia d => d._id == id
  | _ => false

/-- The number of times the complaint `id` is published by a list of calls. -/
def publishCount (id : ObjectId) (effects : List Effect) : Nat :=
  effects.countP (isPublishOf id)

/-- Successive runs of the job, each with its delivery oracle and its time:
the database after the last run and the calls of all runs. -/
def sweeps : List ((Effect → Bool) × Date) → Db → Db × List Effect
  | [], db => (db, [])
  | (deliver, now) :: rest, db =>
    let r := deadlineChecker deliver now db
    let s := sweeps rest r.db
    (s.1, r.effects ++ s.2)

/-- Successive runs of the job, each with its delivery oracle, its save oracle and its
time: the database after the last run and the calls of all runs. -/
def sweepsWith : List ((Effect → Bool) × (Complaint → Bool) × Date) → Db → Db × List Effect
  | [], db => (db, [])
  | (deliver, store, now) :: rest, db =>
    let r := deadlineCheckerWith deliver store now db
    let s := sweepsWith rest r.db
    (s.1, r.effects ++ s.2)

/-! ## The resolution predicate and the warning counter -/

/-- The predicate of the data model: a complaint that is `resolved` or `verified` records
when and by whom it was resolved. -/
def resolutionRecorded (c : Complaint) : Prop :=
  (c.status = .resolved ∨ c.status = .verified) →
    c.resolution.resolvedAt ≠ none ∧ c.resolution.resolvedBy ≠ none

/-- Whether an external call is a warning about the complaint `id`. -/
def isWarningFor (id : ObjectId) : Effect → Bool
  | .sendWarningEmail _ complaint _ => complaint._id == id
  | _ => false

/-- The number of warnings about the complaint `id` in a list of calls. -/
def warningCount (id : ObjectId) (effects : List Effect) : Nat :=
  effects.countP (isWarningFor id)

/-! ## The history predicate -/

/-- The predicate of the escalation history: the level is one more than the number of
entries, and the entry at position `k` (counted from 0) records level `k + 2`. -/
def historyMatchesLevel (c : Complaint) : Prop :=
  c.escalationLevel = 1 + c.escalationHistory.length ∧
  ∀ k e, c.escalationHistory[k]? = some e → e.level = k + 2

/-- The complaint `c'` is the complaint `c` after one auto-escalation from level 1. -/
def escalatedOnceByJob (c c' : Complaint) : Prop :=
  c'.status = .escalated ∧ c'.escalationLevel = 2 ∧ c'.deadline = c.deadline ∧
  ∃ t, c'.escalationHistory = c.escalationHistory ++
    [{ level := 2, escalatedAt := t, reason := some "Auto-escalated due to missed deadline",
       escalatedBy := none }]

/-! ## Sample data -/

/-- A fresh complaint: level 1, pending, claimed by user 7, deadline at `1000`. -/
def sampleComplaint : Complaint :=
  { _id := 1, user := 10, title := "Pothole", description := "Deep pothole",
    category := "pothole", department := "road", images := [],
    location := { type := "Point", coordinates := ["77.2090", "28.6139"], address := "Main road" },
    priority := "medium", deadline := 1000, escalationLevel := 1, assignedTo := some 7,
    status := .pending,
    resolution := { proof := [], description := none, resolvedAt := none, resolvedBy := none },
    userConsent := { given := false, givenAt := none, feedback := none, rating := none },
    escalationHistory := [], warnings := [], createdAt := 0, updatedAt := 0 }

/-- The users of the sample database: the owner, a department user, one officer per tier. -/
def sampleUsers : List User :=
  [{ _id := 10, name := "Citizen", email := "citizen@example.org", userType := "citizen",
     department := "" },
   { _id := 7, name := "Clerk", email := "clerk@example.org", userType := "department",
     department := "road" },
   { _id := 20, name := "Officer Two", email := "l2@example.org", userType := "l2_officer",
     department := "" },
   { _id := 30, name := "Officer Three", email := "l3@example.org", userType := "l3_officer",
     department := "" }]

/-- A database that holds the sample complaint. -/
def sampleDb : Db := { complaints := [sampleComplaint], users := sampleUsers }

/-- The department user of the sample database. -/
def sampleClerk : Actor := { _id := 7, userType := "department" }

/-- The level-2 officer of the sample database. -/
def sampleOfficer : Actor := { _id := 20, userType := "l2_officer" }

/-- The sample complaint with its deadline 100 hours after time `0`. -/
def earlyComplaint : Complaint := { sampleComplaint with deadline := 360000000 }

/-- A database that holds `earlyComplaint`. -/
def earlyDb : Db := { sampleDb with complaints := [earlyComplaint] }

/-- The sample complaint after two escalations, the second by the level-2 officer at
time `3000`: level 3, assigned to the level-3 officer, deadline 24 hours after `3000`. -/
def maxedComplaint : Complaint :=
  { sampleComplaint with
    escalationLevel := 3, status := .escalated, assignedTo := some 30, deadline := 86403000,
    escalationHistory :=
      [{ level := 2, escalatedAt := 2000, reason := some "Auto-escalated due to missed deadline",
         escalatedBy := none },
       { level := 3, escalatedAt := 3000, reason := some "no progress",
         escalatedBy := some 20 }] }

/-- A database that holds `maxedComplaint`. -/
def maxedDb : Db := { sampleDb with complaints := [maxedComplaint] }

/-- A complaint that has been moved to `social_media`. -/
def socialComplaint : Complaint := { maxedComplaint with status := .social_media }

/-- A database that holds `socialComplaint`. -/
def socialDb : Db := { sampleDb with complaints := [socialComplaint] }

/-- The sample complaint while the department user works on it. -/
def inProgressComplaint : Complaint := { sampleComplaint with status := .in_progress }

/-- A database that holds `inProgressComplaint`. -/
def inProgressDb : Db := { sampleDb with complaints := [inProgressComplaint] }

/-- Two uploads that succeeded: a photo and a video. -/
def sampleUploads : List UploadResult :=
  [{ secure_url := "https://cdn.example.org/a.jpg", public_id := "resolutions/a",
     resource_type := "image" },
   { secure_url := "https://cdn.example.org/b.mp4", public_id := "resolutions/b",
     resource_type := "video" }]

/-- A creation request for a broken street light, with a deadline of two hours. -/
def sampleCreateBody : CreateBody :=
  { title := some "  Broken light ", description := some "The street is dark",
    category := some "electricity", department := some "electricity", priority := none,
    deadlineHours := .num "2",
    location := { type := "Point", coordinates := ["77.2090", "28.6139"],
                  address := "Location not specified" } }

/-- The owner of the sample complaint, as the actor of a request. -/
def sampleCitizen : Actor := { _id := 10, userType := "citizen" }

/-- The sample complaint in progress, with its deadline 90 minutes after time `0`. -/
def approachingComplaint : Complaint := { inProgressComplaint with deadline := 5400000 }

/-- A database that holds `approachingComplaint`. -/
def approachingDb : Db := { sampleDb with complaints := [approachingComplaint] }

/-- The sample complaint with status `rejected`. -/
def rejectedComplaint : Complaint := { sampleComplaint with status := .rejected }

/-- A database that holds `rejectedComplaint`. -/
def rejectedDb : Db := { sampleDb with complaints := [rejectedComplaint] }

/-- The sample complaint after the citizen's consent. -/
def verifiedComplaint : Complaint :=
  { sampleComplaint with
    status := .verified,
    resolution := { proof := [], description := some "Filled the pothole",
                    resolvedAt := some 600, resolvedBy := some 7 },
    userConsent := { given := true, givenAt := some 800, feedback := none, rating := some 5 } }

/-- A database that holds `verifiedComplaint`. -/
def verifiedDb : Db := { sampleDb with complaints := [verifiedComplaint] }

/-- The sample complaint escalated once by the job and then taken up again: level 2,
status `in_progress`, deadline `1000` still in place. -/
def levelTwoComplaint : Complaint :=
  { sampleComplaint with
    escalationLevel := 2, status := .in_progress,
    escalationHistory :=
      [{ level := 2, escalatedAt := 2000, reason := some "Auto-escalated due to missed deadline",
         escalatedBy := none }] }

/-- A database that holds `levelTwoComplaint`. -/
def levelTwoDb : Db := { sampleDb with complaints := [levelTwoComplaint] }

/-- A second complaint: about to reach its deadline at time `0`, assigned to the
department user. -/
def secondComplaint : Complaint :=
  { sampleComplaint with _id := 2, title := "Garbage", deadline := 3600000,
                         status := .in_progress }

/-- A database with a complaint to warn about (`secondComplaint`, at time `3000000`) and
a complaint to escalate (`sampleComplaint`). -/
def twoDb : Db := { sampleDb with complaints := [secondComplaint, sampleComplaint] }

/-- A level-2 officer whose user record names the department `road`. -/
def roadOfficerUser : User :=
  { _id := 21, name := "Road Officer", email := "road.l2@example.org", userType := "l2_officer",
    department := "road" }

/-- The actor of `roadOfficerUser`. -/
def roadOfficer : Actor := { _id := 21, userType := "l2_officer" }

/-- A level-2 complaint of the department `water`. -/
def waterComplaint : Complaint :=
  { levelTwoComplaint with
    _id := 3, title := "Leak", category := "water_leakage", department := "water",
    status := .escalated, assignedTo := some 21 }

/-- A database with a level-1 complaint of the department `road`, a level-2 complaint
of the department `water`, and the officer of the department `road`. -/
def officerDb : Db :=
  { complaints := [sampleComplaint, waterComplaint], users := sampleUsers ++ [roadOfficerUser] }

/-- The second complaint with its deadline one hour after time `180000000`. -/
def dueSoonComplaint : Complaint := { secondComplaint with deadline := 183600000 }

/-- A database with a complaint to warn about at time `180000000` (`dueSoonComplaint`)
and the level-3 complaint `maxedComplaint`, long overdue at that time. -/
def mixedDb : Db := { sampleDb with complaints := [dueSoonComplaint, maxedComplaint] }

/-- A database with a complaint to warn about at time `180000000` (`dueSoonComplaint`)
and the level-2 complaint `levelTwoComplaint`, long overdue at that time. -/
def mixedTwoDb : Db := { sampleDb with complaints := [dueSoonComplaint, levelTwoComplaint] }

/-- A database with two complaints to warn about at time `0`, both assigned to user 7. -/
def warnTwoDb : Db := { sampleDb with complaints := [approachingComplaint, secondComplaint] }

/-- The approaching complaint with an assignee that is no stored user. -/
def danglingComplaint : Complaint := { approachingComplaint with assignedTo := some 99 }

/-- A database that holds `danglingComplaint`. -/
def danglingDb : Db := { sampleDb with complaints := [danglingComplaint] }

/-! ## The store and the stored document -/

/-- A document found by id has that id. -/
theorem Db.findById_id {db : Db} {id : ObjectId} {c : Complaint}
    (h : db.findById id = some c) : c._id = id := by
  have := List.find?_some h
  simpa using this

/-- Replacing by id the document that a search by id finds makes the search find the
replacement. -/
theorem find_replace_by_id (l : List Complaint) (id : ObjectId) (c c' : Complaint)
    (h : l.find? (fun d => d._id == id) = some c) (hid : c'._id = id) :
    (l.map (fun d => if d._id == c'._id then c' else d)).find? (fun d => d._id == id) =
      some c' := by
  have hc : (c'._id == id) = true := by simp [hid]
  induction l with
  | nil => simp at h
  | cons d ds ih =>
    by_cases hd : d._id = id
    · have hb : (d._id == c'._id) = true := by simp [hd, hid]
      simp only [List.map_cons, hb, if_true, List.find?_cons, hc]
    · have hb : (d._id == c'._id) = false := by simp [hid, hd]
      have hn : (d._id == id) = false := by simp [hd]
      simp only [List.find?_cons, hn] at h
      simp only [List.map_cons, hb, Bool.false_eq_true, if_false, List.find?_cons, hn]
      exact ih h

/-- After `save`, `findById` returns the saved document. -/
theorem Db.findById_save {db : Db} {id : ObjectId} {c : Complaint} (c' : Complaint)
    (h : db.findById id = some c) (hid : c'._id = c._id) :
    (db.save c').findById id = some c' :=
  find_replace_by_id db.complaints id c c' h (hid.trans (Db.findById_id h))

/-- A loop that keeps ids acts on the document found by id as its body does. -/
theorem Db.findById_forEachMatching (db : Db) (id : ObjectId) (query : Complaint → Bool)
    (body : Complaint → Complaint) (hbody : ∀ d, (body d)._id = d._id) :
    (db.forEachMatching query body).findById id =
      (db.findById id).map (fun d => if query d then body d else d) := by
  unfold Db.findById Db.forEachMatching
  simp only [List.find?_map]
  congr 2
  funext d
  by_cases hq : query d <;> simp [hq, hbody]

/-- Auto-escalation keeps the id. -/
theorem autoEscalate_id (now : Date) (c : Complaint) : (autoEscalate now c)._id = c._id := by
  unfold autoEscalate
  split <;> rfl

/-- The move to `social_media` keeps the id. -/
theorem moveToSocialMedia_id (now : Date) (c : Complaint) :
    (moveToSocialMedia now c)._id = c._id := rfl

/-- The stored document after a run of the job: `sweepDoc` of the one before when the
run reaches its end, the one before otherwise. -/
theorem deadlineChecker_findById {db : Db} {id : ObjectId} {c : Complaint}
    (deliver : Effect → Bool) (now : Date) (h : db.findById id = some c) :
    (deadlineChecker deliver now db).db.findById id =
      some (if (awaitAll deliver (warningCalls now db)).2 then sweepDoc now c else c) := by
  unfold deadlineChecker
  by_cases hs : (awaitAll deliver (warningCalls now db)).2 = true
  · simp only [hs, if_true]
    unfold publicEscalationPass autoEscalationPass
    rw [Db.findById_forEachMatching _ _ _ _ (moveToSocialMedia_id now),
      Db.findById_forEachMatching _ _ _ _ (autoEscalate_id now), h]
    rfl
  · simp only [hs, if_false]
    exact h

/-- The stored document after an operation is `Op.after` of the stored document before. -/
theorem Op.run_findById {db : Db} {id : ObjectId} {c : Complaint} (op : Op) (now : Date)
    (h : db.findById id = some c) :
    (op.run now id db).findById id = some (op.after now db c) := by
  cases op with
  | updateComplaintStatus actor status =>
    simp only [Op.run, Op.after, ComplaintSys.updateComplaintStatus, h]
    split_ifs with h1
    · exact h
    · cases hs : Status.ofString status with
      | none => exact h
      | some s =>
        simp only []
        split_ifs with h2
        · exact Db.findById_save _ h rfl
        · exact Db.findById_save _ h rfl
  | submitResolution actor description files =>
    simp only [Op.run, Op.after, ComplaintSys.submitResolution, h]
    split_ifs with h1
    · exact h
    · cases hu : uploadAll files with
      | none => exact h
      | some results =>
        simp only []
        split <;> exact Db.findById_save _ h rfl
  | escalateComplaint actor reason =>
    unfold Op.run Op.after ComplaintSys.escalateComplaint
    simp only [h]
    by_cases h1 : c.escalationLevel ≥ 3
    · simp only [h1, if_true]
      exact h
    · simp only [h1, if_false]
      by_cases h2 : c.escalationLevel + 1 = 2
      · cases hu : db.findOneUserByType "l2_officer" with
        | none =>
          simp only [h2, hu, Db.officerFor, if_true, Option.map_none']
          exact Db.findById_save _ h rfl
        | some u =>
          simp only [h2, hu, Db.officerFor, if_true, Option.map_some']
          split <;> exact Db.findById_save _ h rfl
      · by_cases h3 : c.escalationLevel + 1 = 3
        · cases hu : db.findOneUserByType "l3_officer" with
          | none =>
            simp only [h3, hu, Db.officerFor, (by decide : ¬ (3 : Nat) = 2), if_true, if_false,
              Option.map_none']
            exact Db.findById_save _ h rfl
          | some u =>
            simp only [h3, hu, Db.officerFor, (by decide : ¬ (3 : Nat) = 2), if_true, if_false,
              Option.map_some']
            split <;> exact Db.findById_save _ h rfl
        · simp only [h2, h3, Db.officerFor, if_false]
          exact Db.findById_save _ h rfl
  | extendDeadline actor additionalHours =>
    simp only [Op.run, Op.after, ComplaintSys.extendDeadline, h]
    split_ifs with h1 h2
    · exact Db.findById_save _ h rfl
    · exact h
    · exact h
  | sweepTick deliver => exact deadlineChecker_findById deliver now h

/-- The level after the second pass. -/
theorem autoStep_escalationLevel (now : Date) (c : Complaint) :
    (autoStep now c).escalationLevel =
      if pastDeadlineQuery now c = true ∧ c.escalationLevel < 3 then c.escalationLevel + 1
      else c.escalationLevel := by
  unfold autoStep autoEscalate
  by_cases hq : pastDeadlineQuery now c = true <;> by_cases hl : c.escalationLevel < 3 <;>
    simp [hq, hl]

/-- The second pass keeps the deadline. -/
theorem autoStep_deadline (now : Date) (c : Complaint) :
    (autoStep now c).deadline = c.deadline := by
  unfold autoStep autoEscalate
  split_ifs <;> rfl

/-- The third pass keeps the level. -/
theorem publicStep_escalationLevel (now : Date) (c : Complaint) :
    (publicStep now c).escalationLevel = c.escalationLevel := by
  unfold publicStep moveToSocialMedia
  split_ifs <;> rfl

/-- The third pass keeps the deadline. -/
theorem publicStep_deadline (now : Date) (c : Complaint) :
    (publicStep now c).deadline = c.deadline := by
  unfold publicStep moveToSocialMedia
  split_ifs <;> rfl

/-- The level after a completed run. -/
theorem sweepDoc_escalationLevel (now : Date) (c : Complaint) :
    (sweepDoc now c).escalationLevel =
      if pastDeadlineQuery now c = true ∧ c.escalationLevel < 3 then c.escalationLevel + 1
      else c.escalationLevel := by
  unfold sweepDoc
  rw [publicStep_escalationLevel, autoStep_escalationLevel]

/-- A completed run keeps the deadline. -/
theorem sweepDoc_deadline (now : Date) (c : Complaint) :
    (sweepDoc now c).deadline = c.deadline := by
  unfold sweepDoc
  rw [publicStep_deadline, autoStep_deadline]

/-! ## Escalation level and deadline over all operations -/

/-- Claim C1: for a stored complaint whose `escalationLevel` is 1, 2 or 3, after any
operation (a status update, a resolution, an escalation, a deadline extension, one
run of the job) the complaint is still stored, its level is not lower than before and
is again 1, 2 or 3. -/
theorem escalationLevel_never_decreases (op : Op) (now : Date) (id : ObjectId) (db : Db)
    (c : Complaint) (h : db.findById id = some c) (hl : c.escalationLevel ∈ [1, 2, 3]) :
    ∃ c', (op.run now id db).findById id = some c' ∧
      c.escalationLevel ≤ c'.escalationLevel ∧ c'.escalationLevel ∈ [1, 2, 3] := by
  refine ⟨_, Op.run_findById op now h, ?_⟩
  have hb : 1 ≤ c.escalationLevel ∧ c.escalationLevel ≤ 3 := by
    simp only [List.mem_cons, List.mem_singleton, List.not_mem_nil, or_false] at hl
    omega
  suffices hs : c.escalationLevel ≤ (op.after now db c).escalationLevel ∧
      (op.after now db c).escalationLevel ≤ 3 by
    refine ⟨hs.1, ?_⟩
    simp only [List.mem_cons, List.mem_singleton, List.not_mem_nil, or_false]
    omega
  cases op with
  | updateComplaintStatus actor status =>
    simp only [Op.after]
    split_ifs
    · omega
    · split <;> first | omega | (simp only []; omega)
  | submitResolution actor description files =>
    simp only [Op.after]
    split_ifs
    · omega
    · split <;> first | omega | (simp only []; omega)
  | escalateComplaint actor reason =>
    simp only [Op.after]
    split_ifs <;> first | omega | (simp only []; omega)
  | extendDeadline actor additionalHours =>
    simp only [Op.after]
    split_ifs <;> first | omega | (simp only []; omega)
  | sweepTick deliver =>
    simp only [Op.after]
    split_ifs
    · rw [sweepDoc_escalationLevel]
      split_ifs <;> omega
    · omega

/-- Claim C1 at the sample complaint: an escalation moves it from level 1 to level 2. -/
theorem escalationLevel_never_decreases_witness :
    sampleDb.findById 1 = some sampleComplaint ∧ sampleComplaint.escalationLevel ∈ [1, 2, 3] ∧
    ∃ c', ((Op.escalateComplaint sampleClerk (some "no progress")).run 5000 1 sampleDb).findById 1 =
        some c' ∧
      sampleComplaint.escalationLevel ≤ c'.escalationLevel ∧ c'.escalationLevel ∈ [1, 2, 3] :=
  ⟨rfl, by decide,
    escalationLevel_never_decreases (.escalateComplaint sampleClerk (some "no progress")) 5000 1
      sampleDb sampleComplaint rfl (by decide)⟩

/-- Claim C2, the code at the failing input: an escalation at time `0` of a complaint
whose deadline is 100 hours away (`360000000`) is answered `200` and stores the deadline
`86400000`, 24 hours after the escalation and 76 hours earlier than before, where the
comments of the handler announce an extension by 24 hours; an extension by `-5` hours
moves the deadline of the sample complaint back by 5 hours. -/
theorem escalation_or_negative_extension_shortens_deadline :
    (earlyDb.findById 1 = some earlyComplaint ∧ earlyComplaint.deadline = 360000000 ∧
      (escalateComplaint earlyDb 0 sampleClerk 1 (some "no progress")).res.code = 200 ∧
      ∃ c', ((Op.escalateComplaint sampleClerk (some "no progress")).run 0 1 earlyDb).findById 1 =
          some c' ∧ c'.deadline = 86400000 ∧ c'.deadline < earlyComplaint.deadline) ∧
    (sampleDb.findById 1 = some sampleComplaint ∧
      ∃ c', ((Op.extendDeadline sampleOfficer (.num "-5")).run 0 1 sampleDb).findById 1 =
          some c' ∧ c'.deadline = -17999000 ∧ c'.deadline < sampleComplaint.deadline) :=
  ⟨⟨rfl, rfl, rfl, _, rfl, rfl, by decide⟩, ⟨rfl, _, rfl, rfl, by decide⟩⟩

/-! ## Escalation by an actor -/

/-- A user found by type is found by id too. -/
theorem Db.findUserById_of_findOneUserByType {db : Db} {userType : String} {u : User}
    (h : db.findOneUserByType userType = some u) : ∃ v, db.findUserById u._id = some v := by
  have hm : u ∈ db.users := List.mem_of_find?_eq_some h
  have hs : (db.users.find? (fun v => v._id == u._id)).isSome := by
    rw [List.find?_isSome]
    exact ⟨u, hm, by simp⟩
  exact Option.isSome_iff_exists.mp hs

/-- An escalation below level 3 answers `200`: the officer who is notified exists. -/
theorem escalateComplaint_code {db : Db} {id : ObjectId} {c : Complaint} (now : Date)
    (actor : Actor) (reason : Option String) (h : db.findById id = some c)
    (hl : c.escalationLevel < 3) :
    (escalateComplaint db now actor id reason).res.code = 200 := by
  unfold escalateComplaint
  simp only [h]
  have h1 : ¬ c.escalationLevel ≥ 3 := by omega
  simp only [h1, if_false]
  by_cases h2 : c.escalationLevel + 1 = 2
  · cases hu : db.findOneUserByType "l2_officer" with
    | none => simp only [h2, hu, if_true]
    | some u =>
      obtain ⟨v, hv⟩ := Db.findUserById_of_findOneUserByType hu
      have hv' : ∀ d, (db.save d).findUserById u._id = some v := fun _ => hv
      simp only [h2, hu, if_true, hv']
  · by_cases h3 : c.escalationLevel + 1 = 3
    · cases hu : db.findOneUserByType "l3_officer" with
      | none => simp only [h3, hu, (by decide : ¬ (3 : Nat) = 2), if_true, if_false]
      | some u =>
        obtain ⟨v, hv⟩ := Db.findUserById_of_findOneUserByType hu
        have hv' : ∀ d, (db.save d).findUserById u._id = some v := fun _ => hv
        simp only [h3, hu, (by decide : ¬ (3 : Nat) = 2), if_true, if_false, hv']
    · simp only [h2, h3, if_false]

/-- The first user of a type in the collection is the one that `findOne` returns. -/
theorem Db.findOneUserByType_first {db : Db} {userType : String} {front back : List User}
    {u : User} (hu : db.users = front ++ u :: back) (ht : u.userType = userType)
    (hf : ∀ v ∈ front, v.userType ≠ userType) : db.findOneUserByType userType = some u := by
  unfold Db.findOneUserByType
  rw [hu, List.find?_append]
  have hnone : front.find? (fun v => v.userType == userType) = none := by
    rw [List.find?_eq_none]
    intro v hv
    simpa using hf v hv
  simp [hnone, ht]

/-- When no user has the type, `findOne` returns `null`. -/
theorem Db.findOneUserByType_none {db : Db} {userType : String}
    (hf : ∀ v ∈ db.users, v.userType ≠ userType) : db.findOneUserByType userType = none := by
  unfold Db.findOneUserByType
  rw [List.find?_eq_none]
  intro v hv
  simpa using hf v hv

/-- Claim C3: an escalation of a stored complaint below level 3 answers `200`; the
stored complaint then has its level raised by one, one more history entry at the end
with the new level, the reason and the actor, and status `escalated`. Its assignee is
taken from the collection of users, whoever was assigned before: when the new level is 2
it is the first user in the collection whose `userType` is `l2_officer`, and nobody
when no user has that type; when the new level is 3 the same holds with `l3_officer`. -/
theorem escalateComplaint_effect (db : Db) (now : Date) (actor : Actor) (id : ObjectId)
    (reason : Option String) (c : Complaint) (h : db.findById id = some c)
    (hl : c.escalationLevel < 3) :
    (escalateComplaint db now actor id reason).res.code = 200 ∧
    ∃ c', (escalateComplaint db now actor id reason).db.findById id = some c' ∧
      c'.escalationLevel = c.escalationLevel + 1 ∧
      c'.escalationHistory = c.escalationHistory ++
        [{ level := c.escalationLevel + 1, escalatedAt := now, reason := reason,
           escalatedBy := some actor._id }] ∧
      c'.status = .escalated ∧
      (c.escalationLevel + 1 = 2 →
        (∀ front officer back, db.users = front ++ officer :: back →
          officer.userType = "l2_officer" → (∀ u ∈ front, u.userType ≠ "l2_officer") →
          c'.assignedTo = some officer._id) ∧
        ((∀ u ∈ db.users, u.userType ≠ "l2_officer") → c'.assignedTo = none)) ∧
      (c.escalationLevel + 1 = 3 →
        (∀ front officer back, db.users = front ++ officer :: back →
          officer.userType = "l3_officer" → (∀ u ∈ front, u.userType ≠ "l3_officer") →
          c'.assignedTo = some officer._id) ∧
        ((∀ u ∈ db.users, u.userType ≠ "l3_officer") → c'.assignedTo = none)) ∧
      (c.escalationLevel + 1 ≠ 2 → c.escalationLevel + 1 ≠ 3 → c'.assignedTo = none) := by
  refine ⟨escalateComplaint_code now actor reason h hl, _,
    Op.run_findById (.escalateComplaint actor reason) now h, ?_⟩
  have h1 : ¬ c.escalationLevel ≥ 3 := by omega
  simp only [Op.after, h1, if_false, Db.officerFor, true_and]
  refine ⟨?_, ?_, ?_⟩
  · intro h2
    simp only [h2, if_true]
    refine ⟨?_, ?_⟩
    · intro front officer back hu ht hf
      rw [Db.findOneUserByType_first hu ht hf]
      rfl
    · intro hf
      rw [Db.findOneUserByType_none hf]
      rfl
  · intro h3
    simp only [h3, (by decide : ¬ (3 : Nat) = 2), if_true, if_false]
    refine ⟨?_, ?_⟩
    · intro front officer back hu ht hf
      rw [Db.findOneUserByType_first hu ht hf]
      rfl
    · intro hf
      rw [Db.findOneUserByType_none hf]
      rfl
  · intro h2 h3
    simp only [h2, h3, if_false]

/-- Claim C3 at the sample complaint, assigned to the department user 7 and escalated by
that user at time `5000`: the level becomes 2 and the assignee is user 20, the first
`l2_officer` of the collection, which two other users precede. -/
theorem escalateComplaint_effect_witness :
    sampleDb.findById 1 = some sampleComplaint ∧ sampleComplaint.escalationLevel < 3 ∧
    sampleComplaint.assignedTo = some 7 ∧
    (escalateComplaint sampleDb 5000 sampleClerk 1 (some "no progress")).res.code = 200 ∧
    ∃ c', (escalateComplaint sampleDb 5000 sampleClerk 1 (some "no progress")).db.findById 1 =
        some c' ∧
      c'.escalationLevel = 2 ∧
      c'.escalationHistory =
        [{ level := 2, escalatedAt := 5000, reason := some "no progress",
           escalatedBy := some 7 }] ∧
      c'.status = .escalated ∧
      c'.assignedTo = some 20 :=
  ⟨rfl, by decide, rfl,
    (escalateComplaint_effect sampleDb 5000 sampleClerk 1 (some "no progress") sampleComplaint rfl
      (by decide)).1,
    match (escalateComplaint_effect sampleDb 5000 sampleClerk 1 (some "no progress")
      sampleComplaint rfl (by decide)).2 with
    | ⟨c', hc, hlevel, hhistory, hstatus, htwo, _, _⟩ =>
      ⟨c', hc, hlevel, hhistory, hstatus,
        (htwo rfl).1 (sampleUsers.take 2)
          { _id := 20, name := "Officer Two", email := "l2@example.org",
            userType := "l2_officer", department := "" }
          (sampleUsers.drop 3) rfl rfl (by decide)⟩⟩

/-- Claim C4: an escalation of a stored complaint whose level is 3 or more answers `400`
with the maximum-escalation message, makes no external call and leaves the database
as it was; the stored complaint is the same document as before. -/
theorem escalateComplaint_at_max_level (db : Db) (now : Date) (actor : Actor) (id : ObjectId)
    (reason : Option String) (c : Complaint) (h : db.findById id = some c)
    (hl : 3 ≤ c.escalationLevel) :
    escalateComplaint db now actor id reason =
      { res := { code := 400, body := .message "Complaint already at maximum escalation level" },
        db := db, effects := [] } ∧
    (escalateComplaint db now actor id reason).db.findById id = some c := by
  have h1 : c.escalationLevel ≥ 3 := hl
  have he : escalateComplaint db now actor id reason =
      { res := { code := 400, body := .message "Complaint already at maximum escalation level" },
        db := db, effects := [] } := by
    unfold escalateComplaint
    simp only [h, h1, if_true]
  exact ⟨he, by rw [he]; exact h⟩

/-- Claim C4 at the level-3 sample complaint. -/
theorem escalateComplaint_at_max_level_witness :
    maxedDb.findById 1 = some maxedComplaint ∧ 3 ≤ maxedComplaint.escalationLevel ∧
    escalateComplaint maxedDb 5000 sampleOfficer 1 (some "again") =
      { res := { code := 400, body := .message "Complaint already at maximum escalation level" },
        db := maxedDb, effects := [] } ∧
    (escalateComplaint maxedDb 5000 sampleOfficer 1 (some "again")).db.findById 1 =
      some maxedComplaint :=
  ⟨rfl, by decide,
    escalateComplaint_at_max_level maxedDb 5000 sampleOfficer 1 (some "again") maxedComplaint rfl
      (by decide)⟩

/-! ## The passes of the hourly job -/

/-- The filter of the second pass, as a proposition. -/
theorem pastDeadlineQuery_iff (now : Date) (c : Complaint) :
    pastDeadlineQuery now c = true ↔
      c.deadline < now ∧ c.status ∉ [Status.resolved, .verified, .social_media, .escalated] := by
  unfold pastDeadlineQuery statusNin
  cases c.status <;> simp

/-- The filter of the third pass, as a proposition. -/
theorem maxEscalatedQuery_iff (now : Date) (c : Complaint) :
    maxEscalatedQuery now c = true ↔
      c.escalationLevel = 3 ∧ c.deadline < now - 24 * 60 * 60 * 1000 ∧
        c.status ∉ [Status.resolved, .verified, .social_media] := by
  unfold maxEscalatedQuery statusNin
  cases c.status <;> simp

/-- Claim C5: the auto-escalation pass at time `now` changes a stored complaint exactly
when its deadline is before `now`, its level is below 3 and its status is none of
`resolved`, `verified`, `social_media`, `escalated`; such a complaint gets its level
raised by one, status `escalated`, and one more history entry at the end with the new
level, no actor and the fixed reason. -/
theorem autoEscalationPass_effect (now : Date) (db : Db) (id : ObjectId) (c : Complaint)
    (h : db.findById id = some c) :
    ∃ c', (autoEscalationPass now db).findById id = some c' ∧
      (c' ≠ c ↔
        (c.deadline < now ∧ c.escalationLevel < 3 ∧
          c.status ∉ [Status.resolved, .verified, .social_media, .escalated])) ∧
      ((c.deadline < now ∧ c.escalationLevel < 3 ∧
          c.status ∉ [Status.resolved, .verified, .social_media, .escalated]) →
        c'.escalationLevel = c.escalationLevel + 1 ∧
        c'.status = .escalated ∧
        c'.escalationHistory = c.escalationHistory ++
          [{ level := c.escalationLevel + 1, escalatedAt := now,
             reason := some "Auto-escalated due to missed deadline", escalatedBy := none }]) := by
  refine ⟨autoStep now c, ?_, ?_, ?_⟩
  · unfold autoEscalationPass
    rw [Db.findById_forEachMatching _ _ _ _ (autoEscalate_id now), h]
    rfl
  · unfold autoStep
    by_cases hq : pastDeadlineQuery now c = true
    · have hq' := (pastDeadlineQuery_iff now c).mp hq
      rw [if_pos hq]
      unfold autoEscalate
      by_cases hl : c.escalationLevel < 3
      · rw [if_pos hl]
        refine ⟨fun _ => ⟨hq'.1, hl, hq'.2⟩, fun _ he => ?_⟩
        have hv : c.escalationLevel + 1 = c.escalationLevel := congrArg Complaint.escalationLevel he
        omega
      · rw [if_neg hl]
        exact ⟨fun hne => absurd rfl hne, fun hh => absurd hh.2.1 hl⟩
    · rw [if_neg hq]
      exact ⟨fun hne => absurd rfl hne,
        fun hh => absurd ((pastDeadlineQuery_iff now c).mpr ⟨hh.1, hh.2.2⟩) hq⟩
  · rintro ⟨hd, hl, hs⟩
    have hq : pastDeadlineQuery now c = true := (pastDeadlineQuery_iff now c).mpr ⟨hd, hs⟩
    unfold autoStep autoEscalate
    simp only [hq, hl, if_true, and_self]

/-- Claim C5 at the sample complaint, three hours after its deadline. -/
theorem autoEscalationPass_effect_witness :
    sampleDb.findById 1 = some sampleComplaint ∧
    ∃ c', (autoEscalationPass 10801000 sampleDb).findById 1 = some c' ∧
      (c' ≠ sampleComplaint ↔
        (sampleComplaint.deadline < 10801000 ∧ sampleComplaint.escalationLevel < 3 ∧
          sampleComplaint.status ∉ [Status.resolved, .verified, .social_media, .escalated])) ∧
      ((sampleComplaint.deadline < 10801000 ∧ sampleComplaint.escalationLevel < 3 ∧
          sampleComplaint.status ∉ [Status.resolved, .verified, .social_media, .escalated]) →
        c'.escalationLevel = sampleComplaint.escalationLevel + 1 ∧
        c'.status = .escalated ∧
        c'.escalationHistory = sampleComplaint.escalationHistory ++
          [{ level := sampleComplaint.escalationLevel + 1, escalatedAt := 10801000,
             reason := some "Auto-escalated due to missed deadline", escalatedBy := none }]) :=
  ⟨rfl, autoEscalationPass_effect 10801000 sampleDb 1 sampleComplaint rfl⟩

/-- Claim C6 fails on the code: three hours after the deadline of the sample complaint
the job escalates it to level 2 and leaves assignee `7` and deadline `1000` in place,
where `escalateComplaint` at the same time assigns the level-2 officer `20` and sets
the deadline to 24 hours after the escalation. -/
theorem autoEscalation_differs_from_escalateComplaint :
    sampleDb.findById 1 = some sampleComplaint ∧
    pastDeadlineQuery 10801000 sampleComplaint = true ∧
    ((deadlineChecker (fun _ => true) 10801000 sampleDb).db.findById 1).map
        (fun c => (c.escalationLevel, c.status, c.assignedTo, c.deadline)) =
      some (2, .escalated, some 7, 1000) ∧
    ((escalateComplaint sampleDb 10801000 sampleClerk 1
          (some "Auto-escalated due to missed deadline")).db.findById 1).map
        (fun c => (c.escalationLevel, c.status, c.assignedTo, c.deadline)) =
      some (2, .escalated, some 20, 97201000) := by
  refine ⟨rfl, by decide, by decide, by decide⟩

/-- Claim C7: the public-escalation pass at time `now` changes a stored complaint exactly
when its level is 3, its deadline is more than 24 hours before `now` and its status
is none of `resolved`, `verified`, `social_media`; such a complaint gets status
`social_media` and a new `updatedAt`, every other path is kept. -/
theorem publicEscalationPass_effect (now : Date) (db : Db) (id : ObjectId) (c : Complaint)
    (h : db.findById id = some c) :
    ∃ c', (publicEscalationPass now db).findById id = some c' ∧
      (c' ≠ c ↔
        (c.escalationLevel = 3 ∧ c.deadline < now - 24 * 60 * 60 * 1000 ∧
          c.status ∉ [Status.resolved, .verified, .social_media])) ∧
      ((c.escalationLevel = 3 ∧ c.deadline < now - 24 * 60 * 60 * 1000 ∧
          c.status ∉ [Status.resolved, .verified, .social_media]) →
        c' = { c with status := .social_media, updatedAt := now }) := by
  refine ⟨publicStep now c, ?_, ?_, ?_⟩
  · unfold publicEscalationPass
    rw [Db.findById_forEachMatching _ _ _ _ (moveToSocialMedia_id now), h]
    rfl
  · unfold publicStep
    by_cases hq : maxEscalatedQuery now c = true
    · have hq' := (maxEscalatedQuery_iff now c).mp hq
      rw [if_pos hq]
      refine ⟨fun _ => hq', fun _ he => ?_⟩
      have hs : Status.social_media = c.status := congrArg Complaint.status he
      have hn := hq'.2.2
      rw [← hs] at hn
      simp at hn
    · rw [if_neg hq]
      exact ⟨fun hne => absurd rfl hne,
        fun hh => absurd ((maxEscalatedQuery_iff now c).mpr hh) hq⟩
  · intro hh
    have hq : maxEscalatedQuery now c = true := (maxEscalatedQuery_iff now c).mpr hh
    unfold publicStep moveToSocialMedia
    simp only [hq, if_true]

/-- Claim C7 at the level-3 sample complaint, more than 24 hours after its deadline. -/
theorem publicEscalationPass_effect_witness :
    maxedDb.findById 1 = some maxedComplaint ∧
    ∃ c', (publicEscalationPass 180000000 maxedDb).findById 1 = some c' ∧
      (c' ≠ maxedComplaint ↔
        (maxedComplaint.escalationLevel = 3 ∧
          maxedComplaint.deadline < 180000000 - 24 * 60 * 60 * 1000 ∧
          maxedComplaint.status ∉ [Status.resolved, .verified, .social_media])) ∧
      ((maxedComplaint.escalationLevel = 3 ∧
          maxedComplaint.deadline < 180000000 - 24 * 60 * 60 * 1000 ∧
          maxedComplaint.status ∉ [Status.resolved, .verified, .social_media]) →
        c' = { maxedComplaint with status := .social_media, updatedAt := 180000000 }) :=
  ⟨rfl, publicEscalationPass_effect 180000000 maxedDb 1 maxedComplaint rfl⟩

/-! ## Publication -/

/-- The delivered calls are among the calls made. -/
theorem awaitAll_subset (deliver : Effect → Bool) (l : List Effect) :
    ∀ e ∈ (awaitAll deliver l).1, e ∈ l := by
  induction l with
  | nil => intro e he; simp [awaitAll] at he
  | cons a as ih =>
    intro e he
    unfold awaitAll at he
    by_cases hd : deliver a = true
    · simp only [hd, if_true, List.mem_cons] at he
      rcases he with he | he
      · exact he ▸ List.mem_cons_self _ _
      · exact List.mem_cons_of_mem _ (ih e he)
    · simp [hd] at he

/-- No warning publishes a complaint. -/
theorem warningCalls_not_publish (now : Date) (db : Db) (id : ObjectId) :
    ∀ e ∈ warningCalls now db, isPublishOf id e = false := by
  intro e he
  unfold warningCalls at he
  rw [List.mem_filterMap] at he
  obtain ⟨d, _, hd⟩ := he
  cases ha : d.assignedTo with
  | none => simp [ha] at hd
  | some a =>
    cases hu : db.findUserById a with
    | none => simp [ha, hu] at hd
    | some u =>
      simp only [ha, hu, Option.some.injEq] at hd
      rw [← hd]
      rfl

/-- The warning pass publishes nothing. -/
theorem publishCount_sent (deliver : Effect → Bool) (now : Date) (db : Db) (id : ObjectId) :
    publishCount id (awaitAll deliver (warningCalls now db)).1 = 0 := by
  unfold publishCount
  rw [List.countP_eq_zero]
  intro e he
  have := warningCalls_not_publish now db id e (awaitAll_subset deliver _ e he)
  simp [this]

/-- In a list with distinct ids, the documents with a given id that satisfy `q` number
one or zero, as the document found by that id satisfies `q` or not. -/
theorem countP_unique_id (l : List Complaint) (id : ObjectId) (c : Complaint)
    (q : Complaint → Bool) (hn : (l.map (fun d => d._id)).Nodup)
    (h : l.find? (fun d => d._id == id) = some c) :
    l.countP (fun d => q d && d._id == id) = if q c then 1 else 0 := by
  induction l with
  | nil => simp at h
  | cons a as ih =>
    rw [List.map_cons, List.nodup_cons] at hn
    by_cases ha : a._id = id
    · have hb : (a._id == id) = true := by simp [ha]
      simp only [List.find?_cons, hb, Option.some.injEq] at h
      subst h
      have hz : as.countP (fun d => q d && d._id == id) = 0 := by
        rw [List.countP_eq_zero]
        intro d hd
        have hne : d._id ≠ id := by
          intro he
          apply hn.1
          rw [ha, ← he]
          exact List.mem_map_of_mem _ hd
        simp [hne]
      rw [List.countP_cons, hz]
      simp [hb]
    · have hb : (a._id == id) = false := by simp [ha]
      simp only [List.find?_cons, hb] at h
      rw [List.countP_cons, ih hn.2 h]
      simp [hb]

/-- The third pass publishes a complaint once if it matches the filter, not at all otherwise. -/
theorem publishCount_posts (now : Date) (l : List Complaint) (id : ObjectId) (c : Complaint)
    (hn : (l.map (fun d => d._id)).Nodup) (h : l.find? (fun d => d._id == id) = some c) :
    publishCount id ((l.filter (maxEscalatedQuery now)).map
      (fun complaint => Effect.postToSocialMedia (moveToSocialMedia now complaint))) =
      if maxEscalatedQuery now c then 1 else 0 := by
  unfold publishCount
  rw [List.countP_map, List.countP_filter, ← countP_unique_id l id c (maxEscalatedQuery now) hn h]
  congr 1
  funext d
  simp [isPublishOf, moveToSocialMedia, Bool.and_comm]

/-- A loop that keeps ids keeps the list of ids. -/
theorem forEachMatching_ids (db : Db) (query : Complaint → Bool) (body : Complaint → Complaint)
    (hbody : ∀ d, (body d)._id = d._id) :
    (db.forEachMatching query body).complaints.map (fun d => d._id) =
      db.complaints.map (fun d => d._id) := by
  unfold Db.forEachMatching
  simp only [List.map_map]
  congr 1
  funext d
  by_cases hq : query d = true <;> simp [hq, hbody]

/-- A run of the job keeps the list of ids. -/
theorem deadlineChecker_ids (deliver : Effect → Bool) (now : Date) (db : Db) :
    (deadlineChecker deliver now db).db.complaints.map (fun d => d._id) =
      db.complaints.map (fun d => d._id) := by
  unfold deadlineChecker
  by_cases hc : (awaitAll deliver (warningCalls now db)).2 = true
  · simp only [hc, if_true, publicEscalationPass, autoEscalationPass]
    rw [forEachMatching_ids _ _ _ (moveToSocialMedia_id now),
      forEachMatching_ids _ _ _ (autoEscalate_id now)]
  · simp only [hc, Bool.false_eq_true, if_false]

/-- The second pass skips a `social_media` complaint. -/
theorem autoStep_of_social_media (now : Date) (c : Complaint) (hs : c.status = .social_media) :
    autoStep now c = c := by
  have hq : ¬ pastDeadlineQuery now c = true := by
    rw [pastDeadlineQuery_iff, hs]
    simp
  unfold autoStep
  rw [if_neg hq]

/-- The third pass skips a `social_media` complaint. -/
theorem maxEscalatedQuery_of_social_media (now : Date) (c : Complaint)
    (hs : c.status = .social_media) : ¬ maxEscalatedQuery now c = true := by
  rw [maxEscalatedQuery_iff, hs]
  simp

/-- How often a run of the job publishes a stored complaint. -/
theorem deadlineChecker_publishCount (deliver : Effect → Bool) (now : Date) (db : Db)
    (id : ObjectId) (c : Complaint) (hn : (db.complaints.map (fun d => d._id)).Nodup)
    (h : db.findById id = some c) :
    publishCount id (deadlineChecker deliver now db).effects =
      if (awaitAll deliver (warningCalls now db)).2 = true ∧
          maxEscalatedQuery now (autoStep now c) = true then 1 else 0 := by
  have hsent := publishCount_sent deliver now db id
  unfold deadlineChecker
  by_cases hc : (awaitAll deliver (warningCalls now db)).2 = true
  · simp only [hc, if_true, true_and]
    have h2 : (autoEscalationPass now db).findById id = some (autoStep now c) := by
      unfold autoEscalationPass
      rw [Db.findById_forEachMatching _ _ _ _ (autoEscalate_id now), h]
      rfl
    have hn2 : ((autoEscalationPass now db).complaints.map (fun d => d._id)).Nodup := by
      unfold autoEscalationPass
      rw [forEachMatching_ids _ _ _ (autoEscalate_id now)]
      exact hn
    have hp := publishCount_posts now _ id _ hn2 h2
    unfold publishCount at hp hsent ⊢
    rw [List.countP_append, hsent, hp, Nat.zero_add]
  · simp only [hc, Bool.false_eq_true, if_false, false_and]
    exact hsent

/-- A completed run leaves a `social_media` complaint as it is. -/
theorem sweepDoc_of_social_media (now : Date) (c : Complaint) (hs : c.status = .social_media) :
    sweepDoc now c = c := by
  unfold sweepDoc
  rw [autoStep_of_social_media now c hs]
  unfold publicStep
  rw [if_neg (maxEscalatedQuery_of_social_media now c hs)]

/-- A run reaches its end exactly when every warning is delivered. -/
theorem deadlineChecker_completed (deliver : Effect → Bool) (now : Date) (db : Db) :
    (deadlineChecker deliver now db).completed = (awaitAll deliver (warningCalls now db)).2 := by
  unfold deadlineChecker
  by_cases hc : (awaitAll deliver (warningCalls now db)).2 = true
  · simp only [hc, if_true]
  · simp only [hc, Bool.false_eq_true, if_false]

/-- Runs of the job neither change nor publish a `social_media` complaint. -/
theorem sweeps_social_media_stable (later : List ((Effect → Bool) × Date)) :
    ∀ (db : Db) (id : ObjectId) (c : Complaint), db.findById id = some c →
      c.status = .social_media → (db.complaints.map (fun d => d._id)).Nodup →
      (sweeps later db).1.findById id = some c ∧ publishCount id (sweeps later db).2 = 0 := by
  induction later with
  | nil =>
    intro db id c h _ _
    exact ⟨h, rfl⟩
  | cons t rest ih =>
    intro db id c h hs hn
    obtain ⟨deliver, now⟩ := t
    have h1 : (deadlineChecker deliver now db).db.findById id = some c := by
      rw [deadlineChecker_findById deliver now h, sweepDoc_of_social_media now c hs, ite_self]
    have hn1 : ((deadlineChecker deliver now db).db.complaints.map (fun d => d._id)).Nodup := by
      rw [deadlineChecker_ids]
      exact hn
    have hp : publishCount id (deadlineChecker deliver now db).effects = 0 := by
      rw [deadlineChecker_publishCount deliver now db id c hn h, autoStep_of_social_media now c hs]
      simp [maxEscalatedQuery_of_social_media now c hs]
    obtain ⟨ih1, ih2⟩ := ih _ id c h1 hs hn1
    refine ⟨ih1, ?_⟩
    unfold publishCount at hp ih2 ⊢
    simp only [sweeps]
    rw [List.countP_append, hp, ih2]

/-! ## The status `social_media` -/

/-- Only the string `social_media` is read as that status. -/
theorem Status.ofString_social_media (s : String) :
    Status.ofString s = some .social_media ↔ s = "social_media" := by
  constructor
  · intro h
    unfold Status.ofString at h
    split_ifs at h <;> first | assumption | (exact absurd h (by simp))
  · intro h
    rw [h]
    rfl

/-- The second pass keeps the status or sets `escalated`. -/
theorem autoStep_status (now : Date) (c : Complaint) :
    (autoStep now c).status = c.status ∨ (autoStep now c).status = .escalated := by
  unfold autoStep autoEscalate
  split_ifs
  · exact Or.inr rfl
  · exact Or.inl rfl
  · exact Or.inl rfl

/-- Claim C9 fails as stated: a status update that asks for `social_media` stores that
status for the sample complaint, which is at level 1. -/
theorem social_media_reached_at_level_one :
    sampleDb.findById 1 = some sampleComplaint ∧ sampleComplaint.status ≠ .social_media ∧
    ∃ c', ((Op.updateComplaintStatus sampleClerk "social_media").run 0 1 sampleDb).findById 1 =
        some c' ∧ c'.status = .social_media ∧ c'.escalationLevel = 1 :=
  ⟨rfl, by decide, _, rfl, rfl, rfl⟩

/-- Claim C9, amended: for every operation other than a status update that asks for
`social_media`, a stored complaint whose status was not `social_media` and is
`social_media` afterwards is at level 3 afterwards. -/
theorem social_media_only_at_level_three (op : Op) (now : Date) (id : ObjectId) (db : Db)
    (c c' : Complaint) (h : db.findById id = some c)
    (hop : ∀ actor, op ≠ .updateComplaintStatus actor "social_media")
    (hs : c.status ≠ .social_media)
    (h' : (op.run now id db).findById id = some c')
    (hs' : c'.status = .social_media) : c'.escalationLevel = 3 := by
  rw [Op.run_findById op now h, Option.some.injEq] at h'
  subst h'
  cases op with
  | updateComplaintStatus actor status =>
    exfalso
    simp only [Op.after] at hs'
    split_ifs at hs' with h1
    · exact hs hs'
    · cases ho : Status.ofString status with
      | none =>
        rw [ho] at hs'
        exact hs hs'
      | some s =>
        rw [ho] at hs'
        have hs2 : s = .social_media := hs'
        rw [hs2] at ho
        exact hop actor (by rw [(Status.ofString_social_media status).mp ho])
  | submitResolution actor description files =>
    exfalso
    simp only [Op.after] at hs'
    split_ifs at hs' with h1
    · exact hs hs'
    · cases hu : uploadAll files with
      | none =>
        rw [hu] at hs'
        exact hs hs'
      | some results =>
        rw [hu] at hs'
        exact absurd hs' (by simp)
  | escalateComplaint actor reason =>
    exfalso
    by_cases h1 : c.escalationLevel ≥ 3
    · simp only [Op.after, h1, if_true] at hs'
      exact hs hs'
    · simp only [Op.after, h1, if_false] at hs'
      exact Status.noConfusion hs'
  | extendDeadline actor additionalHours =>
    exfalso
    simp only [Op.after] at hs'
    split_ifs at hs' with h1 h2
    · exact hs hs'
    · exact hs hs'
    · exact hs hs'
  | sweepTick deliver =>
    simp only [Op.after] at hs' ⊢
    split_ifs at hs' ⊢ with h1
    · unfold sweepDoc publicStep at hs' ⊢
      by_cases hm : maxEscalatedQuery now (autoStep now c) = true
      · rw [if_pos hm]
        exact ((maxEscalatedQuery_iff now _).mp hm).1
      · rw [if_neg hm] at hs'
        rcases autoStep_status now c with ha | ha
        · exact absurd (ha ▸ hs') hs
        · rw [ha] at hs'
          exact absurd hs' (by simp)
    · exact absurd hs' hs

/-- Claim C9, amended, at the level-3 sample complaint and one run of the job. -/
theorem social_media_only_at_level_three_witness :
    maxedDb.findById 1 = some maxedComplaint ∧
    (∀ actor, Op.sweepTick (fun _ => true) ≠ .updateComplaintStatus actor "social_media") ∧
    maxedComplaint.status ≠ .social_media ∧
    ((Op.sweepTick (fun _ => true)).run 180000000 1 maxedDb).findById 1 =
      some { maxedComplaint with status := .social_media, updatedAt := 180000000 } ∧
    ({ maxedComplaint with
        status := .social_media, updatedAt := 180000000 } : Complaint).status = .social_media ∧
    ({ maxedComplaint with
        status := .social_media, updatedAt := 180000000 } : Complaint).escalationLevel = 3 :=
  ⟨rfl, fun _ he => Op.noConfusion he, by decide, rfl, rfl,
    social_media_only_at_level_three (.sweepTick (fun _ => true)) 180000000 1 maxedDb
      maxedComplaint _ rfl (fun _ he => Op.noConfusion he) (by decide) rfl rfl⟩

/-- Claim C10 fails as stated: a status update that asks for `resolved` takes a complaint
out of `social_media`, even after its deadline. -/
theorem social_media_left_by_status_update :
    socialDb.findById 1 = some socialComplaint ∧ socialComplaint.status = .social_media ∧
    ∃ c', ((Op.updateComplaintStatus sampleOfficer "resolved").run 180000000 1 socialDb).findById 1 =
        some c' ∧ c'.status = .resolved ∧ c'.status ≠ .social_media :=
  ⟨rfl, rfl, _, rfl, rfl, by decide⟩

/-- Claim C10, amended: for a stored complaint with status `social_media`, a deadline
extension and a run of the job keep the status; an escalation keeps it exactly when the
level is 3 or more; a status update keeps it exactly when it is refused for the
deadline, when the requested status is not a status of the schema, or when it asks
for `social_media`; a resolution keeps it exactly when it is refused for the deadline or
an upload fails. -/
theorem social_media_kept_exactly_when (op : Op) (now : Date) (id : ObjectId) (db : Db)
    (c : Complaint) (h : db.findById id = some c) (hs : c.status = .social_media) :
    ∃ c', (op.run now id db).findById id = some c' ∧
      (c'.status = .social_media ↔
        match op with
        | .updateComplaintStatus _ status =>
          (c.deadline < now ∧ status ≠ "resolved") ∨ Status.ofString status = none ∨
            status = "social_media"
        | .submitResolution _ _ files => c.deadline < now ∨ uploadAll files = none
        | .escalateComplaint _ _ => 3 ≤ c.escalationLevel
        | .extendDeadline _ _ => True
        | .sweepTick _ => True) := by
  refine ⟨_, Op.run_findById op now h, ?_⟩
  cases op with
  | updateComplaintStatus actor status =>
    simp only [Op.after]
    by_cases h1 : c.deadline < now ∧ status ≠ "resolved"
    · rw [if_pos h1]
      exact ⟨fun _ => Or.inl h1, fun _ => hs⟩
    · rw [if_neg h1]
      cases ho : Status.ofString status with
      | none => exact ⟨fun _ => Or.inr (Or.inl rfl), fun _ => hs⟩
      | some s =>
        simp only []
        constructor
        · intro he
          rw [he] at ho
          exact Or.inr (Or.inr ((Status.ofString_social_media status).mp ho))
        · rintro (hh | hh | hh)
          · exact absurd hh h1
          · exact absurd hh (by simp)
          · have := (Status.ofString_social_media status).mpr hh
            rw [ho] at this
            exact Option.some.inj this
  | submitResolution actor description files =>
    simp only [Op.after]
    by_cases h1 : c.deadline < now
    · rw [if_pos h1]
      exact ⟨fun _ => Or.inl h1, fun _ => hs⟩
    · rw [if_neg h1]
      cases hu : uploadAll files with
      | none => exact ⟨fun _ => Or.inr rfl, fun _ => hs⟩
      | some results =>
        simp only []
        constructor
        · intro he
          exact absurd he (by simp)
        · rintro (hh | hh)
          · exact absurd hh h1
          · exact absurd hh (by simp)
  | escalateComplaint actor reason =>
    simp only [Op.after]
    by_cases h1 : c.escalationLevel ≥ 3
    · rw [if_pos h1]
      exact ⟨fun _ => h1, fun _ => hs⟩
    · rw [if_neg h1]
      simp only []
      exact ⟨fun he => absurd he (by simp), fun hh => absurd hh h1⟩
  | extendDeadline actor additionalHours =>
    simp only [Op.after, iff_true]
    split_ifs <;> exact hs
  | sweepTick deliver =>
    simp only [Op.after, iff_true]
    split_ifs
    · rw [sweepDoc_of_social_media now c hs]
      exact hs
    · exact hs

/-- Claim C10, amended, at a `social_media` complaint and a resolution sent before its
deadline. -/
theorem social_media_kept_exactly_when_witness :
    socialDb.findById 1 = some socialComplaint ∧ socialComplaint.status = .social_media ∧
    ∃ c', ((Op.submitResolution sampleOfficer (some "fixed") []).run 500 1 socialDb).findById 1 =
        some c' ∧
      (c'.status = .social_media ↔
        (socialComplaint.deadline < 500 ∨ uploadAll ([] : List (Option UploadResult)) = none)) :=
  ⟨rfl, rfl,
    social_media_kept_exactly_when (.submitResolution sampleOfficer (some "fixed") []) 500 1
      socialDb socialComplaint rfl rfl⟩

/-! ## Status updates and resolutions -/

/-- A status update after the deadline that does not ask for `resolved` is refused. -/
theorem updateComplaintStatus_rejected {db : Db} {id : ObjectId} {c : Complaint} (now : Date)
    (actor : Actor) (status : String) (h : db.findById id = some c)
    (hd : c.deadline < now ∧ status ≠ "resolved") :
    updateComplaintStatus db now actor id status = deadlinePassed db := by
  unfold updateComplaintStatus deadlinePassed
  simp only [h]
  rw [if_pos hd]

/-- A status update that passes the deadline check and asks for a status of the schema answers
`200`. -/
theorem updateComplaintStatus_accepted {db : Db} {id : ObjectId} {c : Complaint} (now : Date)
    (actor : Actor) (status : String) (s : Status) (h : db.findById id = some c)
    (hd : ¬ (c.deadline < now ∧ status ≠ "resolved")) (hs : Status.ofString status = some s) :
    (updateComplaintStatus db now actor id status).res.code = 200 := by
  unfold updateComplaintStatus
  simp only [h, hs]
  rw [if_neg hd]

/-- A status update that passes the deadline check and asks for a string that is no status of
the schema is rejected by `save()`. -/
theorem updateComplaintStatus_invalid {db : Db} {id : ObjectId} {c : Complaint} (now : Date)
    (actor : Actor) (status : String) (h : db.findById id = some c)
    (hd : ¬ (c.deadline < now ∧ status ≠ "resolved")) (hs : Status.ofString status = none) :
    updateComplaintStatus db now actor id status = caught db (.validation "status") [] := by
  unfold updateComplaintStatus
  simp only [h, hs]
  rw [if_neg hd]

/-- The strings that the enum of `status` accepts are the eight names of the schema. -/
theorem Status.ofString_eq_none_iff (s : String) :
    Status.ofString s = none ↔
      s ∉ ["pending", "assigned", "in_progress", "resolved", "verified", "rejected", "escalated",
        "social_media"] := by
  unfold Status.ofString
  simp only [List.mem_cons, List.mem_singleton, List.not_mem_nil, or_false, not_or]
  constructor
  · intro h
    split_ifs at h with h1 h2 h3 h4 h5 h6 h7 h8
    exact ⟨h1, h2, h3, h4, h5, h6, h7, h8⟩
  · rintro ⟨h1, h2, h3, h4, h5, h6, h7, h8⟩
    simp only [h1, h2, h3, h4, h5, h6, h7, h8, if_false]

/-- Claim C11 fails as stated: before the deadline of the sample complaint a status update
that asks for `Resolved`, which is none of the eight status values of the schema, is
neither refused with the deadline-passed answer nor carried out: `save()` rejects the
value, the answer is `500` and the stored complaint keeps its status `pending`. -/
theorem status_outside_the_schema_is_not_stored :
    sampleDb.findById 1 = some sampleComplaint ∧ ¬ sampleComplaint.deadline < 500 ∧
    updateComplaintStatus sampleDb 500 sampleClerk 1 "Resolved" ≠ deadlinePassed sampleDb ∧
    (updateComplaintStatus sampleDb 500 sampleClerk 1 "Resolved").res =
      { code := 500, body := .error (.validation "status") } ∧
    (updateComplaintStatus sampleDb 500 sampleClerk 1 "Resolved").db = sampleDb ∧
    ((updateComplaintStatus sampleDb 500 sampleClerk 1 "Resolved").db.findById 1).map
      (fun c => c.status) = some .pending :=
  ⟨rfl, by decide, by decide, rfl, rfl, rfl⟩

/-- Claim C11, amended: for a stored complaint, `updateComplaintStatus` gives the
deadline-passed answer (`400`, database as before) exactly when the deadline is before
`now` and the requested status is not `resolved`. Otherwise, when the requested string
is one of the eight status values of the schema, it answers `200` and stores that
status; when the status is `in_progress` the assignee becomes the actor if there was none
and stays if there was one; for another status the assignee stays. Otherwise, when the
requested string is none of the eight values, the answer is `500` with the validation
error of `status`, and the database is as before. -/
theorem updateComplaintStatus_effect (db : Db) (now : Date) (actor : Actor) (id : ObjectId)
    (status : String) (c : Complaint) (h : db.findById id = some c) :
    (updateComplaintStatus db now actor id status = deadlinePassed db ↔
      (c.deadline < now ∧ status ≠ "resolved")) ∧
    (¬ (c.deadline < now ∧ status ≠ "resolved") → ∀ s, Status.ofString status = some s →
      (updateComplaintStatus db now actor id status).res.code = 200 ∧
      ∃ c', (updateComplaintStatus db now actor id status).db.findById id = some c' ∧
        c'.status = s ∧
        (s = .in_progress → c.assignedTo = none → c'.assignedTo = some actor._id) ∧
        (s = .in_progress → c.assignedTo ≠ none → c'.assignedTo = c.assignedTo) ∧
        (s ≠ .in_progress → c'.assignedTo = c.assignedTo)) ∧
    (¬ (c.deadline < now ∧ status ≠ "resolved") →
      status ∉ ["pending", "assigned", "in_progress", "resolved", "verified", "rejected",
        "escalated", "social_media"] →
      (updateComplaintStatus db now actor id status).res =
        { code := 500, body := .error (.validation "status") } ∧
      (updateComplaintStatus db now actor id status).db = db ∧
      (updateComplaintStatus db now actor id status).db.findById id = some c) := by
  refine ⟨?_, ?_, ?_⟩
  · constructor
    · intro he
      by_contra hd
      cases hs : Status.ofString status with
      | none =>
        have := updateComplaintStatus_invalid now actor status h hd hs
        rw [he] at this
        have hc := congrArg (fun o => o.res.code) this
        simp [deadlinePassed, caught] at hc
      | some s =>
        have := updateComplaintStatus_accepted now actor status s h hd hs
        rw [he] at this
        simp [deadlinePassed] at this
    · exact updateComplaintStatus_rejected now actor status h
  · intro hd s hs
    refine ⟨updateComplaintStatus_accepted now actor status s h hd hs, _,
      Op.run_findById (.updateComplaintStatus actor status) now h, ?_⟩
    simp only [Op.after, hs]
    rw [if_neg hd]
    refine ⟨rfl, ?_, ?_, ?_⟩
    · intro h1 h2
      simp only [h1, h2, and_self, if_true]
    · intro h1 h2
      simp only [h1, h2, and_false, if_false]
    · intro h1
      simp only [h1, false_and, if_false]
  · intro hd hs
    rw [updateComplaintStatus_invalid now actor status h hd
      ((Status.ofString_eq_none_iff status).2 hs)]
    exact ⟨rfl, rfl, h⟩

/-- Claim C11, amended, at the sample complaint, which is assigned to user 7 and has its
deadline at `1000`: at time `500` the level-2 officer asks for `in_progress`; the answer
is `200`, the stored status is `in_progress` and the assignee is still user 7. -/
theorem updateComplaintStatus_effect_witness :
    sampleDb.findById 1 = some sampleComplaint ∧
    updateComplaintStatus sampleDb 500 sampleOfficer 1 "in_progress" ≠ deadlinePassed sampleDb ∧
    (updateComplaintStatus sampleDb 500 sampleOfficer 1 "in_progress").res.code = 200 ∧
    ∃ c', (updateComplaintStatus sampleDb 500 sampleOfficer 1 "in_progress").db.findById 1 =
        some c' ∧
      c'.status = .in_progress ∧ c'.assignedTo = some 7 :=
  ⟨rfl,
    fun he => absurd
      (((updateComplaintStatus_effect sampleDb 500 sampleOfficer 1 "in_progress" sampleComplaint
        rfl).1.1 he).1) (by decide),
    ((updateComplaintStatus_effect sampleDb 500 sampleOfficer 1 "in_progress" sampleComplaint
      rfl).2.1 (by decide) .in_progress rfl).1,
    match ((updateComplaintStatus_effect sampleDb 500 sampleOfficer 1 "in_progress"
      sampleComplaint rfl).2.1 (by decide) .in_progress rfl).2 with
    | ⟨c', hc, hstatus, _, hkept, _⟩ => ⟨c', hc, hstatus, hkept rfl (by decide)⟩⟩

/-- A resolution after the deadline is refused. -/
theorem submitResolution_rejected {db : Db} {id : ObjectId} {c : Complaint} (now : Date)
    (actor : Actor) (description : Option String) (files : List (Option UploadResult))
    (h : db.findById id = some c) (hd : c.deadline < now) :
    submitResolution db now actor id description files = resolutionAfterDeadline db := by
  unfold submitResolution resolutionAfterDeadline
  simp only [h]
  rw [if_pos hd]

/-- Uploads that all succeed give their results in order. -/
theorem uploadAll_map_some (results : List UploadResult) :
    uploadAll (results.map some) = some results := by
  induction results with
  | nil => rfl
  | cons r rs ih => simp only [List.map_cons, uploadAll, ih]

/-- Claim C12 fails as stated: after the deadline of the sample complaint a status update that
asks for `resolved` answers `200` and stores status `resolved`. -/
theorem resolved_after_deadline_by_status_update :
    sampleDb.findById 1 = some sampleComplaint ∧ sampleComplaint.deadline < 5000 ∧
    (updateComplaintStatus sampleDb 5000 sampleClerk 1 "resolved").res.code = 200 ∧
    ∃ c', (updateComplaintStatus sampleDb 5000 sampleClerk 1 "resolved").db.findById 1 =
        some c' ∧ c'.status = .resolved :=
  ⟨rfl, by decide, rfl, _, rfl, rfl⟩

/-- Claim C12, amended: for a stored complaint whose deadline is before `now`, every status
update that asks for another status than `resolved` and every resolution gets the deadline-
passed answer and leaves the database as it was; a status update that asks for `resolved`
answers `200` and stores `resolved`; an escalation below level 3 answers `200` and stores
status `escalated` one level up. -/
theorem after_deadline_only_resolve_or_escalate (db : Db) (now : Date) (id : ObjectId)
    (c : Complaint) (h : db.findById id = some c) (hd : c.deadline < now) :
    (∀ actor status, status ≠ "resolved" →
      updateComplaintStatus db now actor id status = deadlinePassed db) ∧
    (∀ actor description files,
      submitResolution db now actor id description files = resolutionAfterDeadline db) ∧
    (∀ actor, (updateComplaintStatus db now actor id "resolved").res.code = 200 ∧
      ∃ c', (updateComplaintStatus db now actor id "resolved").db.findById id = some c' ∧
        c'.status = .resolved) ∧
    (c.escalationLevel < 3 → ∀ actor reason,
      (escalateComplaint db now actor id reason).res.code = 200 ∧
      ∃ c', (escalateComplaint db now actor id reason).db.findById id = some c' ∧
        c'.status = .escalated ∧ c'.escalationLevel = c.escalationLevel + 1) := by
  refine ⟨?_, ?_, ?_, ?_⟩
  · intro actor status hs
    exact updateComplaintStatus_rejected now actor status h ⟨hd, hs⟩
  · intro actor description files
    exact submitResolution_rejected now actor description files h hd
  · intro actor
    have hn : ¬ (c.deadline < now ∧ "resolved" ≠ "resolved") := fun hh => hh.2 rfl
    refine ⟨updateComplaintStatus_accepted now actor "resolved" .resolved h hn rfl, _,
      Op.run_findById (.updateComplaintStatus actor "resolved") now h, ?_⟩
    simp only [Op.after]
    rw [if_neg hn]
    rfl
  · intro hl actor reason
    refine ⟨escalateComplaint_code now actor reason h hl, _,
      Op.run_findById (.escalateComplaint actor reason) now h, ?_⟩
    have h1 : ¬ c.escalationLevel ≥ 3 := by omega
    simp only [Op.after]
    rw [if_neg h1]
    exact ⟨rfl, rfl⟩

/-- Claim C12, amended, at the sample complaint after its deadline. -/
theorem after_deadline_only_resolve_or_escalate_witness :
    sampleDb.findById 1 = some sampleComplaint ∧ sampleComplaint.deadline < 5000 ∧
    (∀ actor status, status ≠ "resolved" →
      updateComplaintStatus sampleDb 5000 actor 1 status = deadlinePassed sampleDb) ∧
    (∀ actor description files,
      submitResolution sampleDb 5000 actor 1 description files =
        resolutionAfterDeadline sampleDb) ∧
    (∀ actor, (updateComplaintStatus sampleDb 5000 actor 1 "resolved").res.code = 200 ∧
      ∃ c', (updateComplaintStatus sampleDb 5000 actor 1 "resolved").db.findById 1 = some c' ∧
        c'.status = .resolved) ∧
    (sampleComplaint.escalationLevel < 3 → ∀ actor reason,
      (escalateComplaint sampleDb 5000 actor 1 reason).res.code = 200 ∧
      ∃ c', (escalateComplaint sampleDb 5000 actor 1 reason).db.findById 1 = some c' ∧
        c'.status = .escalated ∧
        c'.escalationLevel = sampleComplaint.escalationLevel + 1) :=
  ⟨rfl, by decide,
    after_deadline_only_resolve_or_escalate sampleDb 5000 1 sampleComplaint rfl (by decide)⟩

/-- Claim C13: for a stored complaint (in status `in_progress` or any other), `submitResolution`
whose uploads succeed with `results` answers `400` with the message of the deadline and
leaves the database as it was when the deadline is before `now`; otherwise it stores
status `resolved` and a resolution with the description as sent, `resolvedAt = now`,
`resolvedBy` the actor and one proof entry for each upload, in the order of the uploads
(none for no file): the entry of an upload holds its `secure_url` as `url`, its
`public_id`, and the type `video` when its `resource_type` is `video` and `image`
otherwise. Level, deadline and assignee are kept. -/
theorem submitResolution_effect (db : Db) (now : Date) (actor : Actor) (id : ObjectId)
    (description : Option String) (results : List UploadResult) (c : Complaint)
    (h : db.findById id = some c) :
    (c.deadline < now →
      submitResolution db now actor id description (results.map some) =
        { res := { code := 400,
                   body := .message "Cannot submit resolution after deadline. Please escalate." },
          db := db, effects := [] } ∧
      (submitResolution db now actor id description (results.map some)).db.findById id =
        some c) ∧
    (¬ c.deadline < now →
      ∃ c', (submitResolution db now actor id description (results.map some)).db.findById id =
          some c' ∧
        c'.status = .resolved ∧
        c'.resolution.description = description ∧
        c'.resolution.resolvedAt = some now ∧
        c'.resolution.resolvedBy = some actor._id ∧
        c'.resolution.proof.length = results.length ∧
        (∀ (k : Nat) (r : UploadResult), results[k]? = some r →
          c'.resolution.proof[k]? =
            some ({ url := r.secure_url, public_id := r.public_id,
                    type := if r.resource_type = "video" then "video" else "image" } : Proof)) ∧
        (results = [] → c'.resolution.proof = []) ∧
        c'.escalationLevel = c.escalationLevel ∧ c'.deadline = c.deadline ∧
        c'.assignedTo = c.assignedTo) := by
  constructor
  · intro hd
    have he := submitResolution_rejected now actor description (results.map some) h hd
    refine ⟨he, ?_⟩
    rw [he]
    exact h
  · intro hd
    refine ⟨_,
      Op.run_findById (.submitResolution actor description (results.map some)) now h, ?_⟩
    simp only [Op.after, uploadAll_map_some]
    rw [if_neg hd]
    refine ⟨rfl, rfl, rfl, rfl, ?_, ?_, ?_, rfl, rfl, rfl⟩
    · simp only [List.length_map]
    · intro k r hk
      simp only [List.getElem?_map, hk, Option.map_some', proofOfUpload]
    · intro hr
      simp only [hr, List.map_nil]

/-- Claim C13 at the sample complaint in progress, resolved by user 7 at time `500`, before
its deadline `1000`, with a photo and a video: the stored proofs are the photo as `image`
and the video as `video`, in that order. -/
theorem submitResolution_effect_witness :
    inProgressDb.findById 1 = some inProgressComplaint ∧ ¬ inProgressComplaint.deadline < 500 ∧
    ∃ c', (submitResolution inProgressDb 500 sampleClerk 1 (some "Filled the pothole")
        (sampleUploads.map some)).db.findById 1 = some c' ∧
      c'.status = .resolved ∧
      c'.resolution.description = some "Filled the pothole" ∧
      c'.resolution.resolvedAt = some 500 ∧
      c'.resolution.resolvedBy = some 7 ∧
      c'.resolution.proof.length = 2 ∧
      c'.resolution.proof[0]? =
        some ({ url := "https://cdn.example.org/a.jpg", public_id := "resolutions/a",
                type := "image" } : Proof) ∧
      c'.resolution.proof[1]? =
        some ({ url := "https://cdn.example.org/b.mp4", public_id := "resolutions/b",
                type := "video" } : Proof) ∧
      c'.escalationLevel = 1 ∧ c'.deadline = 1000 ∧ c'.assignedTo = some 7 :=
  ⟨rfl, by decide,
    match (submitResolution_effect inProgressDb 500 sampleClerk 1 (some "Filled the pothole")
      sampleUploads inProgressComplaint rfl).2 (by decide) with
    | ⟨c', hc, hstatus, hdescription, hat, hby, hlength, hentry, _, hlevel, hdeadline,
        hassignee⟩ =>
      ⟨c', hc, hstatus, hdescription, hat, hby, hlength,
        hentry 0 { secure_url := "https://cdn.example.org/a.jpg", public_id := "resolutions/a",
                   resource_type := "image" } rfl,
        hentry 1 { secure_url := "https://cdn.example.org/b.mp4", public_id := "resolutions/b",
                   resource_type := "video" } rfl,
        hlevel, hdeadline, hassignee⟩⟩

/-- Claim C14 fails as stated: before the deadline a resolution whose description is absent, or
empty, answers `200` and stores status `resolved` with that description. -/
theorem resolution_without_description_accepted :
    sampleDb.findById 1 = some sampleComplaint ∧
    (submitResolution sampleDb 500 sampleClerk 1 none []).res.code = 200 ∧
    (∃ c', (submitResolution sampleDb 500 sampleClerk 1 none []).db.findById 1 = some c' ∧
      c'.status = .resolved ∧ c'.status ≠ sampleComplaint.status ∧
      c'.resolution.description = none ∧ c'.resolution ≠ sampleComplaint.resolution) ∧
    (submitResolution sampleDb 500 sampleClerk 1 (some "") []).res.code = 200 ∧
    (∃ c', (submitResolution sampleDb 500 sampleClerk 1 (some "") []).db.findById 1 = some c' ∧
      c'.status = .resolved ∧ c'.resolution.description = some "") :=
  ⟨rfl, rfl, ⟨_, rfl, rfl, by decide, rfl, by decide⟩, rfl, ⟨_, rfl, rfl, rfl⟩⟩

/-- Claim C14, amended: whatever the description, also absent or empty, `submitResolution` never
answers with a validation error; it is refused with the deadline-passed answer when the
deadline is before `now`, and otherwise, when its uploads succeed, stores status `resolved`
and a resolution that holds the description as sent. -/
theorem submitResolution_description_not_validated (db : Db) (now : Date) (actor : Actor)
    (id : ObjectId) (description : Option String) (results : List UploadResult) (c : Complaint)
    (h : db.findById id = some c) :
    (∀ files path,
      (submitResolution db now actor id description files).res.body ≠
        .error (.validation path)) ∧
    (c.deadline < now →
      submitResolution db now actor id description (results.map some) =
        resolutionAfterDeadline db) ∧
    (¬ c.deadline < now →
      ∃ c', (submitResolution db now actor id description (results.map some)).db.findById id =
          some c' ∧
        c'.status = .resolved ∧ c'.resolution.description = description ∧
        c'.resolution.resolvedAt = some now ∧ c'.resolution.resolvedBy = some actor._id) := by
  refine ⟨?_, submitResolution_rejected now actor description _ h, ?_⟩
  · intro files path
    unfold submitResolution
    simp only [h]
    split_ifs
    · simp
    · cases hu : uploadAll files with
      | none => simp [caught]
      | some rs =>
        simp only []
        split <;> simp [caught]
  · intro hd
    refine ⟨_,
      Op.run_findById (.submitResolution actor description (results.map some)) now h, ?_⟩
    simp only [Op.after, uploadAll_map_some]
    rw [if_neg hd]
    exact ⟨rfl, rfl, rfl, rfl⟩

/-- Claim C14, amended, at the sample complaint and a request without description. -/
theorem submitResolution_description_not_validated_witness :
    sampleDb.findById 1 = some sampleComplaint ∧
    (∀ files path,
      (submitResolution sampleDb 500 sampleClerk 1 none files).res.body ≠
        .error (.validation path)) ∧
    (sampleComplaint.deadline < 500 →
      submitResolution sampleDb 500 sampleClerk 1 none (sampleUploads.map some) =
        resolutionAfterDeadline sampleDb) ∧
    (¬ sampleComplaint.deadline < 500 →
      ∃ c', (submitResolution sampleDb 500 sampleClerk 1 none
          (sampleUploads.map some)).db.findById 1 = some c' ∧
        c'.status = .resolved ∧ c'.resolution.description = none ∧
        c'.resolution.resolvedAt = some 500 ∧
        c'.resolution.resolvedBy = some sampleClerk._id) :=
  ⟨rfl,
    submitResolution_description_not_validated sampleDb 500 sampleClerk 1 none sampleUploads
      sampleComplaint rfl⟩

/-! ## The resolution predicate -/

/-- The second pass keeps the resolution. -/
theorem autoStep_resolution (now : Date) (c : Complaint) :
    (autoStep now c).resolution = c.resolution := by
  unfold autoStep autoEscalate
  split_ifs <;> rfl

/-- A completed run keeps the resolution predicate. -/
theorem sweepDoc_resolutionRecorded (now : Date) (c : Complaint) (hinv : resolutionRecorded c) :
    resolutionRecorded (sweepDoc now c) := by
  unfold sweepDoc publicStep
  by_cases hm : maxEscalatedQuery now (autoStep now c) = true
  · rw [if_pos hm]
    intro hs
    rcases hs with hs | hs <;> exact absurd hs (by simp [moveToSocialMedia])
  · rw [if_neg hm]
    intro hs
    rw [autoStep_resolution]
    rcases autoStep_status now c with ha | ha
    · rw [ha] at hs
      exact hinv hs
    · rw [ha] at hs
      rcases hs with hs | hs <;> exact absurd hs (by simp)

/-- Claim C15 fails as stated: a status update that asks for `resolved` stores that status for
the sample complaint, whose resolution records neither time nor actor. -/
theorem resolved_without_resolution :
    sampleDb.findById 1 = some sampleComplaint ∧ resolutionRecorded sampleComplaint ∧
    ∃ c', ((Op.updateComplaintStatus sampleClerk "resolved").run 500 1 sampleDb).findById 1 =
        some c' ∧
      c'.status = .resolved ∧ c'.resolution.resolvedAt = none ∧
      c'.resolution.resolvedBy = none ∧ ¬ resolutionRecorded c' :=
  ⟨rfl, fun hs => by rcases hs with hs | hs <;> exact absurd hs (by decide),
    _, rfl, rfl, rfl, rfl, fun hinv => (hinv (Or.inl rfl)).1 rfl⟩

/-- Claim C15, amended: the predicate `resolutionRecorded` holds for the complaint made by
`createComplaint` and for the one made by the route, and every operation on a stored
complaint keeps it, a status update provided it asks for neither `resolved` nor `verified`
or the resolution already records time and actor. -/
theorem resolutionRecorded_preserved (op : Op) (now : Date) (id : ObjectId) (db : Db)
    (c : Complaint) (actor : Actor) (newId : ObjectId) (body : CreateBody)
    (h : db.findById id = some c) (hinv : resolutionRecorded c)
    (hop : ∀ a status, op = .updateComplaintStatus a status →
      (status ≠ "resolved" ∧ status ≠ "verified") ∨
        (c.resolution.resolvedAt ≠ none ∧ c.resolution.resolvedBy ≠ none)) :
    resolutionRecorded (newComplaint now actor newId body) ∧
    (∀ hours, resolutionRecorded (newRouteComplaint now actor newId body hours)) ∧
    ∃ c', (op.run now id db).findById id = some c' ∧ resolutionRecorded c' := by
  refine ⟨?_, ?_, _, Op.run_findById op now h, ?_⟩
  · intro hs
    rcases hs with hs | hs <;> exact absurd hs (by simp [newComplaint])
  · intro hours hs
    rcases hs with hs | hs <;> exact absurd hs (by simp [newRouteComplaint])
  · cases op with
    | updateComplaintStatus a status =>
      simp only [Op.after]
      split_ifs with h1
      · exact hinv
      · cases ho : Status.ofString status with
        | none => exact hinv
        | some s =>
          intro hs
          rcases hop a status rfl with ⟨hr, hv⟩ | hpop
          · exfalso
            have hs' : s = .resolved ∨ s = .verified := hs
            unfold Status.ofString at ho
            rcases hs' with hs' | hs' <;> subst hs' <;> split_ifs at ho <;> simp_all
          · exact hpop
    | submitResolution a description files =>
      simp only [Op.after]
      split_ifs with h1
      · exact hinv
      · cases hu : uploadAll files with
        | none => exact hinv
        | some results =>
          intro _
          exact ⟨by simp, by simp⟩
    | escalateComplaint a reason =>
      simp only [Op.after]
      split_ifs with h1
      · exact hinv
      · intro hs
        rcases hs with hs | hs <;> exact absurd hs (by simp)
    | extendDeadline a additionalHours =>
      simp only [Op.after]
      split_ifs with h1 h2
      · exact hinv
      · exact hinv
      · exact hinv
    | sweepTick deliver =>
      simp only [Op.after]
      split_ifs
      · exact sweepDoc_resolutionRecorded now c hinv
      · exact hinv

/-- Claim C15, amended, at the sample complaint in progress and a resolution. -/
theorem resolutionRecorded_preserved_witness :
    inProgressDb.findById 1 = some inProgressComplaint ∧
    resolutionRecorded inProgressComplaint ∧
    (∀ a status,
      Op.submitResolution sampleClerk (some "Filled the pothole") [] =
          .updateComplaintStatus a status →
        (status ≠ "resolved" ∧ status ≠ "verified") ∨
          (inProgressComplaint.resolution.resolvedAt ≠ none ∧
            inProgressComplaint.resolution.resolvedBy ≠ none)) ∧
    resolutionRecorded (newComplaint 500 sampleCitizen 2 sampleCreateBody) ∧
    (∀ hours,
      resolutionRecorded (newRouteComplaint 500 sampleCitizen 2 sampleCreateBody hours)) ∧
    ∃ c', ((Op.submitResolution sampleClerk (some "Filled the pothole") []).run 500 1
        inProgressDb).findById 1 = some c' ∧ resolutionRecorded c' :=
  ⟨rfl, fun hs => by rcases hs with hs | hs <;> exact absurd hs (by decide),
    fun _ _ he => Op.noConfusion he,
    resolutionRecorded_preserved (.submitResolution sampleClerk (some "Filled the pothole") [])
      500 1 inProgressDb inProgressComplaint sampleCitizen 2 sampleCreateBody rfl
      (fun hs => by rcases hs with hs | hs <;> exact absurd hs (by decide))
      (fun _ _ he => Op.noConfusion he)⟩

/-! ## Deadlines set by escalation and extension -/

/-- An escalation at level 3 or more answers `400`. -/
theorem escalateComplaint_refused_code {db : Db} {id : ObjectId} {c : Complaint} (now : Date)
    (actor : Actor) (reason : Option String) (h : db.findById id = some c)
    (hl : c.escalationLevel ≥ 3) :
    (escalateComplaint db now actor id reason).res.code = 400 := by
  unfold escalateComplaint
  simp only [h]
  rw [if_pos hl]

/-- Claim C16: after an escalation of a stored complaint at time `now` that answers `200`, the
stored deadline is `now + 86400000`, whatever it was. -/
theorem escalateComplaint_deadline (db : Db) (now : Date) (actor : Actor) (id : ObjectId)
    (reason : Option String) (c : Complaint) (h : db.findById id = some c)
    (hok : (escalateComplaint db now actor id reason).res.code = 200) :
    ∃ c', (escalateComplaint db now actor id reason).db.findById id = some c' ∧
      c'.deadline = now + 86400000 := by
  have hl : ¬ c.escalationLevel ≥ 3 := by
    intro hl
    rw [escalateComplaint_refused_code now actor reason h hl] at hok
    exact absurd hok (by decide)
  refine ⟨_, Op.run_findById (.escalateComplaint actor reason) now h, ?_⟩
  simp only [Op.after]
  rw [if_neg hl]
  show now + 24 * 60 * 60 * 1000 = now + 86400000
  norm_num

/-- Claim C16 at a complaint whose deadline was 100 hours away. -/
theorem escalateComplaint_deadline_witness :
    earlyDb.findById 1 = some earlyComplaint ∧
    (escalateComplaint earlyDb 7000 sampleClerk 1 (some "no progress")).res.code = 200 ∧
    ∃ c', (escalateComplaint earlyDb 7000 sampleClerk 1 (some "no progress")).db.findById 1 =
        some c' ∧ c'.deadline = 7000 + 86400000 :=
  ⟨rfl, rfl,
    escalateComplaint_deadline earlyDb 7000 sampleClerk 1 (some "no progress") earlyComplaint
      rfl rfl⟩

/-- Claim C17 fails on the code: for the hour count `-5`, as a number or as a string, an
extension by the level-2 officer answers `200` and moves the deadline of the sample
complaint 5 hours back, not 24 hours on. -/
theorem extendDeadline_negative_hours :
    sampleDb.findById 1 = some sampleComplaint ∧
    parseInt (.num "-5") = some (-5) ∧
    (extendDeadline sampleDb 500 sampleOfficer 1 (.num "-5")).res.code = 200 ∧
    ((extendDeadline sampleDb 500 sampleOfficer 1 (.num "-5")).db.findById 1).map
        (fun c => c.deadline) = some (sampleComplaint.deadline - 5 * 60 * 60 * 1000) ∧
    ((extendDeadline sampleDb 500 sampleOfficer 1 (.num "-5")).db.findById 1).map
        (fun c => c.deadline) ≠ some (sampleComplaint.deadline + 24 * 60 * 60 * 1000) ∧
    ((extendDeadline sampleDb 500 sampleOfficer 1 (.str "-5")).db.findById 1).map
        (fun c => c.deadline) = some (sampleComplaint.deadline - 5 * 60 * 60 * 1000) := by
  refine ⟨rfl, rfl, rfl, by decide, by decide, by decide⟩

/-! ## Creation -/

/-- After an insertion the new document is found by its id, at the end of the collection. -/
theorem Db.findById_insert {db db' : Db} {c : Complaint} (h : db.insert c = some db') :
    db'.findById c._id = some c ∧ db'.complaints = db.complaints ++ [c] ∧
      db'.users = db.users := by
  unfold Db.insert at h
  cases hf : db.findById c._id with
  | some d => simp [hf] at h
  | none =>
    simp only [hf, Option.some.injEq] at h
    subst h
    refine ⟨?_, rfl, rfl⟩
    unfold Db.findById at hf ⊢
    simp only [List.find?_append, hf, Option.none_or, List.find?_cons, beq_self_eq_true]

/-- A document whose deadline is an invalid date fails validation at the path `deadline`. -/
theorem invalidPaths_of_invalid_date {c : Complaint} (h : isValidTime c.deadline = false) :
    "deadline" ∈ invalidPaths c := by
  unfold invalidPaths
  simp [h]

/-- A document that passes validation has a valid date as its deadline. -/
theorem isValidTime_of_invalidPaths_nil {c : Complaint} (h : invalidPaths c = []) :
    isValidTime c.deadline = true := by
  by_contra hv
  have hm := invalidPaths_of_invalid_date (c := c) (by simpa using hv)
  rw [h] at hm
  exact absurd hm (List.not_mem_nil _)

/-- When `createComplaint` answers `201`, the uploads succeeded, the new complaint passed
validation and, with its images, is answered and stored. -/
theorem createComplaint_created {db : Db} {now : Date} {actor : Actor} {newId : ObjectId}
    {body : CreateBody} {files : List (Option UploadResult)}
    (h : (createComplaint db now actor newId body files).res.code = 201) :
    ∃ results, uploadAll files = some results ∧
      invalidPaths { newComplaint now actor newId body with images := results.map imageOfUpload }
        = [] ∧
      (createComplaint db now actor newId body files).res.body =
        .complaint { newComplaint now actor newId body with images := results.map imageOfUpload } ∧
      (createComplaint db now actor newId body files).db.findById newId =
        some { newComplaint now actor newId body with images := results.map imageOfUpload } := by
  unfold createComplaint at h ⊢
  cases hu : uploadAll files with
  | none => simp [hu, caught] at h
  | some results =>
    refine ⟨results, rfl, ?_⟩
    simp only [hu] at h ⊢
    cases hv : invalidPaths
        { newComplaint now actor newId body with images := results.map imageOfUpload } with
    | cons p ps => simp [hv, caught] at h
    | nil =>
      simp only [hv] at h ⊢
      cases hi : db.insert
          { newComplaint now actor newId body with images := results.map imageOfUpload } with
      | none => simp [hi, caught] at h
      | some db' =>
        simp only [hi]
        exact ⟨trivial, trivial, (Db.findById_insert hi).1⟩

/-- A creation whose deadline is an invalid date is answered `500` and stores nothing. -/
theorem createComplaint_invalid_date {db : Db} {now : Date} {actor : Actor} {newId : ObjectId}
    {body : CreateBody} {files : List (Option UploadResult)}
    (h : isValidTime (newComplaint now actor newId body).deadline = false) :
    (createComplaint db now actor newId body files).res.code = 500 ∧
    (createComplaint db now actor newId body files).db = db ∧
    (createComplaint db now actor newId body files).effects = [] := by
  unfold createComplaint
  cases hu : uploadAll files with
  | none => exact ⟨rfl, rfl, rfl⟩
  | some results =>
    simp only []
    cases hv : invalidPaths
        { newComplaint now actor newId body with images := results.map imageOfUpload } with
    | cons p ps => exact ⟨rfl, rfl, rfl⟩
    | nil =>
      have hm := invalidPaths_of_invalid_date
        (c := { newComplaint now actor newId body with images := results.map imageOfUpload }) h
      rw [hv] at hm
      exact absurd hm (List.not_mem_nil _)

/-- A creation whose uploads succeed, whose document passes validation and whose id is fresh
is answered `201`. -/
theorem createComplaint_accepted {db : Db} {now : Date} {actor : Actor} {newId : ObjectId}
    {body : CreateBody} {files : List (Option UploadResult)} {results : List UploadResult}
    (hu : uploadAll files = some results)
    (hv : invalidPaths
      { newComplaint now actor newId body with images := results.map imageOfUpload } = [])
    (hf : db.findById newId = none) :
    (createComplaint db now actor newId body files).res.code = 201 := by
  unfold createComplaint
  simp only [hu, hv]
  have hi : db.insert
      { newComplaint now actor newId body with images := results.map imageOfUpload } =
      some { db with complaints := db.complaints ++
        [{ newComplaint now actor newId body with images := results.map imageOfUpload }] } := by
    unfold Db.insert
    have : ({ newComplaint now actor newId body with
      images := results.map imageOfUpload } : Complaint)._id = newId := rfl
    rw [this, hf]
  rw [hi]

/-- Claim C18 fails as stated: with the hour count `3000000000` the deadline lies beyond
the range of a `Date` (`8640000000000000` milliseconds); the date is invalid, `save()`
rejects the complaint, the answer is `500` and nothing is stored. The same request with
the hour count `5` is answered `201`. -/
theorem huge_hour_count_creates_nothing :
    parseInt (.str "3000000000") = some 3000000000 ∧
    isValidTime (1000 + max 4 3000000000 * (60 * 60 * 1000)) = false ∧
    (createComplaint sampleDb 1000 sampleCitizen 2
      { sampleCreateBody with deadlineHours := .str "3000000000" } []).res =
      { code := 500, body := .error (.validation "deadline") } ∧
    (createComplaint sampleDb 1000 sampleCitizen 2
      { sampleCreateBody with deadlineHours := .str "3000000000" } []).db = sampleDb ∧
    (createComplaint sampleDb 1000 sampleCitizen 2
      { sampleCreateBody with deadlineHours := .str "3000000000" } []).db.findById 2 = none ∧
    (createComplaint sampleDb 1000 sampleCitizen 2
      { sampleCreateBody with deadlineHours := .str "5" } []).res.code = 201 := by
  refine ⟨by decide, by decide, by decide, by decide, by decide, by decide⟩

/-- Claim C18, amended: let `h` be the parsed hour count of a creation request, or 4 when
the input does not parse or parses to zero. When the time `now + max(4, h)` hours is in
the range of a `Date`, the complaint that `createComplaint` makes at time `now` has that
time as its deadline, which is at least `now + 4` hours; when it is beyond the range,
the date is invalid: the answer is `500`, the database is as before and no call is made.
The complaint made has status `pending`, level 1, no assignee and an empty history.
When the handler answers `201` the stored and answered complaint has these values and
that deadline, a valid date; the handler answers `201` when the uploads succeed, the
complaint passes validation and its id is fresh. -/
theorem createComplaint_deadline_and_defaults (db : Db) (now : Date) (actor : Actor)
    (newId : ObjectId) (body : CreateBody) (files : List (Option UploadResult)) :
    (∀ h : Int,
      (parseInt body.deadlineHours = some h ∧ h ≠ 0) ∨
        ((parseInt body.deadlineHours = none ∨ parseInt body.deadlineHours = some 0) ∧ h = 4) →
      (isValidTime (now + max 4 h * (60 * 60 * 1000)) = true →
        (newComplaint now actor newId body).deadline = now + max 4 h * (60 * 60 * 1000) ∧
        now + 4 * (60 * 60 * 1000) ≤ (newComplaint now actor newId body).deadline) ∧
      (isValidTime (now + max 4 h * (60 * 60 * 1000)) = false →
        (createComplaint db now actor newId body files).res.code = 500 ∧
        (createComplaint db now actor newId body files).db = db ∧
        (createComplaint db now actor newId body files).effects = []) ∧
      ((createComplaint db now actor newId body files).res.code = 201 →
        ∃ c', (createComplaint db now actor newId body files).db.findById newId = some c' ∧
          (createComplaint db now actor newId body files).res.body = .complaint c' ∧
          c'.deadline = now + max 4 h * (60 * 60 * 1000) ∧
          now + 4 * (60 * 60 * 1000) ≤ c'.deadline ∧
          isValidTime c'.deadline = true ∧
          c'.status = .pending ∧ c'.escalationLevel = 1 ∧ c'.assignedTo = none ∧
          c'.escalationHistory = [])) ∧
    (newComplaint now actor newId body).status = .pending ∧
    (newComplaint now actor newId body).escalationLevel = 1 ∧
    (newComplaint now actor newId body).assignedTo = none ∧
    (newComplaint now actor newId body).escalationHistory = [] ∧
    (∀ results, uploadAll files = some results →
      invalidPaths
        { newComplaint now actor newId body with images := results.map imageOfUpload } = [] →
      db.findById newId = none →
      (createComplaint db now actor newId body files).res.code = 201) := by
  have hd : (newComplaint now actor newId body).deadline =
      now + max 4 (parseIntOr body.deadlineHours 4) * 60 * 60 * 1000 := rfl
  have hge : now + 4 * (60 * 60 * 1000) ≤ (newComplaint now actor newId body).deadline := by
    rw [hd]
    have : (4 : Int) ≤ max 4 (parseIntOr body.deadlineHours 4) := le_max_left _ _
    linarith
  refine ⟨?_, rfl, rfl, rfl, rfl, ?_⟩
  · intro h hh
    have hparse : parseIntOr body.deadlineHours 4 = h := by
      unfold parseIntOr
      rcases hh with ⟨hp, hz⟩ | ⟨hp | hp, h4⟩
      · simp [hp, hz]
      · simp [hp, h4]
      · simp [hp, h4]
    have hdh : (newComplaint now actor newId body).deadline =
        now + max 4 h * (60 * 60 * 1000) := by
      rw [hd, hparse]
      ring
    refine ⟨fun _ => ⟨hdh, hge⟩, ?_, ?_⟩
    · intro hinvalid
      rw [← hdh] at hinvalid
      exact createComplaint_invalid_date hinvalid
    · intro hok
      obtain ⟨results, _, hv, hb, hf⟩ := createComplaint_created hok
      exact ⟨_, hf, hb, hdh, hge, isValidTime_of_invalidPaths_nil hv, rfl, rfl, rfl, rfl⟩
  · intro results hu hv hf
    exact createComplaint_accepted hu hv hf

/-- Claim C18, amended, at the sample request sent at time `1000`, whose hour count 2 is
raised to 4: the answer is `201` and the stored deadline is `14401000`, which is `1000`
plus 4 hours. -/
theorem createComplaint_deadline_and_defaults_witness :
    parseInt sampleCreateBody.deadlineHours = some 2 ∧
    (createComplaint sampleDb 1000 sampleCitizen 2 sampleCreateBody []).res.code = 201 ∧
    ∃ c', (createComplaint sampleDb 1000 sampleCitizen 2 sampleCreateBody []).db.findById 2 =
        some c' ∧
      (createComplaint sampleDb 1000 sampleCitizen 2 sampleCreateBody []).res.body =
        .complaint c' ∧
      c'.deadline = 14401000 ∧
      c'.status = .pending ∧ c'.escalationLevel = 1 ∧ c'.assignedTo = none ∧
      c'.escalationHistory = [] :=
  ⟨rfl,
    (createComplaint_deadline_and_defaults sampleDb 1000 sampleCitizen 2 sampleCreateBody
      []).2.2.2.2.2 [] rfl (by decide) rfl,
    match ((createComplaint_deadline_and_defaults sampleDb 1000 sampleCitizen 2 sampleCreateBody
      []).1 2 (Or.inl ⟨rfl, by decide⟩)).2.2
      ((createComplaint_deadline_and_defaults sampleDb 1000 sampleCitizen 2 sampleCreateBody
        []).2.2.2.2.2 [] rfl (by decide) rfl) with
    | ⟨c', hc, hb, hdeadline, _, _, hstatus, hlevel, hassignee, hhistory⟩ =>
      ⟨c', hc, hb, hdeadline.trans (by decide), hstatus, hlevel, hassignee, hhistory⟩⟩

/-- An hour count below 4 puts the deadline message in the error list of the route. -/
theorem routeErrors_of_low_hours {body : CreateBody} {h : Int}
    (hp : parseInt body.deadlineHours = some h) (hl : h < 4) :
    "Deadline must be at least 4 hours" ∈ routeErrors body := by
  unfold routeErrors
  simp [hp, hl]

/-- Claim C19 fails as stated: the sample request, valid but for its hour count 2, is answered
`400` with the deadline message by the route and nothing is stored. -/
theorem route_rejects_two_hours :
    routeErrors { sampleCreateBody with deadlineHours := .num "5" } = [] ∧
    createRoute sampleDb 1000 sampleCitizen 2 sampleCreateBody =
      { res := { code := 400,
                 body := .validationFailed ["Deadline must be at least 4 hours"] },
        db := sampleDb, effects := [] } ∧
    (createRoute sampleDb 1000 sampleCitizen 2 sampleCreateBody).db.findById 2 = none := by
  refine ⟨by decide, by decide, by decide⟩

/-- Claim C19, amended: a request to the route whose hour count parses to an integer
`h < 4` (for example 2) is answered `400` with the error list of the route, which holds
the message that the deadline must be at least 4 hours; the database stays as it was and
no complaint with the new id is stored: the request is rejected, the hour count is not
raised to 4. -/
theorem route_rejects_hours_below_four (db : Db) (now : Date) (actor : Actor) (newId : ObjectId)
    (body : CreateBody) (h : Int) (hp : parseInt body.deadlineHours = some h) (hl : h < 4)
    (hfresh : db.findById newId = none) :
    (createRoute db now actor newId body).res =
      { code := 400, body := .validationFailed (routeErrors body) } ∧
    "Deadline must be at least 4 hours" ∈ routeErrors body ∧
    (createRoute db now actor newId body).db = db ∧
    (createRoute db now actor newId body).effects = [] ∧
    (createRoute db now actor newId body).db.findById newId = none := by
  have hm := routeErrors_of_low_hours hp hl
  have hlen : (routeErrors body).length > 0 := List.length_pos_of_mem hm
  have hrun : createRoute db now actor newId body =
      { res := { code := 400, body := .validationFailed (routeErrors body) },
        db := db, effects := [] } := by
    unfold createRoute
    simp only [hlen, if_true]
  rw [hrun]
  exact ⟨rfl, hm, rfl, rfl, hfresh⟩

/-- Claim C19, amended, at the sample request with hour count 2, sent at time `1000` with
the new id 2: the answer is `400`, its error list is the deadline message alone, and no
complaint 2 is stored. -/
theorem route_rejects_hours_below_four_witness :
    parseInt sampleCreateBody.deadlineHours = some 2 ∧ (2 : Int) < 4 ∧
    sampleDb.findById 2 = none ∧
    (createRoute sampleDb 1000 sampleCitizen 2 sampleCreateBody).res =
      { code := 400, body := .validationFailed ["Deadline must be at least 4 hours"] } ∧
    (createRoute sampleDb 1000 sampleCitizen 2 sampleCreateBody).db = sampleDb ∧
    (createRoute sampleDb 1000 sampleCitizen 2 sampleCreateBody).db.findById 2 = none :=
  ⟨rfl, by decide, rfl,
    (route_rejects_hours_below_four sampleDb 1000 sampleCitizen 2 sampleCreateBody 2 rfl
      (by decide) rfl).1.trans (by decide),
    (route_rejects_hours_below_four sampleDb 1000 sampleCitizen 2 sampleCreateBody 2 rfl
      (by decide) rfl).2.2.1,
    (route_rejects_hours_below_four sampleDb 1000 sampleCitizen 2 sampleCreateBody 2 rfl
      (by decide) rfl).2.2.2.2⟩

/-! ## The warning pass -/

/-- The filter of the first pass, as a proposition. -/
theorem approachingQuery_iff (now : Date) (c : Complaint) :
    approachingQuery now c = true ↔
      now ≤ c.deadline ∧ c.deadline ≤ now + 2 * 60 * 60 * 1000 ∧
        c.status ∉ [Status.resolved, .verified, .social_media] := by
  unfold approachingQuery statusNin
  cases c.status <;> simp [and_assoc]

/-- When every call is delivered, the delivered calls are the calls made. -/
theorem awaitAll_complete (deliver : Effect → Bool) (l : List Effect)
    (h : (awaitAll deliver l).2 = true) : (awaitAll deliver l).1 = l := by
  induction l with
  | nil => rfl
  | cons a as ih =>
    unfold awaitAll at h ⊢
    by_cases hd : deliver a = true
    · simp only [hd, if_true] at h ⊢
      rw [ih h]
    · simp [hd] at h

/-- A completed run leaves a complaint whose deadline has not passed as it is. -/
theorem sweepDoc_of_not_overdue (now : Date) (c : Complaint) (hd : now ≤ c.deadline) :
    sweepDoc now c = c := by
  have h2 : ¬ pastDeadlineQuery now c = true := by
    rw [pastDeadlineQuery_iff]
    intro hh
    exact absurd hh.1 (not_lt.mpr hd)
  have h3 : ¬ maxEscalatedQuery now c = true := by
    rw [maxEscalatedQuery_iff]
    intro hh
    have := hh.2.1
    linarith
  unfold sweepDoc autoStep
  rw [if_neg h2]
  unfold publicStep
  rw [if_neg h3]

/-- Publications are no warnings. -/
theorem warningCount_posts (id : ObjectId) (f : Complaint → Complaint) (l : List Complaint) :
    warningCount id (l.map (fun complaint => Effect.postToSocialMedia (f complaint))) = 0 := by
  unfold warningCount
  rw [List.countP_eq_zero]
  intro e he
  rw [List.mem_map] at he
  obtain ⟨d, _, hd⟩ := he
  rw [← hd]
  simp [isWarningFor]

/-- In a collection with distinct ids, the first pass makes one warning call about a stored
complaint that matches its filter and whose assignee is a stored user, and none otherwise. -/
theorem warningCount_warningCalls (now : Date) (db : Db) (id : ObjectId) (c : Complaint)
    (hn : (db.complaints.map (fun d => d._id)).Nodup) (h : db.findById id = some c) :
    warningCount id (warningCalls now db) =
      if (approachingQuery now c &&
          (match c.assignedTo with
           | none => false
           | some a => (db.findUserById a).isSome)) = true then 1 else 0 := by
  unfold warningCount warningCalls
  rw [List.countP_filterMap, List.countP_filter]
  rw [← countP_unique_id db.complaints id c
    (fun d => approachingQuery now d &&
      (match d.assignedTo with
       | none => false
       | some a => (db.findUserById a).isSome)) hn h]
  congr 1
  funext d
  cases ha : d.assignedTo with
  | none => simp
  | some a =>
    cases hu : db.findUserById a with
    | none => simp [hu]
    | some u =>
      simp only [hu, Option.map_some', Option.getD_some, Option.isSome_some, isWarningFor,
        Bool.and_true]
      exact Bool.and_comm _ _

/-! ## The three passes of one run -/

/-- Claim C21: a stored complaint that the warning pass of a run at `now` selects is selected by
neither escalation pass of that run, neither on the database as read nor on the database
after the auto-escalation pass, and it is stored unchanged after each pass and after the
run. -/
theorem warning_candidates_not_escalated (deliver : Effect → Bool) (now : Date) (db : Db)
    (id : ObjectId) (c : Complaint) (h : db.findById id = some c)
    (hw : c ∈ db.complaints.filter (approachingQuery now)) :
    c ∉ db.complaints.filter (pastDeadlineQuery now) ∧
    c ∉ db.complaints.filter (maxEscalatedQuery now) ∧
    c ∉ (autoEscalationPass now db).complaints.filter (maxEscalatedQuery now) ∧
    (autoEscalationPass now db).findById id = some c ∧
    (publicEscalationPass now (autoEscalationPass now db)).findById id = some c ∧
    (deadlineChecker deliver now db).db.findById id = some c := by
  have hq : approachingQuery now c = true := (List.mem_filter.mp hw).2
  have hd : now ≤ c.deadline := ((approachingQuery_iff now c).mp hq).1
  have h2 : ¬ pastDeadlineQuery now c = true := by
    rw [pastDeadlineQuery_iff]
    intro hh
    exact absurd hh.1 (not_lt.mpr hd)
  have h3 : ¬ maxEscalatedQuery now c = true := by
    rw [maxEscalatedQuery_iff]
    intro hh
    have := hh.2.1
    linarith
  have ha : (autoEscalationPass now db).findById id = some c := by
    unfold autoEscalationPass
    rw [Db.findById_forEachMatching _ _ _ _ (autoEscalate_id now), h]
    simp only [Option.map_some', h2, Bool.false_eq_true, if_false]
  have hp : (publicEscalationPass now (autoEscalationPass now db)).findById id = some c := by
    unfold publicEscalationPass
    rw [Db.findById_forEachMatching _ _ _ _ (moveToSocialMedia_id now), ha]
    simp only [Option.map_some', h3, Bool.false_eq_true, if_false]
  refine ⟨?_, ?_, ?_, ha, hp, ?_⟩
  · intro hm
    exact h2 (List.mem_filter.mp hm).2
  · intro hm
    exact h3 (List.mem_filter.mp hm).2
  · intro hm
    exact h3 (List.mem_filter.mp hm).2
  · rw [deadlineChecker_findById deliver now h, sweepDoc_of_not_overdue now c hd, ite_self]

/-- Claim C21 at the sample complaint in progress, 90 minutes before its deadline. -/
theorem warning_candidates_not_escalated_witness :
    approachingDb.findById 1 = some approachingComplaint ∧
    approachingComplaint ∈ approachingDb.complaints.filter (approachingQuery 0) ∧
    approachingComplaint ∉ approachingDb.complaints.filter (pastDeadlineQuery 0) ∧
    approachingComplaint ∉ approachingDb.complaints.filter (maxEscalatedQuery 0) ∧
    approachingComplaint ∉
      (autoEscalationPass 0 approachingDb).complaints.filter (maxEscalatedQuery 0) ∧
    (autoEscalationPass 0 approachingDb).findById 1 = some approachingComplaint ∧
    (publicEscalationPass 0 (autoEscalationPass 0 approachingDb)).findById 1 =
      some approachingComplaint ∧
    (deadlineChecker (fun _ => true) 0 approachingDb).db.findById 1 =
      some approachingComplaint :=
  ⟨rfl, by decide,
    warning_candidates_not_escalated (fun _ => true) 0 approachingDb 1 approachingComplaint rfl
      (by decide)⟩

/-- A completed run leaves a complaint with status `verified`, `social_media` or `resolved` as
it is. -/
theorem sweepDoc_of_closed (now : Date) (c : Complaint)
    (hs : c.status = .verified ∨ c.status = .social_media ∨ c.status = .resolved) :
    sweepDoc now c = c := by
  have h2 : ¬ pastDeadlineQuery now c = true := by
    rw [pastDeadlineQuery_iff]
    rcases hs with hs | hs | hs <;> rw [hs] <;> simp
  have h3 : ¬ maxEscalatedQuery now c = true := by
    rw [maxEscalatedQuery_iff]
    rcases hs with hs | hs | hs <;> rw [hs] <;> simp
  unfold sweepDoc autoStep
  rw [if_neg h2]
  unfold publicStep
  rw [if_neg h3]

/-- Claim C22 fails as stated: three hours after its deadline a complaint with status `rejected`
is auto-escalated by a run of the job: status `escalated`, level 2, one history entry. -/
theorem rejected_complaint_is_escalated :
    rejectedDb.findById 1 = some rejectedComplaint ∧ rejectedComplaint.status = .rejected ∧
    (deadlineChecker (fun _ => true) 10801000 rejectedDb).completed = true ∧
    ((deadlineChecker (fun _ => true) 10801000 rejectedDb).db.findById 1).map
        (fun c => (c.status, c.escalationLevel, c.escalationHistory.length)) =
      some (.escalated, 2, 1) ∧
    (rejectedComplaint.status, rejectedComplaint.escalationLevel,
      rejectedComplaint.escalationHistory.length) = (.rejected, 1, 0) := by
  refine ⟨rfl, rfl, rfl, by decide, rfl⟩

/-- Claim C22, amended: for a stored complaint with status `verified` or `social_media`, a run
of the job leaves status, level and history as they were, and neither escalation pass
selects the complaint. -/
theorem closed_complaint_untouched_by_sweep (deliver : Effect → Bool) (now : Date) (db : Db)
    (id : ObjectId) (c : Complaint) (h : db.findById id = some c)
    (hs : c.status = .verified ∨ c.status = .social_media) :
    ∃ c', (deadlineChecker deliver now db).db.findById id = some c' ∧
      c'.status = c.status ∧ c'.escalationLevel = c.escalationLevel ∧
      c'.escalationHistory = c.escalationHistory ∧
      pastDeadlineQuery now c = false ∧ maxEscalatedQuery now c = false := by
  have hs' : c.status = .verified ∨ c.status = .social_media ∨ c.status = .resolved := by
    rcases hs with hs | hs
    · exact Or.inl hs
    · exact Or.inr (Or.inl hs)
  refine ⟨c, ?_, rfl, rfl, rfl, ?_, ?_⟩
  · rw [deadlineChecker_findById deliver now h, sweepDoc_of_closed now c hs', ite_self]
  · have : ¬ pastDeadlineQuery now c = true := by
      rw [pastDeadlineQuery_iff]
      rcases hs with hs | hs <;> rw [hs] <;> simp
    simpa using this
  · have : ¬ maxEscalatedQuery now c = true := by
      rw [maxEscalatedQuery_iff]
      rcases hs with hs | hs <;> rw [hs] <;> simp
    simpa using this

/-- Claim C22, amended, at a verified complaint long after its deadline. -/
theorem closed_complaint_untouched_by_sweep_witness :
    verifiedDb.findById 1 = some verifiedComplaint ∧
    (verifiedComplaint.status = .verified ∨ verifiedComplaint.status = .social_media) ∧
    ∃ c', (deadlineChecker (fun _ => true) 180000000 verifiedDb).db.findById 1 = some c' ∧
      c'.status = verifiedComplaint.status ∧
      c'.escalationLevel = verifiedComplaint.escalationLevel ∧
      c'.escalationHistory = verifiedComplaint.escalationHistory ∧
      pastDeadlineQuery 180000000 verifiedComplaint = false ∧
      maxEscalatedQuery 180000000 verifiedComplaint = false :=
  ⟨rfl, Or.inl rfl,
    closed_complaint_untouched_by_sweep (fun _ => true) 180000000 verifiedDb 1 verifiedComplaint
      rfl (Or.inl rfl)⟩

/-- The awaited calls all succeed exactly when each is delivered. -/
theorem awaitAll_ok_iff (deliver : Effect → Bool) (l : List Effect) :
    (awaitAll deliver l).2 = true ↔ ∀ e ∈ l, deliver e = true := by
  induction l with
  | nil => simp [awaitAll]
  | cons a as ih =>
    unfold awaitAll
    by_cases hd : deliver a = true
    · simp only [hd, if_true, ih, List.mem_cons, forall_eq_or_imp, true_and]
    · simp [hd]

/-- Every call that counts as made was delivered. -/
theorem awaitAll_delivered (deliver : Effect → Bool) (l : List Effect) :
    ∀ e ∈ (awaitAll deliver l).1, deliver e = true := by
  induction l with
  | nil => intro e he; simp [awaitAll] at he
  | cons a as ih =>
    intro e he
    unfold awaitAll at he
    by_cases hd : deliver a = true
    · simp only [hd, if_true, List.mem_cons] at he
      rcases he with he | he
      · rw [he]
        exact hd
      · exact ih e he
    · simp [hd] at he

/-! ## Runs in which a save may throw -/

/-- The auto-escalation body keeps the id. -/
theorem autoEscalateSaved_id (now : Date) (d d' : Complaint)
    (h : autoEscalateSaved now d = some d') : d'._id = d._id := by
  unfold autoEscalateSaved at h
  split_ifs at h
  simp only [Option.some.injEq] at h
  rw [← h]
  exact autoEscalate_id now d

/-- A loop that runs to its end has replaced every document found by what its body saves. -/
theorem forEachSaving_completed (store : Complaint → Bool) (query : Complaint → Bool)
    (body : Complaint → Option Complaint) (l : List Complaint)
    (h : (forEachSaving store query body l).completed = true) :
    (forEachSaving store query body l).docs = l.map (savedOr query body) ∧
    (forEachSaving store query body l).saved = (l.filter query).filterMap body := by
  induction l with
  | nil => exact ⟨rfl, rfl⟩
  | cons d rest ih =>
    unfold forEachSaving at h ⊢
    by_cases hq : query d = true
    · cases hb : body d with
      | none =>
        simp only [hq, hb, if_true] at h ⊢
        obtain ⟨ih1, ih2⟩ := ih h
        simp [ih1, ih2, savedOr, hq, hb, List.filter_cons]
      | some d' =>
        by_cases hs : store d' = true
        · simp only [hq, hb, hs, if_true] at h ⊢
          obtain ⟨ih1, ih2⟩ := ih h
          simp [ih1, ih2, savedOr, hq, hb, List.filter_cons]
        · simp [hq, hb, hs] at h
    · simp only [hq, Bool.false_eq_true, if_false] at h ⊢
      obtain ⟨ih1, ih2⟩ := ih h
      simp [ih1, ih2, savedOr, hq, List.filter_cons]

/-- A loop in which every save succeeds runs to its end. -/
theorem forEachSaving_of_all (store : Complaint → Bool) (query : Complaint → Bool)
    (body : Complaint → Option Complaint) (l : List Complaint)
    (h : ∀ x ∈ l, ∀ x', query x = true → body x = some x' → store x' = true) :
    (forEachSaving store query body l).completed = true := by
  induction l with
  | nil => rfl
  | cons d rest ih =>
    have ih' := ih (fun x hx => h x (List.mem_cons_of_mem _ hx))
    unfold forEachSaving
    by_cases hq : query d = true
    · cases hb : body d with
      | none => simpa only [hq, hb, if_true] using ih'
      | some d' =>
        have hs := h d (List.mem_cons_self _ _) d' hq hb
        simpa only [hq, hb, hs, if_true] using ih'
    · simpa only [hq, Bool.false_eq_true, if_false] using ih'

/-- A loop whose first failing save is that of the document `d`: the documents before `d`
are replaced, `d` and the documents after it are as they were. -/
theorem forEachSaving_of_failure (store : Complaint → Bool) (query : Complaint → Bool)
    (body : Complaint → Option Complaint) (front : List Complaint) (d d' : Complaint)
    (back : List Complaint) (hq : query d = true) (hb : body d = some d')
    (hs : store d' = false)
    (h : ∀ x ∈ front, ∀ x', query x = true → body x = some x' → store x' = true) :
    forEachSaving store query body (front ++ d :: back) =
      { docs := front.map (savedOr query body) ++ d :: back,
        saved := (front.filter query).filterMap body,
        completed := false } := by
  induction front with
  | nil =>
    simp only [List.nil_append, List.map_nil, List.filter_nil, List.filterMap_nil]
    unfold forEachSaving
    simp only [hq, hb, hs, if_true, Bool.false_eq_true, if_false]
  | cons a as ih =>
    have ih' := ih (fun x hx => h x (List.mem_cons_of_mem _ hx))
    simp only [List.cons_append]
    unfold forEachSaving
    by_cases hqa : query a = true
    · cases hba : body a with
      | none =>
        simp only [hqa, hba, if_true, ih']
        simp [savedOr, hqa, hba, List.filter_cons]
      | some a' =>
        have hsa := h a (List.mem_cons_self _ _) a' hqa hba
        simp only [hqa, hba, hsa, if_true, ih']
        simp [savedOr, hqa, hba, List.filter_cons]
    · simp only [hqa, Bool.false_eq_true, if_false, ih']
      simp [savedOr, hqa, List.filter_cons]

/-- A loop with saves keeps the list of ids. -/
theorem forEachSaving_ids (store : Complaint → Bool) (query : Complaint → Bool)
    (body : Complaint → Option Complaint) (hbody : ∀ d d', body d = some d' → d'._id = d._id)
    (l : List Complaint) :
    (forEachSaving store query body l).docs.map (fun d => d._id) = l.map (fun d => d._id) := by
  induction l with
  | nil => rfl
  | cons d rest ih =>
    unfold forEachSaving
    by_cases hq : query d = true
    · cases hb : body d with
      | none => simp only [hq, hb, if_true, List.map_cons, ih]
      | some d' =>
        by_cases hs : store d' = true
        · simp only [hq, hb, hs, if_true, List.map_cons, ih, hbody d d' hb]
        · simp only [hq, hb, hs, if_true, Bool.false_eq_true, if_false]
    · simp only [hq, Bool.false_eq_true, if_false, List.map_cons, ih]

/-- A loop with saves leaves a document that its filter does not select as it is. -/
theorem forEachSaving_find_fixed (store : Complaint → Bool) (query : Complaint → Bool)
    (body : Complaint → Option Complaint) (hbody : ∀ d d', body d = some d' → d'._id = d._id)
    (id : ObjectId) (c : Complaint) (hc : query c = false) (l : List Complaint)
    (h : l.find? (fun d => d._id == id) = some c) :
    (forEachSaving store query body l).docs.find? (fun d => d._id == id) = some c := by
  induction l with
  | nil => simp at h
  | cons d rest ih =>
    unfold forEachSaving
    by_cases hd : d._id = id
    · have hb : (d._id == id) = true := by simp [hd]
      simp only [List.find?_cons, hb, Option.some.injEq] at h
      subst h
      simp only [hc, Bool.false_eq_true, if_false, List.find?_cons, hb]
    · have hb : (d._id == id) = false := by simp [hd]
      simp only [List.find?_cons, hb] at h
      have ih' := ih h
      by_cases hq : query d = true
      · cases hbd : body d with
        | none => simp only [hq, hbd, if_true, List.find?_cons, hb, ih']
        | some d' =>
          have hb' : (d'._id == id) = false := by
            rw [hbody d d' hbd]
            exact hb
          by_cases hs : store d' = true
          · simp only [hq, hbd, hs, if_true, List.find?_cons, hb', ih']
          · simp only [hq, hbd, hs, if_true, Bool.false_eq_true, if_false, List.find?_cons, hb, h]
      · simp only [hq, Bool.false_eq_true, if_false, List.find?_cons, hb, ih']

/-- What a loop with saves has saved comes from a document that its filter selects. -/
theorem forEachSaving_saved (store : Complaint → Bool) (query : Complaint → Bool)
    (body : Complaint → Option Complaint) (l : List Complaint) :
    ∀ s ∈ (forEachSaving store query body l).saved,
      ∃ d ∈ l, query d = true ∧ body d = some s := by
  induction l with
  | nil => intro s hs; simp [forEachSaving] at hs
  | cons d rest ih =>
    intro s hs
    unfold forEachSaving at hs
    by_cases hq : query d = true
    · cases hb : body d with
      | none =>
        simp only [hq, hb, if_true] at hs
        obtain ⟨x, hx, hx2⟩ := ih s hs
        exact ⟨x, List.mem_cons_of_mem _ hx, hx2⟩
      | some d' =>
        by_cases hst : store d' = true
        · simp only [hq, hb, hst, if_true, List.mem_cons] at hs
          rcases hs with hs | hs
          · exact ⟨d, List.mem_cons_self _ _, hq, by rw [hb, hs]⟩
          · obtain ⟨x, hx, hx2⟩ := ih s hs
            exact ⟨x, List.mem_cons_of_mem _ hx, hx2⟩
        · simp [hq, hb, hst] at hs
    · simp only [hq, Bool.false_eq_true, if_false] at hs
      obtain ⟨x, hx, hx2⟩ := ih s hs
      exact ⟨x, List.mem_cons_of_mem _ hx, hx2⟩

/-- In a list with distinct ids, a document with the id of the document found by that id
is that document. -/
theorem eq_of_mem_of_find (l : List Complaint) (id : ObjectId) (c d : Complaint)
    (hn : (l.map (fun x => x._id)).Nodup) (h : l.find? (fun x => x._id == id) = some c)
    (hd : d ∈ l) (hid : d._id = id) : d = c := by
  induction l with
  | nil => simp at h
  | cons a as ih =>
    rw [List.map_cons, List.nodup_cons] at hn
    by_cases ha : a._id = id
    · have hb : (a._id == id) = true := by simp [ha]
      simp only [List.find?_cons, hb, Option.some.injEq] at h
      subst h
      rcases List.mem_cons.mp hd with hd | hd
      · exact hd
      · exfalso
        apply hn.1
        rw [ha, ← hid]
        exact List.mem_map_of_mem _ hd
    · have hb : (a._id == id) = false := by simp [ha]
      simp only [List.find?_cons, hb] at h
      rcases List.mem_cons.mp hd with hd | hd
      · exact absurd (hd ▸ hid) ha
      · exact ih hn.2 h hd

/-- Awaited calls of which the first that is not delivered is `e`: the calls before `e`
are the calls made. -/
theorem awaitAll_of_failure (deliver : Effect → Bool) (front : List Effect) (e : Effect)
    (back : List Effect) (hf : ∀ x ∈ front, deliver x = true) (he : deliver e = false) :
    awaitAll deliver (front ++ e :: back) = (front, false) := by
  induction front with
  | nil =>
    simp only [List.nil_append]
    unfold awaitAll
    simp only [he, Bool.false_eq_true, if_false]
  | cons a as ih =>
    have ih' := ih (fun x hx => hf x (List.mem_cons_of_mem _ hx))
    simp only [List.cons_append]
    unfold awaitAll
    simp only [hf a (List.mem_cons_self _ _), if_true, ih']

/-- Awaited calls that are all delivered are all made. -/
theorem awaitAll_of_all (deliver : Effect → Bool) (l : List Effect)
    (h : ∀ e ∈ l, deliver e = true) : awaitAll deliver l = (l, true) := by
  have h2 := (awaitAll_ok_iff deliver l).mpr h
  have h1 := awaitAll_complete deliver l h2
  exact Prod.ext h1 h2

/-- What the second loop saves for a document found is its auto-escalation, or the
document itself. -/
theorem savedOr_autoEscalateSaved (now : Date) :
    savedOr (pastDeadlineQuery now) (autoEscalateSaved now) = autoStep now := by
  funext d
  unfold savedOr autoEscalateSaved autoStep autoEscalate
  by_cases hq : pastDeadlineQuery now d = true <;> by_cases hl : d.escalationLevel < 3 <;>
    simp [hq, hl]

/-- What the third loop saves for a document found is its move to `social_media`. -/
theorem savedOr_moveToSocialMedia (now : Date) :
    savedOr (maxEscalatedQuery now) (fun complaint => some (moveToSocialMedia now complaint)) =
      publicStep now := by
  funext d
  unfold savedOr publicStep
  by_cases hq : maxEscalatedQuery now d = true <;> simp [hq]

/-- The collection after the second pass, document by document. -/
theorem autoEscalationPass_complaints (now : Date) (db : Db) :
    (autoEscalationPass now db).complaints = db.complaints.map (autoStep now) := rfl

/-- The collection after the third pass, document by document. -/
theorem publicEscalationPass_complaints (now : Date) (db : Db) :
    (publicEscalationPass now db).complaints = db.complaints.map (publicStep now) := rfl

/-- A `filterMap` whose function always returns a value is a `map`. -/
theorem filterMap_some_eq_map (f : Complaint → Complaint) (l : List Complaint) :
    l.filterMap (fun complaint => some (f complaint)) = l.map f := by
  induction l with
  | nil => rfl
  | cons a as ih => simp only [List.filterMap_cons, List.map_cons, ih]

/-- A run that reaches its end: every warning was delivered and the database and the
calls are those of a run in which nothing throws. -/
theorem deadlineCheckerWith_of_completed (deliver : Effect → Bool) (store : Complaint → Bool)
    (now : Date) (db : Db) (h : (deadlineCheckerWith deliver store now db).completed = true) :
    (∀ e ∈ warningCalls now db, deliver e = true) ∧
    deadlineCheckerWith deliver store now db = deadlineChecker (fun _ => true) now db := by
  unfold deadlineCheckerWith at h ⊢
  by_cases hs : (awaitAll deliver (warningCalls now db)).2 = true
  · simp only [hs, if_true] at h ⊢
    by_cases h2 : (forEachSaving store (pastDeadlineQuery now) (autoEscalateSaved now)
        db.complaints).completed = true
    · have hd2 := (forEachSaving_completed _ _ _ _ h2).1
      rw [savedOr_autoEscalateSaved] at hd2
      simp only [h2, if_true, hd2] at h ⊢
      obtain ⟨d3, s3⟩ := forEachSaving_completed _ _ _ _ h
      rw [savedOr_moveToSocialMedia] at d3
      rw [filterMap_some_eq_map] at s3
      refine ⟨(awaitAll_ok_iff deliver _).mp hs, ?_⟩
      unfold deadlineChecker
      rw [awaitAll_of_all (fun _ => true) _ (fun _ _ => rfl)]
      rw [h, d3, s3, awaitAll_complete deliver _ hs]
      simp only [if_true]
      congr 1
      rw [List.map_map]
      rfl
    · simp only [h2, Bool.false_eq_true, if_false] at h
  · simp only [hs, Bool.false_eq_true, if_false] at h

/-- A run in which every save succeeds is a run of the job without failing saves. -/
theorem deadlineCheckerWith_of_stored (deliver : Effect → Bool) (now : Date) (db : Db) :
    deadlineCheckerWith deliver (fun _ => true) now db = deadlineChecker deliver now db := by
  by_cases hs : (awaitAll deliver (warningCalls now db)).2 = true
  · have h2 := forEachSaving_of_all (fun _ => true) (pastDeadlineQuery now)
      (autoEscalateSaved now) db.complaints (fun _ _ _ _ _ => rfl)
    have hd2 := (forEachSaving_completed _ _ _ _ h2).1
    rw [savedOr_autoEscalateSaved] at hd2
    have h3 := forEachSaving_of_all (fun _ => true) (maxEscalatedQuery now)
      (fun complaint => some (moveToSocialMedia now complaint))
      (db.complaints.map (autoStep now)) (fun _ _ _ _ _ => rfl)
    obtain ⟨d3, s3⟩ := forEachSaving_completed _ _ _ _ h3
    rw [savedOr_moveToSocialMedia] at d3
    rw [filterMap_some_eq_map] at s3
    unfold deadlineCheckerWith deadlineChecker
    simp only [hs, if_true, h2, hd2, h3, d3, s3]
    congr 1
    rw [List.map_map]
    rfl
  · unfold deadlineCheckerWith deadlineChecker
    simp only [hs, Bool.false_eq_true, if_false]

/-- A run in which a warning is not delivered changes nothing and sends the warnings
before the first one that is not delivered. -/
theorem deadlineCheckerWith_of_undelivered (deliver : Effect → Bool) (store : Complaint → Bool)
    (now : Date) (db : Db) (front : List Effect) (e : Effect) (back : List Effect)
    (hw : warningCalls now db = front ++ e :: back) (hf : ∀ x ∈ front, deliver x = true)
    (he : deliver e = false) :
    deadlineCheckerWith deliver store now db =
      { db := db, effects := front, completed := false } := by
  unfold deadlineCheckerWith
  rw [hw, awaitAll_of_failure deliver front e back hf he]
  simp only [Bool.false_eq_true, if_false]

/-- A list with an element that fails a test splits at the first such element. -/
theorem split_at_first_undelivered (deliver : Effect → Bool) (l : List Effect)
    (h : ∃ e ∈ l, deliver e = false) :
    ∃ front e back, l = front ++ e :: back ∧ (∀ x ∈ front, deliver x = true) ∧
      deliver e = false := by
  induction l with
  | nil =>
    obtain ⟨e, he, _⟩ := h
    exact absurd he (List.not_mem_nil _)
  | cons a as ih =>
    by_cases ha : deliver a = true
    · have h' : ∃ e ∈ as, deliver e = false := by
        obtain ⟨e, he, hde⟩ := h
        rcases List.mem_cons.mp he with he | he
        · rw [he, ha] at hde
          exact absurd hde (by decide)
        · exact ⟨e, he, hde⟩
      obtain ⟨front, e, back, hl, hf, he⟩ := ih h'
      refine ⟨a :: front, e, back, by rw [hl]; rfl, ?_, he⟩
      intro x hx
      rcases List.mem_cons.mp hx with hx | hx
      · rw [hx]
        exact ha
      · exact hf x hx
    · exact ⟨[], a, as, rfl, fun x hx => absurd hx (List.not_mem_nil _), by simpa using ha⟩

/-- A run in which some warning is not delivered changes nothing, publishes nothing and
does not reach its end. -/
theorem deadlineCheckerWith_of_some_undelivered (deliver : Effect → Bool)
    (store : Complaint → Bool) (now : Date) (db : Db)
    (h : ∃ e ∈ warningCalls now db, deliver e = false) :
    (deadlineCheckerWith deliver store now db).db = db ∧
    (deadlineCheckerWith deliver store now db).completed = false ∧
    ∀ id, publishCount id (deadlineCheckerWith deliver store now db).effects = 0 := by
  obtain ⟨front, e, back, hw, hf, he⟩ := split_at_first_undelivered deliver _ h
  rw [deadlineCheckerWith_of_undelivered deliver store now db front e back hw hf he]
  refine ⟨rfl, rfl, ?_⟩
  intro id
  unfold publishCount
  rw [List.countP_eq_zero]
  intro x hx
  have hx' : x ∈ warningCalls now db := by
    rw [hw]
    exact List.mem_append_left _ hx
  simp [warningCalls_not_publish now db id x hx']

/-- A run of the job with saves that may fail keeps the list of ids. -/
theorem deadlineCheckerWith_ids (deliver : Effect → Bool) (store : Complaint → Bool)
    (now : Date) (db : Db) :
    (deadlineCheckerWith deliver store now db).db.complaints.map (fun d => d._id) =
      db.complaints.map (fun d => d._id) := by
  have hmove : ∀ d d' : Complaint,
      (fun complaint => some (moveToSocialMedia now complaint)) d = some d' → d'._id = d._id := by
    intro d d' hd
    simp only [Option.some.injEq] at hd
    rw [← hd]
    rfl
  unfold deadlineCheckerWith
  by_cases hs : (awaitAll deliver (warningCalls now db)).2 = true
  · by_cases h2 : (forEachSaving store (pastDeadlineQuery now) (autoEscalateSaved now)
        db.complaints).completed = true
    · simp only [hs, h2, if_true]
      rw [forEachSaving_ids _ _ _ hmove, forEachSaving_ids _ _ _ (autoEscalateSaved_id now)]
    · simp only [hs, h2, if_true, Bool.false_eq_true, if_false]
      rw [forEachSaving_ids _ _ _ (autoEscalateSaved_id now)]
  · simp only [hs, Bool.false_eq_true, if_false]

/-- A run of the job with saves that may fail leaves a stored complaint that neither
escalation pass selects as it is. -/
theorem deadlineCheckerWith_find_fixed (deliver : Effect → Bool) (store : Complaint → Bool)
    (now : Date) (db : Db) (id : ObjectId) (c : Complaint) (h : db.findById id = some c)
    (h2 : pastDeadlineQuery now c = false) (h3 : maxEscalatedQuery now c = false) :
    (deadlineCheckerWith deliver store now db).db.findById id = some c := by
  have hmove : ∀ d d' : Complaint,
      (fun complaint => some (moveToSocialMedia now complaint)) d = some d' → d'._id = d._id := by
    intro d d' hd
    simp only [Option.some.injEq] at hd
    rw [← hd]
    rfl
  have hf2 := forEachSaving_find_fixed store (pastDeadlineQuery now) (autoEscalateSaved now)
    (autoEscalateSaved_id now) id c h2 db.complaints h
  unfold deadlineCheckerWith
  by_cases hs : (awaitAll deliver (warningCalls now db)).2 = true
  · by_cases hc2 : (forEachSaving store (pastDeadlineQuery now) (autoEscalateSaved now)
        db.complaints).completed = true
    · simp only [hs, hc2, if_true]
      exact forEachSaving_find_fixed store (maxEscalatedQuery now) _ hmove id c h3 _ hf2
    · simp only [hs, hc2, if_true, Bool.false_eq_true, if_false]
      exact hf2
  · simp only [hs, Bool.false_eq_true, if_false]
    exact h

/-- A run of the job with saves that may fail does not publish a stored complaint that
neither escalation pass selects, in a collection with distinct ids. -/
theorem deadlineCheckerWith_publishCount_fixed (deliver : Effect → Bool)
    (store : Complaint → Bool) (now : Date) (db : Db) (id : ObjectId) (c : Complaint)
    (hn : (db.complaints.map (fun d => d._id)).Nodup) (h : db.findById id = some c)
    (h2 : pastDeadlineQuery now c = false) (h3 : maxEscalatedQuery now c = false) :
    publishCount id (deadlineCheckerWith deliver store now db).effects = 0 := by
  have hsent := publishCount_sent deliver now db id
  have hf2 := forEachSaving_find_fixed store (pastDeadlineQuery now) (autoEscalateSaved now)
    (autoEscalateSaved_id now) id c h2 db.complaints h
  have hn2 : ((forEachSaving store (pastDeadlineQuery now) (autoEscalateSaved now)
      db.complaints).docs.map (fun d => d._id)).Nodup := by
    rw [forEachSaving_ids _ _ _ (autoEscalateSaved_id now)]
    exact hn
  unfold deadlineCheckerWith
  by_cases hs : (awaitAll deliver (warningCalls now db)).2 = true
  swap
  · simp only [hs, Bool.false_eq_true, if_false]
    exact hsent
  by_cases hc2 : (forEachSaving store (pastDeadlineQuery now) (autoEscalateSaved now)
      db.complaints).completed = true
  swap
  · simp only [hs, hc2, if_true, Bool.false_eq_true, if_false]
    exact hsent
  · simp only [hs, hc2, if_true]
    unfold publishCount at hsent ⊢
    rw [List.countP_append, hsent, Nat.zero_add, List.countP_eq_zero]
    intro x hx
    rw [List.mem_map] at hx
    obtain ⟨s, hs, hsx⟩ := hx
    obtain ⟨d, hd, hq, hb⟩ := forEachSaving_saved _ _ _ _ s hs
    simp only [Option.some.injEq] at hb
    rw [← hsx]
    simp only [isPublishOf, beq_iff_eq]
    intro hid
    have hdid : d._id = id := by
      rw [← hb] at hid
      exact hid
    have hdc := eq_of_mem_of_find _ id c d hn2 hf2 hd hdid
    rw [hdc, h3] at hq
    exact absurd hq (by decide)

/-- Runs of the job with saves that may fail neither change nor publish a `social_media`
complaint. -/
theorem sweepsWith_social_media_stable
    (later : List ((Effect → Bool) × (Complaint → Bool) × Date)) :
    ∀ (db : Db) (id : ObjectId) (c : Complaint), db.findById id = some c →
      c.status = .social_media → (db.complaints.map (fun d => d._id)).Nodup →
      (sweepsWith later db).1.findById id = some c ∧
        publishCount id (sweepsWith later db).2 = 0 := by
  induction later with
  | nil =>
    intro db id c h _ _
    exact ⟨h, rfl⟩
  | cons t rest ih =>
    intro db id c h hs hn
    obtain ⟨deliver, store, now⟩ := t
    have h2 : pastDeadlineQuery now c = false := by
      have : ¬ pastDeadlineQuery now c = true := by
        rw [pastDeadlineQuery_iff, hs]
        simp
      simpa using this
    have h3 : maxEscalatedQuery now c = false := by
      simpa using maxEscalatedQuery_of_social_media now c hs
    have h1 := deadlineCheckerWith_find_fixed deliver store now db id c h h2 h3
    have hn1 : ((deadlineCheckerWith deliver store now db).db.complaints.map
        (fun d => d._id)).Nodup := by
      rw [deadlineCheckerWith_ids]
      exact hn
    have hp := deadlineCheckerWith_publishCount_fixed deliver store now db id c hn h h2 h3
    obtain ⟨ih1, ih2⟩ := ih _ id c h1 hs hn1
    refine ⟨ih1, ?_⟩
    unfold publishCount at hp ih2 ⊢
    simp only [sweepsWith]
    rw [List.countP_append, hp, ih2]

/-- A run in which every warning is delivered and every save succeeds reaches its end. -/
theorem deadlineCheckerWith_completed_of_all (deliver : Effect → Bool)
    (store : Complaint → Bool) (now : Date) (db : Db)
    (hw : ∀ e ∈ warningCalls now db, deliver e = true) (hs : ∀ d, store d = true) :
    (deadlineCheckerWith deliver store now db).completed = true := by
  unfold deadlineCheckerWith
  rw [awaitAll_of_all deliver _ hw]
  have h2 := forEachSaving_of_all store (pastDeadlineQuery now) (autoEscalateSaved now)
    db.complaints (fun _ _ x' _ _ => hs x')
  simp only [if_true, h2]
  exact forEachSaving_of_all store _ _ _ (fun _ _ x' _ _ => hs x')

/-- Claim C8 fails as stated: at time `180000000` the level-3 complaint 1, `escalated` and
more than 24 hours overdue, is stored next to a complaint that is due for a warning. In a
run whose warning mail is rejected the complaint keeps status `escalated` and is not
published; in a run whose mail is delivered it gets status `social_media`. -/
theorem undelivered_warning_keeps_level_three_unpublished :
    mixedDb.findById 1 = some maxedComplaint ∧ maxedComplaint.escalationLevel = 3 ∧
    maxedComplaint.status = .escalated ∧
    maxedComplaint.deadline < 180000000 - 24 * 60 * 60 * 1000 ∧
    (warningCalls 180000000 mixedDb).length = 1 ∧
    (deadlineCheckerWith (fun _ => false) (fun _ => true) 180000000 mixedDb).db.findById 1 =
      some maxedComplaint ∧
    publishCount 1
      (deadlineCheckerWith (fun _ => false) (fun _ => true) 180000000 mixedDb).effects = 0 ∧
    ((deadlineCheckerWith (fun _ => true) (fun _ => true) 180000000 mixedDb).db.findById 1).map
      (fun c => c.status) = some .social_media := by
  refine ⟨rfl, rfl, rfl, by decide, by decide, by decide, by decide, by decide⟩

/-- Claim C8, amended: let a complaint at level 3 with status `escalated` have its
deadline more than 24 hours before `now`, in a database whose complaints have distinct
ids. A run of the job at `now` that reaches its end (no warning mail is rejected, no
save throws) stores the complaint with status `social_media` (only `updatedAt` changes
besides) and publishes it once; after any further runs, at any times and whether they
reach their end or not, the stored complaint is that same document and it is not
published again. A run in which a warning mail is rejected does not reach its end,
leaves the complaint as it was and does not publish it. A run in which every warning
mail is delivered and every save succeeds reaches its end. -/
theorem social_media_after_one_sweep_then_stable (deliver : Effect → Bool)
    (store : Complaint → Bool) (now : Date) (db : Db) (id : ObjectId) (c : Complaint)
    (later : List ((Effect → Bool) × (Complaint → Bool) × Date))
    (h : db.findById id = some c)
    (hn : (db.complaints.map (fun d => d._id)).Nodup)
    (hl : c.escalationLevel = 3) (hs : c.status = .escalated)
    (hd : c.deadline < now - 24 * 60 * 60 * 1000) :
    ((deadlineCheckerWith deliver store now db).completed = true →
      (deadlineCheckerWith deliver store now db).db.findById id =
        some { c with status := .social_media, updatedAt := now } ∧
      publishCount id (deadlineCheckerWith deliver store now db).effects = 1 ∧
      (sweepsWith later (deadlineCheckerWith deliver store now db).db).1.findById id =
        some { c with status := .social_media, updatedAt := now } ∧
      publishCount id (sweepsWith later (deadlineCheckerWith deliver store now db).db).2 = 0) ∧
    ((∃ e ∈ warningCalls now db, deliver e = false) →
      (deadlineCheckerWith deliver store now db).completed = false ∧
      (deadlineCheckerWith deliver store now db).db.findById id = some c ∧
      publishCount id (deadlineCheckerWith deliver store now db).effects = 0) ∧
    ((∀ e ∈ warningCalls now db, deliver e = true) → (∀ d, store d = true) →
      (deadlineCheckerWith deliver store now db).completed = true) := by
  refine ⟨?_, ?_, deadlineCheckerWith_completed_of_all deliver store now db⟩
  · intro hc
    obtain ⟨_, heq⟩ := deadlineCheckerWith_of_completed deliver store now db hc
    have hok : (awaitAll (fun _ => true) (warningCalls now db)).2 = true := by
      rw [awaitAll_of_all (fun _ => true) _ (fun _ _ => rfl)]
    have ha : autoStep now c = c := by
      have hq : ¬ pastDeadlineQuery now c = true := by
        rw [pastDeadlineQuery_iff, hs]
        simp
      unfold autoStep
      rw [if_neg hq]
    have hm : maxEscalatedQuery now c = true := by
      rw [maxEscalatedQuery_iff, hs]
      exact ⟨hl, hd, by simp⟩
    have h1 : (deadlineCheckerWith deliver store now db).db.findById id =
        some { c with status := .social_media, updatedAt := now } := by
      rw [heq, deadlineChecker_findById (fun _ => true) now h, if_pos hok]
      unfold sweepDoc publicStep
      rw [ha, if_pos hm]
      rfl
    have hn1 : ((deadlineCheckerWith deliver store now db).db.complaints.map
        (fun d => d._id)).Nodup := by
      rw [deadlineCheckerWith_ids]
      exact hn
    have hp : publishCount id (deadlineCheckerWith deliver store now db).effects = 1 := by
      rw [heq, deadlineChecker_publishCount (fun _ => true) now db id c hn h, ha]
      simp [hok, hm]
    obtain ⟨hs1, hs2⟩ := sweepsWith_social_media_stable later _ id _ h1 rfl hn1
    exact ⟨h1, hp, hs1, hs2⟩
  · intro hu
    obtain ⟨hdb, hcomp, hpub⟩ := deadlineCheckerWith_of_some_undelivered deliver store now db hu
    refine ⟨hcomp, ?_, hpub id⟩
    rw [hdb]
    exact h

/-- Claim C8, amended, at the level-3 sample complaint: a run at `180000000` in which
nothing fails, then a run in which nothing fails and a run in which every mail and every
save fails. After the first run the stored status is `social_media` and the complaint has
been published once; the later runs change and publish nothing. -/
theorem social_media_after_one_sweep_then_stable_witness :
    maxedDb.findById 1 = some maxedComplaint ∧
    (maxedDb.complaints.map (fun d => d._id)).Nodup ∧
    maxedComplaint.escalationLevel = 3 ∧
    maxedComplaint.status = .escalated ∧
    maxedComplaint.deadline < 180000000 - 24 * 60 * 60 * 1000 ∧
    (deadlineCheckerWith (fun _ => true) (fun _ => true) 180000000 maxedDb).completed = true ∧
    (deadlineCheckerWith (fun _ => true) (fun _ => true) 180000000 maxedDb).db.findById 1 =
      some { maxedComplaint with status := .social_media, updatedAt := 180000000 } ∧
    publishCount 1
      (deadlineCheckerWith (fun _ => true) (fun _ => true) 180000000 maxedDb).effects = 1 ∧
    (sweepsWith [(fun _ => true, fun _ => true, 183600000),
        (fun _ => false, fun _ => false, 187200000)]
      (deadlineCheckerWith (fun _ => true) (fun _ => true) 180000000 maxedDb).db).1.findById 1 =
      some { maxedComplaint with status := .social_media, updatedAt := 180000000 } ∧
    publishCount 1 (sweepsWith [(fun _ => true, fun _ => true, 183600000),
        (fun _ => false, fun _ => false, 187200000)]
      (deadlineCheckerWith (fun _ => true) (fun _ => true) 180000000 maxedDb).db).2 = 0 :=
  ⟨rfl, by decide, rfl, rfl, by decide, rfl,
    (social_media_after_one_sweep_then_stable (fun _ => true) (fun _ => true) 180000000 maxedDb
      1 maxedComplaint [(fun _ => true, fun _ => true, 183600000),
        (fun _ => false, fun _ => false, 187200000)]
      rfl (by decide) rfl rfl (by decide)).1 rfl⟩

/-- Claim C20 fails as stated: at time `0` two complaints are in the window of the warning
pass, in progress and assigned to the stored user 7. In a run in which the mail about
complaint 1 is rejected, complaint 2 gets no warning, although every other mail would
be delivered. A complaint in the window whose assignee 99 is no stored user gets no
warning in a run in which nothing fails. -/
theorem rejected_mail_leaves_next_complaint_unwarned :
    (warnTwoDb.complaints.map (fun d => d._id)).Nodup ∧
    warnTwoDb.findById 2 = some secondComplaint ∧
    (0 ≤ secondComplaint.deadline ∧ secondComplaint.deadline ≤ 0 + 2 * 60 * 60 * 1000) ∧
    secondComplaint.status = .in_progress ∧ secondComplaint.assignedTo = some 7 ∧
    (warnTwoDb.findUserById 7).isSome = true ∧
    warningCount 2 (deadlineCheckerWith (fun e => !isWarningFor 1 e) (fun _ => true) 0
      warnTwoDb).effects = 0 ∧
    warningCount 2 (deadlineCheckerWith (fun _ => true) (fun _ => true) 0 warnTwoDb).effects = 1 ∧
    (danglingDb.findById 1 = some danglingComplaint ∧
      danglingComplaint.assignedTo = some 99 ∧ danglingDb.findUserById 99 = none ∧
      (0 ≤ danglingComplaint.deadline ∧
        danglingComplaint.deadline ≤ 0 + 2 * 60 * 60 * 1000) ∧
      danglingComplaint.status = .in_progress ∧
      (deadlineCheckerWith (fun _ => true) (fun _ => true) 0 danglingDb).completed = true ∧
      warningCount 1
        (deadlineCheckerWith (fun _ => true) (fun _ => true) 0 danglingDb).effects = 0) := by
  refine ⟨by decide, rfl, by decide, rfl, rfl, rfl, by decide, by decide, rfl, rfl, rfl, by decide,
    rfl, by decide, by decide⟩

/-- Claim C20, amended: take a run of the job at `now` on a collection with distinct ids
and a stored complaint. When the run reaches its end (no warning mail is rejected, no save
throws): a complaint with `now ≤ deadline ≤ now + 2h`, a status that is none of
`resolved`, `verified`, `social_media` and an assignee that is a stored user is the
subject of exactly one warning, sent to that user; a complaint outside the window, with
an excluded status, without assignee or with an assignee that is no stored user gets no
warning; and the database after the run is what the two escalation passes make of the
database as it was, the warning pass having changed nothing. A complaint whose deadline
has not passed is stored unchanged after any run. When a warning mail is rejected, the
warnings sent are those before it in the order of the pass: no later warning is sent,
and the database is as before. A run in which every warning mail is delivered and every
save succeeds reaches its end. -/
theorem warning_pass_effect (deliver : Effect → Bool) (store : Complaint → Bool) (now : Date)
    (db : Db) (id : ObjectId) (c : Complaint)
    (hn : (db.complaints.map (fun d => d._id)).Nodup) (h : db.findById id = some c) :
    ((deadlineCheckerWith deliver store now db).completed = true →
      (∀ a u, now ≤ c.deadline → c.deadline ≤ now + 2 * 60 * 60 * 1000 →
        c.status ∉ [Status.resolved, .verified, .social_media] →
        c.assignedTo = some a → db.findUserById a = some u →
        warningCount id (deadlineCheckerWith deliver store now db).effects = 1 ∧
        Effect.sendWarningEmail u c "Deadline Approaching" ∈
          (deadlineCheckerWith deliver store now db).effects ∧ u._id = a) ∧
      (¬ (now ≤ c.deadline ∧ c.deadline ≤ now + 2 * 60 * 60 * 1000 ∧
          c.status ∉ [Status.resolved, .verified, .social_media] ∧
          ∃ a u, c.assignedTo = some a ∧ db.findUserById a = some u) →
        warningCount id (deadlineCheckerWith deliver store now db).effects = 0) ∧
      (deadlineCheckerWith deliver store now db).db =
        publicEscalationPass now (autoEscalationPass now db)) ∧
    (now ≤ c.deadline → (deadlineCheckerWith deliver store now db).db.findById id = some c) ∧
    (∀ front e back, warningCalls now db = front ++ e :: back →
      (∀ x ∈ front, deliver x = true) → deliver e = false →
      (deadlineCheckerWith deliver store now db).effects = front ∧
      (deadlineCheckerWith deliver store now db).db = db ∧
      (deadlineCheckerWith deliver store now db).completed = false) ∧
    ((∀ e ∈ warningCalls now db, deliver e = true) → (∀ d, store d = true) →
      (deadlineCheckerWith deliver store now db).completed = true) := by
  refine ⟨?_, ?_, ?_, deadlineCheckerWith_completed_of_all deliver store now db⟩
  · intro hc
    obtain ⟨_, heq⟩ := deadlineCheckerWith_of_completed deliver store now db hc
    have heff : (deadlineCheckerWith deliver store now db).effects =
        warningCalls now db ++
          ((autoEscalationPass now db).complaints.filter (maxEscalatedQuery now)).map
            (fun complaint => Effect.postToSocialMedia (moveToSocialMedia now complaint)) := by
      rw [heq]
      unfold deadlineChecker
      rw [awaitAll_of_all (fun _ => true) _ (fun _ _ => rfl)]
      simp only [if_true]
    have hcount : warningCount id (deadlineCheckerWith deliver store now db).effects =
        warningCount id (warningCalls now db) := by
      rw [heff]
      have hp := warningCount_posts id (moveToSocialMedia now)
        ((autoEscalationPass now db).complaints.filter (maxEscalatedQuery now))
      unfold warningCount at hp ⊢
      rw [List.countP_append, hp, Nat.add_zero]
    refine ⟨?_, ?_, ?_⟩
    · intro a u h1 h2 h3 ha hu
      have hq : approachingQuery now c = true := (approachingQuery_iff now c).mpr ⟨h1, h2, h3⟩
      refine ⟨?_, ?_, ?_⟩
      · rw [hcount, warningCount_warningCalls now db id c hn h]
        simp [hq, ha, hu]
      · rw [heff]
        apply List.mem_append_left
        unfold warningCalls
        rw [List.mem_filterMap]
        refine ⟨c, ?_, ?_⟩
        · rw [List.mem_filter]
          exact ⟨List.mem_of_find?_eq_some h, hq⟩
        · simp only [ha, hu]
      · have := List.find?_some hu
        simpa using this
    · intro hnot
      rw [hcount, warningCount_warningCalls now db id c hn h]
      by_cases hq : approachingQuery now c = true
      · have happ := (approachingQuery_iff now c).mp hq
        cases ha : c.assignedTo with
        | none => simp
        | some a =>
          cases hu : db.findUserById a with
          | none => simp [hu]
          | some u => exact absurd ⟨happ.1, happ.2.1, happ.2.2, a, u, ha, hu⟩ hnot
      · simp [hq]
    · rw [heq]
      unfold deadlineChecker
      rw [awaitAll_of_all (fun _ => true) _ (fun _ _ => rfl)]
      simp only [if_true]
  · intro hd
    have h2 : pastDeadlineQuery now c = false := by
      have : ¬ pastDeadlineQuery now c = true := by
        rw [pastDeadlineQuery_iff]
        intro hh
        exact absurd hh.1 (not_lt.mpr hd)
      simpa using this
    have h3 : maxEscalatedQuery now c = false := by
      have : ¬ maxEscalatedQuery now c = true := by
        rw [maxEscalatedQuery_iff]
        intro hh
        have := hh.2.1
        linarith
      simpa using this
    exact deadlineCheckerWith_find_fixed deliver store now db id c h h2 h3
  · intro front e back hw hf he
    rw [deadlineCheckerWith_of_undelivered deliver store now db front e back hw hf he]
    exact ⟨rfl, rfl, rfl⟩

/-- Claim C20, amended, at the sample complaint in progress, 90 minutes before its
deadline and assigned to user 7, in a run at time `0` in which nothing fails: the run
reaches its end, one warning about the complaint is sent, to the stored user 7, and the
complaint is stored unchanged. -/
theorem warning_pass_effect_witness :
    (approachingDb.complaints.map (fun d => d._id)).Nodup ∧
    approachingDb.findById 1 = some approachingComplaint ∧
    (deadlineCheckerWith (fun _ => true) (fun _ => true) 0 approachingDb).completed = true ∧
    approachingComplaint.assignedTo = some 7 ∧
    warningCount 1
      (deadlineCheckerWith (fun _ => true) (fun _ => true) 0 approachingDb).effects = 1 ∧
    Effect.sendWarningEmail
        { _id := 7, name := "Clerk", email := "clerk@example.org", userType := "department",
          department := "road" }
        approachingComplaint "Deadline Approaching" ∈
      (deadlineCheckerWith (fun _ => true) (fun _ => true) 0 approachingDb).effects ∧
    (deadlineCheckerWith (fun _ => true) (fun _ => true) 0 approachingDb).db.findById 1 =
      some approachingComplaint :=
  ⟨by decide, rfl, rfl, rfl,
    (((warning_pass_effect (fun _ => true) (fun _ => true) 0 approachingDb 1 approachingComplaint
      (by decide) rfl).1 rfl).1 7
      { _id := 7, name := "Clerk", email := "clerk@example.org", userType := "department",
        department := "road" } (by decide) (by decide) (by decide) rfl rfl).1,
    (((warning_pass_effect (fun _ => true) (fun _ => true) 0 approachingDb 1 approachingComplaint
      (by decide) rfl).1 rfl).1 7
      { _id := 7, name := "Clerk", email := "clerk@example.org", userType := "department",
        department := "road" } (by decide) (by decide) (by decide) rfl rfl).2.1,
    (warning_pass_effect (fun _ => true) (fun _ => true) 0 approachingDb 1 approachingComplaint
      (by decide) rfl).2.1 (by decide)⟩

/-- Claim C23 fails as stated. At time `3000000` complaint 2 is due for a warning and
complaint 1 is overdue: a run whose warning mail is rejected ends without escalating
complaint 1, which a run with a delivered mail escalates. At time `5000000` both
complaints are overdue, complaint 2 first in the collection: a run in which the save of
complaint 2 throws ends without escalating complaint 1, which a run without failing
save escalates. -/
theorem undelivered_warning_stops_the_run :
    (pastDeadlineQuery 3000000 sampleComplaint = true ∧ sampleComplaint.escalationLevel < 3 ∧
      (warningCalls 3000000 twoDb).length = 1 ∧
      (deadlineCheckerWith (fun _ => false) (fun _ => true) 3000000 twoDb).completed = false ∧
      (deadlineCheckerWith (fun _ => false) (fun _ => true) 3000000 twoDb).db.findById 1 =
        some sampleComplaint ∧
      ((deadlineCheckerWith (fun _ => true) (fun _ => true) 3000000 twoDb).db.findById 1).map
        (fun c => (c.status, c.escalationLevel)) = some (.escalated, 2)) ∧
    (pastDeadlineQuery 5000000 secondComplaint = true ∧
      pastDeadlineQuery 5000000 sampleComplaint = true ∧
      sampleComplaint.escalationLevel < 3 ∧
      (deadlineCheckerWith (fun _ => true) (fun d => d._id != 2) 5000000 twoDb).completed =
        false ∧
      (deadlineCheckerWith (fun _ => true) (fun d => d._id != 2) 5000000 twoDb).db.findById 1 =
        some sampleComplaint ∧
      ((deadlineCheckerWith (fun _ => true) (fun _ => true) 5000000 twoDb).db.findById 1).map
        (fun c => (c.status, c.escalationLevel)) = some (.escalated, 2)) := by
  refine ⟨⟨by decide, by decide, by decide, by decide, by decide, by decide⟩,
    ⟨by decide, by decide, by decide, by decide, by decide, by decide⟩⟩

/-- Claim C23, amended: in a run of the job a failure on one candidate ends the run.
When a warning mail is rejected, the warnings sent are those before it in the order of
the pass, no later warning is sent and the database is as before: neither escalation
pass has run. When every warning mail is delivered and a save of the auto-escalation
pass throws, the candidates before it in the collection are escalated, the candidate
whose save threw and every document after it are as before, and nothing is published.
When the auto-escalation pass has run to its end and a save of the public-escalation
pass throws, the candidates before it have status `social_media` and are published, the
candidate whose save threw and every document after it are as the auto-escalation pass
left them and are not published. When every warning mail is delivered and every save
succeeds, the run reaches its end, the database is the result of both escalation passes
and the calls are all warnings followed by the publications. -/
theorem sweep_all_or_nothing (deliver : Effect → Bool) (store : Complaint → Bool) (now : Date)
    (db : Db) :
    (∀ front e back, warningCalls now db = front ++ e :: back →
      (∀ x ∈ front, deliver x = true) → deliver e = false →
      deadlineCheckerWith deliver store now db =
        { db := db, effects := front, completed := false }) ∧
    (∀ front d back, db.complaints = front ++ d :: back →
      (∀ e ∈ warningCalls now db, deliver e = true) →
      (∀ x ∈ front, pastDeadlineQuery now x = true → x.escalationLevel < 3 →
        store (autoEscalate now x) = true) →
      pastDeadlineQuery now d = true → d.escalationLevel < 3 →
      store (autoEscalate now d) = false →
      deadlineCheckerWith deliver store now db =
        { db := { db with complaints := front.map (autoStep now) ++ d :: back },
          effects := warningCalls now db, completed := false }) ∧
    (∀ front d back, (autoEscalationPass now db).complaints = front ++ d :: back →
      (∀ e ∈ warningCalls now db, deliver e = true) →
      (∀ x ∈ db.complaints, pastDeadlineQuery now x = true → x.escalationLevel < 3 →
        store (autoEscalate now x) = true) →
      (∀ x ∈ front, maxEscalatedQuery now x = true → store (moveToSocialMedia now x) = true) →
      maxEscalatedQuery now d = true → store (moveToSocialMedia now d) = false →
      deadlineCheckerWith deliver store now db =
        { db := { db with complaints := front.map (publicStep now) ++ d :: back },
          effects := warningCalls now db ++
            (front.filter (maxEscalatedQuery now)).map
              (fun x => Effect.postToSocialMedia (moveToSocialMedia now x)),
          completed := false }) ∧
    ((∀ e ∈ warningCalls now db, deliver e = true) → (∀ d, store d = true) →
      deadlineCheckerWith deliver store now db =
        { db := publicEscalationPass now (autoEscalationPass now db),
          effects := warningCalls now db ++
            ((autoEscalationPass now db).complaints.filter (maxEscalatedQuery now)).map
              (fun x => Effect.postToSocialMedia (moveToSocialMedia now x)),
          completed := true }) := by
  have hbody2 : ∀ (l : List Complaint),
      (∀ x ∈ l, pastDeadlineQuery now x = true → x.escalationLevel < 3 →
        store (autoEscalate now x) = true) →
      ∀ x ∈ l, ∀ x', pastDeadlineQuery now x = true → autoEscalateSaved now x = some x' →
        store x' = true := by
    intro l hl x hx x' hq hb
    unfold autoEscalateSaved at hb
    split_ifs at hb with hlt
    simp only [Option.some.injEq] at hb
    rw [← hb]
    exact hl x hx hq hlt
  have hbody3 : ∀ (l : List Complaint),
      (∀ x ∈ l, maxEscalatedQuery now x = true → store (moveToSocialMedia now x) = true) →
      ∀ x ∈ l, ∀ x', maxEscalatedQuery now x = true →
        (fun complaint => some (moveToSocialMedia now complaint)) x = some x' →
        store x' = true := by
    intro l hl x hx x' hq hb
    simp only [Option.some.injEq] at hb
    rw [← hb]
    exact hl x hx hq
  refine ⟨?_, ?_, ?_, ?_⟩
  · intro front e back hw hf he
    exact deadlineCheckerWith_of_undelivered deliver store now db front e back hw hf he
  · intro front d back hdb hw hfront hq hlt hs
    have hb : autoEscalateSaved now d = some (autoEscalate now d) := by
      unfold autoEscalateSaved
      rw [if_pos hlt]
    have hloop := forEachSaving_of_failure store (pastDeadlineQuery now) (autoEscalateSaved now)
      front d (autoEscalate now d) back hq hb hs (hbody2 front hfront)
    rw [savedOr_autoEscalateSaved] at hloop
    unfold deadlineCheckerWith
    rw [awaitAll_of_all deliver _ hw, hdb, hloop]
    simp only [if_true, Bool.false_eq_true, if_false]
  · intro front d back hdb hw hall hfront hq hs
    have h2 := forEachSaving_of_all store (pastDeadlineQuery now) (autoEscalateSaved now)
      db.complaints (hbody2 db.complaints hall)
    have hd2 := (forEachSaving_completed _ _ _ _ h2).1
    rw [savedOr_autoEscalateSaved, ← autoEscalationPass_complaints, hdb] at hd2
    have hloop := forEachSaving_of_failure store (maxEscalatedQuery now)
      (fun complaint => some (moveToSocialMedia now complaint))
      front d (moveToSocialMedia now d) back hq rfl hs (hbody3 front hfront)
    rw [savedOr_moveToSocialMedia, filterMap_some_eq_map] at hloop
    unfold deadlineCheckerWith
    rw [awaitAll_of_all deliver _ hw]
    simp only [if_true, h2, hd2, hloop, List.map_map]
    rfl
  · intro hw hs
    have hc := deadlineCheckerWith_completed_of_all deliver store now db hw hs
    rw [(deadlineCheckerWith_of_completed deliver store now db hc).2]
    unfold deadlineChecker
    rw [awaitAll_of_all (fun _ => true) _ (fun _ _ => rfl)]
    simp only [if_true]

/-- Claim C23, amended, at the database of two overdue complaints at time `5000000`, in a
run in which the save of complaint 2, the first candidate, throws: the run does not reach
its end, the database is as before, complaint 1 is not escalated, and no call is made. -/
theorem sweep_all_or_nothing_witness :
    twoDb.complaints = [] ++ secondComplaint :: [sampleComplaint] ∧
    pastDeadlineQuery 5000000 secondComplaint = true ∧ secondComplaint.escalationLevel < 3 ∧
    (fun d : Complaint => d._id != 2) (autoEscalate 5000000 secondComplaint) = false ∧
    pastDeadlineQuery 5000000 sampleComplaint = true ∧ sampleComplaint.escalationLevel < 3 ∧
    deadlineCheckerWith (fun _ => true) (fun d => d._id != 2) 5000000 twoDb =
      { db := twoDb, effects := [], completed := false } :=
  ⟨rfl, by decide, by decide, by decide, by decide, by decide,
    ((sweep_all_or_nothing (fun _ => true) (fun d => d._id != 2) 5000000 twoDb).2.1
      [] secondComplaint [sampleComplaint] rfl (fun _ _ => rfl)
      (fun x hx => absurd hx (List.not_mem_nil x)) (by decide) (by decide) (by decide)).trans
      (by decide)⟩

/-- Claim C30 fails as stated: at time `180000000` the level-2 complaint 1, in progress
and more than 24 hours overdue, is stored next to a complaint that is due for a warning.
In a run whose warning mail is rejected the complaint stays at level 2 with status
`in_progress` and is not published; in a run whose mail is delivered it is stored at
level 3 with status `social_media`. -/
theorem undelivered_warning_keeps_level_two_untouched :
    mixedTwoDb.findById 1 = some levelTwoComplaint ∧ levelTwoComplaint.escalationLevel = 2 ∧
    levelTwoComplaint.status = .in_progress ∧
    levelTwoComplaint.deadline < 180000000 - 24 * 60 * 60 * 1000 ∧
    (warningCalls 180000000 mixedTwoDb).length = 1 ∧
    (deadlineCheckerWith (fun _ => false) (fun _ => true) 180000000 mixedTwoDb).db.findById 1 =
      some levelTwoComplaint ∧
    publishCount 1
      (deadlineCheckerWith (fun _ => false) (fun _ => true) 180000000 mixedTwoDb).effects = 0 ∧
    ((deadlineCheckerWith (fun _ => true) (fun _ => true) 180000000 mixedTwoDb).db.findById
      1).map (fun c => (c.escalationLevel, c.status)) = some (3, .social_media) := by
  refine ⟨rfl, rfl, rfl, by decide, by decide, by decide, by decide, by decide⟩

/-- Claim C30, amended: let a stored complaint at level 2 have a status that is none of
`resolved`, `verified`, `social_media`, `escalated` and a deadline more than 24 hours
before `now`, in a collection with distinct ids. The auto-escalation pass makes of it a
complaint at level 3 with status `escalated` and one more entry. A run of the job at `now`
that reaches its end (no warning mail is rejected, no save throws) stores it at level 3
with status `social_media` and that entry, every other path as before (the assignee is
the old one, the deadline too), and publishes it once. A run in which a warning mail is
rejected does not reach its end, leaves the complaint as it was and does not publish it.
A run in which every warning mail is delivered and every save succeeds reaches its end. -/
theorem level_two_escalated_and_published_in_one_run (deliver : Effect → Bool)
    (store : Complaint → Bool) (now : Date)
    (db : Db) (id : ObjectId) (c : Complaint) (h : db.findById id = some c)
    (hn : (db.complaints.map (fun d => d._id)).Nodup)
    (hl : c.escalationLevel = 2)
    (hs : c.status ∉ [Status.resolved, .verified, .social_media, .escalated])
    (hd : c.deadline < now - 24 * 60 * 60 * 1000) :
    (autoEscalationPass now db).findById id =
      some { c with
        escalationLevel := 3, status := .escalated, updatedAt := now,
        escalationHistory := c.escalationHistory ++
          [{ level := 3, escalatedAt := now,
             reason := some "Auto-escalated due to missed deadline", escalatedBy := none }] } ∧
    ((deadlineCheckerWith deliver store now db).completed = true →
      (deadlineCheckerWith deliver store now db).db.findById id =
        some { c with
          escalationLevel := 3, status := .social_media, updatedAt := now,
          escalationHistory := c.escalationHistory ++
            [{ level := 3, escalatedAt := now,
               reason := some "Auto-escalated due to missed deadline", escalatedBy := none }] } ∧
      publishCount id (deadlineCheckerWith deliver store now db).effects = 1) ∧
    ((∃ e ∈ warningCalls now db, deliver e = false) →
      (deadlineCheckerWith deliver store now db).completed = false ∧
      (deadlineCheckerWith deliver store now db).db.findById id = some c ∧
      publishCount id (deadlineCheckerWith deliver store now db).effects = 0) ∧
    ((∀ e ∈ warningCalls now db, deliver e = true) → (∀ d, store d = true) →
      (deadlineCheckerWith deliver store now db).completed = true) := by
  have hnow : c.deadline < now := by linarith
  have hq : pastDeadlineQuery now c = true := (pastDeadlineQuery_iff now c).mpr ⟨hnow, hs⟩
  have ha : autoStep now c =
      { c with
        escalationLevel := 3, status := .escalated, updatedAt := now,
        escalationHistory := c.escalationHistory ++
          [{ level := 3, escalatedAt := now,
             reason := some "Auto-escalated due to missed deadline", escalatedBy := none }] } := by
    unfold autoStep autoEscalate
    rw [if_pos hq, if_pos (by omega)]
    simp only [hl]
  have hm : maxEscalatedQuery now (autoStep now c) = true := by
    rw [maxEscalatedQuery_iff, ha]
    exact ⟨rfl, hd, by simp⟩
  refine ⟨?_, ?_, ?_, deadlineCheckerWith_completed_of_all deliver store now db⟩
  · unfold autoEscalationPass
    rw [Db.findById_forEachMatching _ _ _ _ (autoEscalate_id now), h, ← ha]
    rfl
  · intro hc
    obtain ⟨_, heq⟩ := deadlineCheckerWith_of_completed deliver store now db hc
    have hok : (awaitAll (fun _ => true) (warningCalls now db)).2 = true := by
      rw [awaitAll_of_all (fun _ => true) _ (fun _ _ => rfl)]
    constructor
    · rw [heq, deadlineChecker_findById (fun _ => true) now h, if_pos hok]
      unfold sweepDoc publicStep
      rw [if_pos hm, ha]
      rfl
    · rw [heq, deadlineChecker_publishCount (fun _ => true) now db id c hn h]
      simp [hok, hm]
  · intro hu
    obtain ⟨hdb, hcomp, hpub⟩ := deadlineCheckerWith_of_some_undelivered deliver store now db hu
    refine ⟨hcomp, ?_, hpub id⟩
    rw [hdb]
    exact h

/-- Claim C30, amended, at the level-2 sample complaint, whose deadline is `1000`, in a
run at `90000000` in which nothing fails: the run reaches its end, the complaint is
stored at level 3 with status `social_media`, its assignee is still user 7, and it has
been published once. -/
theorem level_two_escalated_and_published_in_one_run_witness :
    levelTwoDb.findById 1 = some levelTwoComplaint ∧
    (levelTwoDb.complaints.map (fun d => d._id)).Nodup ∧
    levelTwoComplaint.escalationLevel = 2 ∧
    levelTwoComplaint.status ∉ [Status.resolved, .verified, .social_media, .escalated] ∧
    levelTwoComplaint.deadline < 90000000 - 24 * 60 * 60 * 1000 ∧
    (deadlineCheckerWith (fun _ => true) (fun _ => true) 90000000 levelTwoDb).completed = true ∧
    (deadlineCheckerWith (fun _ => true) (fun _ => true) 90000000 levelTwoDb).db.findById 1 =
      some { levelTwoComplaint with
        escalationLevel := 3, status := .social_media, updatedAt := 90000000,
        escalationHistory :=
          [{ level := 2, escalatedAt := 2000,
             reason := some "Auto-escalated due to missed deadline", escalatedBy := none },
           { level := 3, escalatedAt := 90000000,
             reason := some "Auto-escalated due to missed deadline", escalatedBy := none }] } ∧
    levelTwoComplaint.assignedTo = some 7 ∧
    publishCount 1
      (deadlineCheckerWith (fun _ => true) (fun _ => true) 90000000 levelTwoDb).effects = 1 :=
  ⟨rfl, by decide, rfl, by decide, by decide, rfl,
    ((level_two_escalated_and_published_in_one_run (fun _ => true) (fun _ => true) 90000000
      levelTwoDb 1 levelTwoComplaint rfl (by decide) rfl (by decide) (by decide)).2.1 rfl).1,
    rfl,
    ((level_two_escalated_and_published_in_one_run (fun _ => true) (fun _ => true) 90000000
      levelTwoDb 1 levelTwoComplaint rfl (by decide) rfl (by decide) (by decide)).2.1 rfl).2⟩

/-! ## Lists of complaints -/

/-- Sorting keeps the documents. -/
theorem sortByCreatedAtDesc_perm (docs : List Complaint) : (sortByCreatedAtDesc docs).Perm docs :=
  List.perm_insertionSort _ docs

/-- After sorting, no document is older than a later one. -/
theorem sortByCreatedAtDesc_sorted (docs : List Complaint) :
    (sortByCreatedAtDesc docs).Pairwise (fun a b => b.createdAt ≤ a.createdAt) :=
  @List.sorted_insertionSort Complaint (fun a b => b.createdAt ≤ a.createdAt) _
    ⟨fun a b => le_total b.createdAt a.createdAt⟩
    ⟨fun _ _ _ hab hbc => le_trans hbc hab⟩ docs

/-- The answer of `getDepartmentComplaints` for an actor whose user record exists. -/
theorem getDepartmentComplaints_found {db : Db} {actor : Actor} {u : User}
    (hu : db.findUserById actor._id = some u) :
    getDepartmentComplaints db actor =
      { res := { code := 200,
                 body := .complaints
                   (sortByCreatedAtDesc (db.complaints.filter (departmentQuery actor u))) },
        db := db, effects := [] } := by
  unfold getDepartmentComplaints
  simp only [hu]

/-- Claim C24: for an actor with role `department` whose user record is `u`,
`getDepartmentComplaints` answers `200` with the stored complaints that have level 1, the
department of `u` and either the actor as assignee or no assignee and status `pending`, each
as often as it is stored, ordered by `createdAt` with the newest first. -/
theorem department_user_list (db : Db) (actor : Actor) (u : User)
    (hrole : actor.userType = "department") (hu : db.findUserById actor._id = some u) :
    ∃ docs, getDepartmentComplaints db actor =
        { res := { code := 200, body := .complaints docs }, db := db, effects := [] } ∧
      docs.Perm (db.complaints.filter (fun c =>
        decide (c.escalationLevel = 1 ∧ c.department = u.department ∧
          (c.assignedTo = some actor._id ∨ (c.assignedTo = none ∧ c.status = .pending))))) ∧
      docs.Pairwise (fun a b => b.createdAt ≤ a.createdAt) := by
  refine ⟨_, getDepartmentComplaints_found hu, ?_, sortByCreatedAtDesc_sorted _⟩
  refine (sortByCreatedAtDesc_perm _).trans (List.Perm.of_eq ?_)
  congr 1
  funext c
  unfold departmentQuery
  simp only [hrole, if_true]
  rw [Bool.eq_iff_iff]
  simp only [Bool.and_eq_true, Bool.or_eq_true, beq_iff_eq, decide_eq_true_eq]
  tauto

/-- Claim C24 at the department user of the sample database. -/
theorem department_user_list_witness :
    sampleClerk.userType = "department" ∧
    sampleDb.findUserById sampleClerk._id = some
      { _id := 7, name := "Clerk", email := "clerk@example.org", userType := "department",
        department := "road" } ∧
    ∃ docs, getDepartmentComplaints sampleDb sampleClerk =
        { res := { code := 200, body := .complaints docs }, db := sampleDb, effects := [] } ∧
      docs.Perm (sampleDb.complaints.filter (fun c =>
        decide (c.escalationLevel = 1 ∧ c.department = "road" ∧
          (c.assignedTo = some sampleClerk._id ∨
            (c.assignedTo = none ∧ c.status = .pending))))) ∧
      docs.Pairwise (fun a b => b.createdAt ≤ a.createdAt) :=
  ⟨rfl, rfl, department_user_list sampleDb sampleClerk _ rfl rfl⟩

/-- Claim C25 fails as stated: for a level-2 officer of the department `road` the handler
returns the level-1 complaint of that department and not the level-2 complaint of the
department `water`; the dashboard then shows nothing. -/
theorem officer_list_is_by_department :
    officerDb.findUserById roadOfficer._id = some roadOfficerUser ∧
    waterComplaint ∈ officerDb.complaints ∧ waterComplaint.escalationLevel = 2 ∧
    sampleComplaint.escalationLevel = 1 ∧
    getDepartmentComplaints officerDb roadOfficer =
      { res := { code := 200, body := .complaints [sampleComplaint] },
        db := officerDb, effects := [] } ∧
    officerComplaints "l2" [sampleComplaint] = [] := by
  refine ⟨rfl, by decide, rfl, rfl, by decide, by decide⟩

/-- Claim C25, amended: for an actor with role `l2_officer` or `l3_officer` whose user record is
`u`, `getDepartmentComplaints` answers `200` with the stored complaints of the department of
`u`, of every level, newest first; the list of the officer dashboard keeps those of level 2
(dashboard `l2`) or level 3 (dashboard `l3`). -/
theorem officer_list (db : Db) (actor : Actor) (u : User)
    (hrole : actor.userType = "l2_officer" ∨ actor.userType = "l3_officer")
    (hu : db.findUserById actor._id = some u) :
    ∃ docs, getDepartmentComplaints db actor =
        { res := { code := 200, body := .complaints docs }, db := db, effects := [] } ∧
      docs.Perm (db.complaints.filter (fun c => decide (c.department = u.department))) ∧
      docs.Pairwise (fun a b => b.createdAt ≤ a.createdAt) ∧
      (officerComplaints "l2" docs).Perm (db.complaints.filter (fun c =>
        decide (c.department = u.department ∧ c.escalationLevel = 2))) ∧
      (officerComplaints "l3" docs).Perm (db.complaints.filter (fun c =>
        decide (c.department = u.department ∧ c.escalationLevel = 3))) := by
  have hnd : ¬ actor.userType = "department" := by
    rcases hrole with h | h <;> rw [h] <;> decide
  have hq : departmentQuery actor u = fun c => decide (c.department = u.department) := by
    funext c
    unfold departmentQuery
    simp only [hnd, if_false, Bool.and_true]
    rw [Bool.eq_iff_iff]
    simp only [beq_iff_eq, decide_eq_true_eq]
  have hperm : (sortByCreatedAtDesc (db.complaints.filter (departmentQuery actor u))).Perm
      (db.complaints.filter (fun c => decide (c.department = u.department))) := by
    rw [← hq]
    exact sortByCreatedAtDesc_perm _
  have hlevel : ∀ (level : String) (n : Nat), (if level = "l2" then 2 else 3) = n →
      (officerComplaints level
          (sortByCreatedAtDesc (db.complaints.filter (departmentQuery actor u)))).Perm
        (db.complaints.filter (fun c =>
          decide (c.department = u.department ∧ c.escalationLevel = n))) := by
    intro level n hn
    unfold officerComplaints
    refine (hperm.filter _).trans (List.Perm.of_eq ?_)
    rw [List.filter_filter]
    congr 1
    funext c
    rw [Bool.eq_iff_iff, hn]
    simp only [Bool.and_eq_true, beq_iff_eq, decide_eq_true_eq]
    tauto
  exact ⟨_, getDepartmentComplaints_found hu, hperm, sortByCreatedAtDesc_sorted _,
    hlevel "l2" 2 rfl, hlevel "l3" 3 rfl⟩

/-- Claim C25, amended, at the officer of the department `road`. -/
theorem officer_list_witness :
    (roadOfficer.userType = "l2_officer" ∨ roadOfficer.userType = "l3_officer") ∧
    officerDb.findUserById roadOfficer._id = some roadOfficerUser ∧
    ∃ docs, getDepartmentComplaints officerDb roadOfficer =
        { res := { code := 200, body := .complaints docs }, db := officerDb, effects := [] } ∧
      docs.Perm (officerDb.complaints.filter (fun c =>
        decide (c.department = roadOfficerUser.department))) ∧
      docs.Pairwise (fun a b => b.createdAt ≤ a.createdAt) ∧
      (officerComplaints "l2" docs).Perm (officerDb.complaints.filter (fun c =>
        decide (c.department = roadOfficerUser.department ∧ c.escalationLevel = 2))) ∧
      (officerComplaints "l3" docs).Perm (officerDb.complaints.filter (fun c =>
        decide (c.department = roadOfficerUser.department ∧ c.escalationLevel = 3))) :=
  ⟨Or.inl rfl, rfl, officer_list officerDb roadOfficer roadOfficerUser (Or.inl rfl) rfl⟩

/-! ## What no operation changes -/

/-- A completed run keeps owner, classification, content and creation time. -/
theorem sweepDoc_frame (now : Date) (c : Complaint) :
    (sweepDoc now c).user = c.user ∧ (sweepDoc now c).category = c.category ∧
    (sweepDoc now c).department = c.department ∧ (sweepDoc now c).title = c.title ∧
    (sweepDoc now c).description = c.description ∧ (sweepDoc now c).location = c.location ∧
    (sweepDoc now c).priority = c.priority ∧ (sweepDoc now c).images = c.images ∧
    (sweepDoc now c).createdAt = c.createdAt := by
  unfold sweepDoc publicStep autoStep autoEscalate moveToSocialMedia
  split_ifs <;> exact ⟨rfl, rfl, rfl, rfl, rfl, rfl, rfl, rfl, rfl⟩

/-- Claim C26: after any operation on a stored complaint, the stored complaint has the same
owner, category, department, title, description, location, priority, images and `createdAt`
as before. -/
theorem identity_and_content_unchanged (op : Op) (now : Date) (id : ObjectId) (db : Db)
    (c : Complaint) (h : db.findById id = some c) :
    ∃ c', (op.run now id db).findById id = some c' ∧
      c'.user = c.user ∧ c'.category = c.category ∧ c'.department = c.department ∧
      c'.title = c.title ∧ c'.description = c.description ∧ c'.location = c.location ∧
      c'.priority = c.priority ∧ c'.images = c.images ∧ c'.createdAt = c.createdAt := by
  refine ⟨_, Op.run_findById op now h, ?_⟩
  cases op with
  | updateComplaintStatus actor status =>
    simp only [Op.after]
    split_ifs
    · exact ⟨rfl, rfl, rfl, rfl, rfl, rfl, rfl, rfl, rfl⟩
    · split <;> exact ⟨rfl, rfl, rfl, rfl, rfl, rfl, rfl, rfl, rfl⟩
  | submitResolution actor description files =>
    simp only [Op.after]
    split_ifs
    · exact ⟨rfl, rfl, rfl, rfl, rfl, rfl, rfl, rfl, rfl⟩
    · split <;> exact ⟨rfl, rfl, rfl, rfl, rfl, rfl, rfl, rfl, rfl⟩
  | escalateComplaint actor reason =>
    simp only [Op.after]
    split_ifs <;> exact ⟨rfl, rfl, rfl, rfl, rfl, rfl, rfl, rfl, rfl⟩
  | extendDeadline actor additionalHours =>
    simp only [Op.after]
    split_ifs <;> exact ⟨rfl, rfl, rfl, rfl, rfl, rfl, rfl, rfl, rfl⟩
  | sweepTick deliver =>
    simp only [Op.after]
    split_ifs
    · exact sweepDoc_frame now c
    · exact ⟨rfl, rfl, rfl, rfl, rfl, rfl, rfl, rfl, rfl⟩

/-- Claim C26 at the sample complaint and a run of the job that escalates it. -/
theorem identity_and_content_unchanged_witness :
    sampleDb.findById 1 = some sampleComplaint ∧
    ∃ c', ((Op.sweepTick (fun _ => true)).run 10801000 1 sampleDb).findById 1 = some c' ∧
      c'.user = sampleComplaint.user ∧ c'.category = sampleComplaint.category ∧
      c'.department = sampleComplaint.department ∧ c'.title = sampleComplaint.title ∧
      c'.description = sampleComplaint.description ∧ c'.location = sampleComplaint.location ∧
      c'.priority = sampleComplaint.priority ∧ c'.images = sampleComplaint.images ∧
      c'.createdAt = sampleComplaint.createdAt :=
  ⟨rfl,
    identity_and_content_unchanged (.sweepTick (fun _ => true)) 10801000 1 sampleDb
      sampleComplaint rfl⟩

/-! ## The escalation history -/

/-- An operation either keeps level and history, or raises a level below 3 by one and appends
one entry that records the new level. -/
theorem Op.after_escalation (op : Op) (now : Date) (db : Db) (c : Complaint) :
    ((op.after now db c).escalationLevel = c.escalationLevel ∧
      (op.after now db c).escalationHistory = c.escalationHistory) ∨
    (c.escalationLevel < 3 ∧ (op.after now db c).escalationLevel = c.escalationLevel + 1 ∧
      ∃ x : EscalationEntry, x.level = c.escalationLevel + 1 ∧
        (op.after now db c).escalationHistory = c.escalationHistory ++ [x]) := by
  cases op with
  | updateComplaintStatus actor status =>
    left
    simp only [Op.after]
    split_ifs
    · exact ⟨rfl, rfl⟩
    · split <;> exact ⟨rfl, rfl⟩
  | submitResolution actor description files =>
    left
    simp only [Op.after]
    split_ifs
    · exact ⟨rfl, rfl⟩
    · split <;> exact ⟨rfl, rfl⟩
  | escalateComplaint actor reason =>
    simp only [Op.after]
    by_cases h1 : c.escalationLevel ≥ 3
    · left
      rw [if_pos h1]
      exact ⟨rfl, rfl⟩
    · right
      rw [if_neg h1]
      exact ⟨by omega, rfl, _, rfl, rfl⟩
  | extendDeadline actor additionalHours =>
    left
    simp only [Op.after]
    split_ifs <;> exact ⟨rfl, rfl⟩
  | sweepTick deliver =>
    simp only [Op.after]
    by_cases hc : (awaitAll deliver (warningCalls now db)).2 = true
    · rw [if_pos hc]
      unfold sweepDoc publicStep
      have hp : ∀ d : Complaint,
          (if maxEscalatedQuery now d = true then moveToSocialMedia now d else d).escalationLevel =
            d.escalationLevel ∧
          (if maxEscalatedQuery now d = true then moveToSocialMedia now d
            else d).escalationHistory = d.escalationHistory := by
        intro d
        split_ifs <;> exact ⟨rfl, rfl⟩
      rw [(hp _).1, (hp _).2]
      unfold autoStep autoEscalate
      by_cases hq : pastDeadlineQuery now c = true
      · by_cases hl : c.escalationLevel < 3
        · right
          rw [if_pos hq, if_pos hl]
          exact ⟨hl, rfl, _, rfl, rfl⟩
        · left
          rw [if_pos hq, if_neg hl]
          exact ⟨rfl, rfl⟩
      · left
        rw [if_neg hq]
        exact ⟨rfl, rfl⟩
    · left
      rw [if_neg hc]
      exact ⟨rfl, rfl⟩

/-- Appending an entry with the next level keeps the numbering of the entries. -/
theorem levels_append (l : List EscalationEntry) (x : EscalationEntry)
    (hl : ∀ k e, l[k]? = some e → e.level = k + 2) (hx : x.level = l.length + 2) :
    ∀ k e, (l ++ [x])[k]? = some e → e.level = k + 2 := by
  intro k e he
  by_cases hk : k < l.length
  · rw [List.getElem?_append_left hk] at he
    exact hl k e he
  · rw [List.getElem?_append_right (not_lt.mp hk)] at he
    have hk0 : k - l.length = 0 := by
      by_contra hne
      have : 1 ≤ k - l.length := Nat.one_le_iff_ne_zero.mpr hne
      rw [List.getElem?_eq_none (by simpa using this)] at he
      exact absurd he (by simp)
    rw [hk0] at he
    simp only [List.getElem?_cons_zero, Option.some.injEq] at he
    rw [← he, hx]
    omega

/-- Entries numbered by their levels have strictly increasing levels. -/
theorem levels_increasing (l : List EscalationEntry)
    (hl : ∀ k e, l[k]? = some e → e.level = k + 2) :
    l.Pairwise (fun a b => a.level < b.level) := by
  rw [List.pairwise_iff_getElem]
  intro i j hi hj hij
  rw [hl i _ (List.getElem?_eq_getElem hi), hl j _ (List.getElem?_eq_getElem hj)]
  omega

/-- Claim C28: the predicate `historyMatchesLevel` holds for the complaint made by
`createComplaint` and for the one made by the route, and every operation on a stored
complaint that satisfies it stores a complaint that satisfies it; the old history is a
prefix of the new one, a level of at most 3 stays at most 3 with at most two entries, and
the recorded levels are strictly increasing. -/
theorem historyMatchesLevel_preserved (op : Op) (now : Date) (id : ObjectId) (db : Db)
    (c : Complaint) (actor : Actor) (newId : ObjectId) (body : CreateBody)
    (h : db.findById id = some c) (hinv : historyMatchesLevel c) :
    historyMatchesLevel (newComplaint now actor newId body) ∧
    (∀ hours, historyMatchesLevel (newRouteComplaint now actor newId body hours)) ∧
    ∃ c', (op.run now id db).findById id = some c' ∧ historyMatchesLevel c' ∧
      c.escalationHistory <+: c'.escalationHistory ∧
      (c.escalationLevel ≤ 3 → c'.escalationLevel ≤ 3 ∧ c'.escalationHistory.length ≤ 2) ∧
      c'.escalationHistory.Pairwise (fun a b => a.level < b.level) := by
  have hnew : ∀ d : Complaint, d.escalationLevel = 1 → d.escalationHistory = [] →
      historyMatchesLevel d := by
    intro d h1 h2
    unfold historyMatchesLevel
    rw [h1, h2]
    exact ⟨rfl, fun k e he => absurd he (by simp)⟩
  refine ⟨hnew _ rfl rfl, fun hours => hnew _ rfl rfl, _, Op.run_findById op now h, ?_⟩
  have hinv' : historyMatchesLevel (op.after now db c) ∧
      c.escalationHistory <+: (op.after now db c).escalationHistory ∧
      (c.escalationLevel ≤ 3 → (op.after now db c).escalationLevel ≤ 3) := by
    rcases Op.after_escalation op now db c with ⟨h1, h2⟩ | ⟨hlt, h1, x, hx, h2⟩
    · refine ⟨?_, ?_, ?_⟩
      · unfold historyMatchesLevel
        rw [h1, h2]
        exact hinv
      · rw [h2]
      · intro hle
        rw [h1]
        exact hle
    · refine ⟨?_, ?_, ?_⟩
      · unfold historyMatchesLevel
        rw [h1, h2]
        refine ⟨?_, levels_append _ x hinv.2 ?_⟩
        · rw [hinv.1, List.length_append, List.length_singleton]
          omega
        · rw [hx, hinv.1]
          omega
      · rw [h2]
        exact List.prefix_append _ _
      · intro _
        rw [h1]
        omega
  refine ⟨hinv'.1, hinv'.2.1, ?_, levels_increasing _ hinv'.1.2⟩
  intro hle
  have h3 := hinv'.2.2 hle
  have h4 := hinv'.1.1
  exact ⟨h3, by omega⟩

/-- Claim C28 at the level-2 sample complaint and an escalation by the level-2 officer. -/
theorem historyMatchesLevel_preserved_witness :
    levelTwoDb.findById 1 = some levelTwoComplaint ∧ historyMatchesLevel levelTwoComplaint ∧
    historyMatchesLevel (newComplaint 500 sampleCitizen 2 sampleCreateBody) ∧
    (∀ hours, historyMatchesLevel (newRouteComplaint 500 sampleCitizen 2 sampleCreateBody hours)) ∧
    ∃ c', ((Op.escalateComplaint sampleOfficer (some "no progress")).run 5000 1
        levelTwoDb).findById 1 = some c' ∧
      historyMatchesLevel c' ∧
      levelTwoComplaint.escalationHistory <+: c'.escalationHistory ∧
      (levelTwoComplaint.escalationLevel ≤ 3 →
        c'.escalationLevel ≤ 3 ∧ c'.escalationHistory.length ≤ 2) ∧
      c'.escalationHistory.Pairwise (fun a b => a.level < b.level) :=
  have hinv : historyMatchesLevel levelTwoComplaint :=
    ⟨rfl, fun k e he => by
      match k, he with
      | 0, he =>
        simp only [levelTwoComplaint, List.getElem?_cons_zero, Option.some.injEq] at he
        rw [← he]
      | k + 1, he => simp [levelTwoComplaint] at he⟩
  ⟨rfl, hinv,
    historyMatchesLevel_preserved (.escalateComplaint sampleOfficer (some "no progress")) 5000 1
      levelTwoDb levelTwoComplaint sampleCitizen 2 sampleCreateBody rfl hinv⟩

/-- Runs of the job do not change a stored complaint that no completed run changes. -/
theorem sweeps_fixed (ticks : List ((Effect → Bool) × Date)) :
    ∀ (db : Db) (id : ObjectId) (c : Complaint), db.findById id = some c →
      (∀ now, sweepDoc now c = c) → (sweeps ticks db).1.findById id = some c := by
  induction ticks with
  | nil =>
    intro db id c h _
    exact h
  | cons t rest ih =>
    intro db id c h hfix
    obtain ⟨deliver, now⟩ := t
    have h1 : (deadlineChecker deliver now db).db.findById id = some c := by
      rw [deadlineChecker_findById deliver now h, hfix now, ite_self]
    exact ih _ id c h1 hfix

/-- A completed run leaves a complaint that was auto-escalated from level 1 as it is. -/
theorem sweepDoc_of_escalatedOnce (now : Date) (c c' : Complaint)
    (he : escalatedOnceByJob c c') : sweepDoc now c' = c' := by
  have h2 : ¬ pastDeadlineQuery now c' = true := by
    rw [pastDeadlineQuery_iff, he.1]
    simp
  have h3 : ¬ maxEscalatedQuery now c' = true := by
    rw [maxEscalatedQuery_iff, he.2.1]
    simp
  unfold sweepDoc autoStep
  rw [if_neg h2]
  unfold publicStep
  rw [if_neg h3]

/-- A completed run leaves a level-1 complaint as it is or auto-escalates it once. -/
theorem sweepDoc_of_new (now : Date) (c : Complaint) (hl : c.escalationLevel = 1) :
    sweepDoc now c = c ∨ escalatedOnceByJob c (sweepDoc now c) := by
  unfold sweepDoc autoStep
  by_cases hq : pastDeadlineQuery now c = true
  · right
    rw [if_pos hq]
    have ha : autoEscalate now c =
        { c with
          escalationLevel := 2, status := .escalated, updatedAt := now,
          escalationHistory := c.escalationHistory ++
            [{ level := 2, escalatedAt := now,
               reason := some "Auto-escalated due to missed deadline",
               escalatedBy := none }] } := by
      unfold autoEscalate
      rw [if_pos (by omega)]
      simp only [hl]
    have h3 : ¬ maxEscalatedQuery now (autoEscalate now c) = true := by
      rw [maxEscalatedQuery_iff, ha]
      simp
    unfold publicStep
    rw [if_neg h3, ha]
    exact ⟨rfl, rfl, rfl, now, rfl⟩
  · left
    rw [if_neg hq]
    have h3 : ¬ maxEscalatedQuery now c = true := by
      rw [maxEscalatedQuery_iff, hl]
      simp
    unfold publicStep
    rw [if_neg h3]

/-- After any runs of the job a level-1 complaint is as it was or auto-escalated once. -/
theorem sweeps_of_new (ticks : List ((Effect → Bool) × Date)) :
    ∀ (db : Db) (id : ObjectId) (c : Complaint), db.findById id = some c →
      c.escalationLevel = 1 →
      ∃ c', (sweeps ticks db).1.findById id = some c' ∧ (c' = c ∨ escalatedOnceByJob c c') := by
  induction ticks with
  | nil =>
    intro db id c h _
    exact ⟨c, h, Or.inl rfl⟩
  | cons t rest ih =>
    intro db id c h hl
    obtain ⟨deliver, now⟩ := t
    have h1 := deadlineChecker_findById deliver now h
    by_cases hc : (awaitAll deliver (warningCalls now db)).2 = true
    · rw [if_pos hc] at h1
      rcases sweepDoc_of_new now c hl with hsame | hesc
      · rw [hsame] at h1
        exact ih _ id c h1 hl
      · refine ⟨sweepDoc now c, ?_, Or.inr hesc⟩
        exact sweeps_fixed rest _ id _ h1 (fun t => sweepDoc_of_escalatedOnce t c _ hesc)
    · rw [if_neg hc] at h1
      exact ih _ id c h1 hl

/-- Claim C29: let a stored complaint have status `pending` and level 1. After any sequence of
runs of the job, at any times, the stored complaint is not at level 3 and not
`social_media`: it is as it was, or it has been auto-escalated once (status `escalated`,
level 2, same deadline, one more entry); and once it is auto-escalated, any further runs
leave the stored document as it is. -/
theorem new_complaint_never_passes_level_two (ticks later : List ((Effect → Bool) × Date))
    (db : Db) (id : ObjectId) (c : Complaint) (h : db.findById id = some c)
    (hs : c.status = .pending) (hl : c.escalationLevel = 1) :
    ∃ c', (sweeps ticks db).1.findById id = some c' ∧
      c'.escalationLevel ≠ 3 ∧ c'.status ≠ .social_media ∧
      (c' = c ∨ escalatedOnceByJob c c') ∧
      (escalatedOnceByJob c c' →
        (sweeps later (sweeps ticks db).1).1.findById id = some c') := by
  obtain ⟨c', hf, hinv⟩ := sweeps_of_new ticks db id c h hl
  refine ⟨c', hf, ?_, ?_, hinv, ?_⟩
  · rcases hinv with he | he
    · rw [he, hl]
      decide
    · rw [he.2.1]
      decide
  · rcases hinv with he | he
    · rw [he, hs]
      decide
    · rw [he.1]
      decide
  · intro he
    exact sweeps_fixed later _ id c' hf (fun t => sweepDoc_of_escalatedOnce t c c' he)

/-- Claim C29 at the sample complaint and runs before and after its deadline. -/
theorem new_complaint_never_passes_level_two_witness :
    sampleDb.findById 1 = some sampleComplaint ∧ sampleComplaint.status = .pending ∧
    sampleComplaint.escalationLevel = 1 ∧
    ∃ c', (sweeps [(fun _ => true, 500), (fun _ => true, 3601000), (fun _ => true, 180000000)]
        sampleDb).1.findById 1 = some c' ∧
      c'.escalationLevel ≠ 3 ∧ c'.status ≠ .social_media ∧
      (c' = sampleComplaint ∨ escalatedOnceByJob sampleComplaint c') ∧
      (escalatedOnceByJob sampleComplaint c' →
        (sweeps [(fun _ => true, 270000000)]
          (sweeps [(fun _ => true, 500), (fun _ => true, 3601000), (fun _ => true, 180000000)]
            sampleDb).1).1.findById 1 = some c') :=
  ⟨rfl, rfl, rfl,
    new_complaint_never_passes_level_two
      [(fun _ => true, 500), (fun _ => true, 3601000), (fun _ => true, 180000000)]
      [(fun _ => true, 270000000)] sampleDb 1 sampleComplaint rfl rfl rfl⟩

end ComplaintSys
